import Mathlib

/-!
# Verification of the RedisDB RESP streaming parser (src/parser.c, src/parser.h)

This file gives a shallow embedding of the C parser in `src/parser.c` of the
p5-RedisDB/RedisDB repository and proves properties of it.

Modelling conventions:

* A byte is a `Nat` (the relevant code never exceeds 255); a buffer is a
  `List Nat` consumed from the front (`sv_chop` becomes `List.drop`).
* Perl SV reply values become the tagged sum `Value`.  A nil bulk
  (`newSVpvn(NULL, 0)`) is `Value.bulk none`; an error object built by the
  external constructor `RedisDB::Error::new` is modelled as `Value.err line`
  carrying the raw message bytes (the constructor is external to this
  repository; the parser treats the object opaquely).
* Callbacks are opaque Perl SVs; they are modelled as `Nat` identifiers.
  A callback invocation `call_sv(cb, ...)` with arguments
  `(client_handle, reply)` is recorded as the triple `(cb, handle, reply)`.
* `croak` (a fatal Perl error) becomes the `fatal msg` result.
* `sv_utf8_decode` is Perl API external to this repository; its validity
  check is modelled by the RFC 3629 UTF-8 validator `validUtf8`.
* Machine integers: `mblk_level` is a C `int`, modelled as `Int` (the code
  decrements it and tests `> 0`, `!= 0`); `mblk_len` and `bulk_len` are
  C `unsigned long`, only ever assigned non-negative `long` values, modelled
  as `Nat`.  Line lengths are `long`, modelled via `Option Nat` (the C uses
  `-1` as the "not found" sentinel).
* `_line_length` iterates `for (i = 0; i < length - 1; i++)` over adjacent
  byte pairs; the model uses the same pair scan.  (For `length == 0` the C
  expression `length - 1` underflows `size_t`; that call never happens:
  every caller is guarded by `sv_len(parser->buffer) < 2` checks.)
* `rdb_parser__parse_reply`'s `while (1)` loop is modelled by the single
  loop-iteration function `step` (which also covers the one-time
  `RDBP_CLEAN` entry block, reachable only at entry because the state is
  never `RDBP_CLEAN` while the loop runs) iterated by the fuel-indexed
  `parseLoop`; every `cont` iteration strictly consumes buffer bytes, so
  fuel `buffer.length + 1` is always sufficient (proved below).
  For a `state` value outside 0..7 the C loop would spin forever; the model
  returns `needMore` there (such states are never produced by the code).
-/

namespace RedisDB

/-- Reply values produced by the parser (tagged sum over the five RESP kinds;
a nil array is emitted as a nil bulk, see `src/parser.c` line 367). -/
inductive Value where
  | simple (s : List Nat)
  | err (s : List Nat)
  | int (n : Int)
  | bulk (b : Option (List Nat))
  | array (items : List Value)

/-- `struct redisdb_parser` from `src/parser.h`. -/
structure PState where
  utf8 : Bool
  redisdb : Nat
  callbacks : List Nat
  default_cb : Option Nat
  buffer : List Nat
  state : Nat
  mblk_level : Int
  mblk_reply : Option (List Value)
  mblk_store : List (Option (List Value) × Nat)
  mblk_len : Nat
  bulk_len : Nat

/-- `RDBP_CLEAN` from `src/parser.h`. -/
abbrev RDBP_CLEAN : Nat := 0
/-- `RDBP_READ_LINE` from `src/parser.h`. -/
abbrev RDBP_READ_LINE : Nat := 1
/-- `RDBP_READ_ERROR` from `src/parser.h`. -/
abbrev RDBP_READ_ERROR : Nat := 2
/-- `RDBP_READ_NUMBER` from `src/parser.h`. -/
abbrev RDBP_READ_NUMBER : Nat := 3
/-- `RDBP_READ_BULK_LEN` from `src/parser.h`. -/
abbrev RDBP_READ_BULK_LEN : Nat := 4
/-- `RDBP_READ_BULK` from `src/parser.h`. -/
abbrev RDBP_READ_BULK : Nat := 5
/-- `RDBP_READ_MBLK_LEN` from `src/parser.h`. -/
abbrev RDBP_READ_MBLK_LEN : Nat := 6
/-- `RDBP_WAIT_BUCKS` from `src/parser.h`. -/
abbrev RDBP_WAIT_BUCKS : Nat := 7

/-- `rdb_parser__init` (`src/parser.c` lines 11-35).  `Newx` does not zero the
allocation, so `state`-machine scratch fields (`mblk_level`, `mblk_len`,
`bulk_len`) are uninitialized in C; they are set before first use by the
parser, and the model initializes them to 0. -/
def rdb_parser__init (redisdb : Nat) (utf8 : Bool) : PState :=
  { utf8 := utf8
    redisdb := redisdb
    callbacks := []
    default_cb := none
    buffer := []
    state := RDBP_CLEAN
    mblk_level := 0
    mblk_reply := none
    mblk_store := []
    mblk_len := 0
    bulk_len := 0 }

/-- The driver appends incoming socket bytes to the parser's buffer
(`append_bytes` of the programmatic surface; the buffer is written externally
to `src/parser.c`). -/
def PState.appendBytes (s : PState) (e : List Nat) : PState :=
  { s with buffer := s.buffer ++ e }

/-- `_line_length` scan (`src/parser.c` lines 87-99): index of the first
`\r\n` pair, scanning adjacent pairs from offset 0. -/
def lineLenAux : List Nat → Nat → Option Nat
  | a :: b :: t, i => if a = 13 ∧ b = 10 then some i else lineLenAux (b :: t) (i + 1)
  | _, _ => none

/-- `_line_length` (`src/parser.c` lines 87-99); `none` models the C return
value `-1`. -/
def _line_length (b : List Nat) : Option Nat := lineLenAux b 0

/-- `_read_line` (`src/parser.c` lines 104-118): on success returns the line
(bytes before the first CRLF) and the remaining buffer after `sv_chop`
past the CRLF. -/
def _read_line (b : List Nat) : Option (List Nat × List Nat) :=
  match _line_length b with
  | some len => some (b.take len, b.drop (len + 2))
  | none => none

/-- `isspace` of the C library (the 6 standard whitespace bytes), used by
`atol`. -/
def isspace (c : Nat) : Bool := c = 32 || (9 ≤ c && c ≤ 13)

/-- Digit-accumulation part of `atol`: consume decimal digits, stop at the
first non-digit. -/
def atolDigits : List Nat → Int → Int
  | [], acc => acc
  | c :: cs, acc =>
    if 48 ≤ c ∧ c ≤ 57 then atolDigits cs (acc * 10 + ((c : Int) - 48)) else acc

/-- Leading-whitespace skip of `atol`. -/
def skipws : List Nat → List Nat
  | [] => []
  | c :: cs => if isspace c then skipws cs else c :: cs

/-- C `atol` on a NUL-terminated line: skip whitespace, accept one optional
sign, then the longest run of decimal digits (no digits yields 0).  `atol`
is C library code; this is its standard semantics, which is how
`_read_number` and `_read_length` interpret a line. -/
def atolSigned : List Nat → Int
  | [] => 0
  | c :: cs =>
    if c = 45 then - atolDigits cs 0
    else if c = 43 then atolDigits cs 0
    else atolDigits (c :: cs) 0

/-- C `atol` on a NUL-terminated line as above: whitespace, sign, digits. -/
def atol (b : List Nat) : Int := atolSigned (skipws b)

/-- `_read_number` (`src/parser.c` lines 123-138): read a framed line and
parse it with `atol` (the C writes a NUL at the CRLF, so `atol` sees exactly
the line). -/
def _read_number (b : List Nat) : Option (Int × List Nat) :=
  match _line_length b with
  | some len => some (atol (b.take len), b.drop (len + 2))
  | none => none

/-- `_read_length` (`src/parser.c` lines 144-159): identical framing and
parsing to `_read_number`; `none` models the C sentinel `-2` returned
when the line is not finished (in which case nothing is consumed). -/
def _read_length (b : List Nat) : Option (Int × List Nat) :=
  match _line_length b with
  | some len => some (atol (b.take len), b.drop (len + 2))
  | none => none

/-- UTF-8 continuation byte (10xxxxxx). -/
def utf8Cont (c : Nat) : Bool := 128 ≤ c && c ≤ 191

/-- RFC 3629 UTF-8 validity; models the validity check of the Perl API call
`sv_utf8_decode` (external to this repository) on a bulk payload. -/
def validUtf8 : List Nat → Bool
  | [] => true
  | c :: cs =>
    if c ≤ 127 then validUtf8 cs
    else if 194 ≤ c ∧ c ≤ 223 then
      match cs with
      | c1 :: t => utf8Cont c1 && validUtf8 t
      | [] => false
    else if c = 224 then
      match cs with
      | c1 :: c2 :: t => (160 ≤ c1 && c1 ≤ 191) && utf8Cont c2 && validUtf8 t
      | _ => false
    else if (225 ≤ c ∧ c ≤ 236) ∨ c = 238 ∨ c = 239 then
      match cs with
      | c1 :: c2 :: t => utf8Cont c1 && utf8Cont c2 && validUtf8 t
      | _ => false
    else if c = 237 then
      match cs with
      | c1 :: c2 :: t => (128 ≤ c1 && c1 ≤ 159) && utf8Cont c2 && validUtf8 t
      | _ => false
    else if c = 240 then
      match cs with
      | c1 :: c2 :: c3 :: t =>
        (144 ≤ c1 && c1 ≤ 191) && utf8Cont c2 && utf8Cont c3 && validUtf8 t
      | _ => false
    else if 241 ≤ c ∧ c ≤ 243 then
      match cs with
      | c1 :: c2 :: c3 :: t =>
        utf8Cont c1 && utf8Cont c2 && utf8Cont c3 && validUtf8 t
      | _ => false
    else if c = 244 then
      match cs with
      | c1 :: c2 :: c3 :: t =>
        (128 ≤ c1 && c1 ≤ 143) && utf8Cont c2 && utf8Cont c3 && validUtf8 t
      | _ => false
    else false

/-- Result of one iteration of the `parse_reply` machine: a fatal `croak`,
a `return 0` (need more bytes, carrying the parser as left), one delivered
reply (`return 1`, carrying the invoked callback, the `client_handle`
argument and the reply), or another trip around the `while (1)` loop. -/
inductive StepRes where
  | fatal (msg : String)
  | needMore (s : PState)
  | cont (s : PState)
  | deliver (cb : Nat) (handle : Nat) (v : Value) (s : PState)

/-- `_mblk_item` (`src/parser.c` lines 222-240) acting on the multi-bulk
bookkeeping `(mblk_store, mblk_reply, mblk_len, mblk_level)`: push `v` onto
the current array; if more items are expected, decrement the count and
repeat (`true`); if an outer level exists, wrap the finished array, fetch
the outer frame (`_mblk_status_fetch`, `src/parser.c` lines 206-216, which
`croak`s on an empty stack) and recurse; else done (`false`).
`av_push` on a NULL `mblk_reply` would be undefined in C (never reachable);
the model reads it as `[]` via `Option.getD`. -/
def mblkItemAux :
    List (Option (List Value) × Nat) → List Value → Nat → Int → Value →
    Except String (Bool × List (Option (List Value) × Nat) × List Value × Nat × Int)
  | store, cur, len, level, v =>
    if len > 1 then .ok (true, store, cur ++ [v], len - 1, level)
    else if level > 1 then
      match store with
      | [] => .error "Already at the upper level of multi-bulk reply"
      | (r, l) :: rest => mblkItemAux rest (r.getD []) l (level - 1) (.array (cur ++ [v]))
    else .ok (false, store, cur ++ [v], len, level)

/-- Callback dispatch of `_reply_completed` (`src/parser.c` lines 259-280):
set the state to `RDBP_CLEAN`, then shift the head of the callback FIFO if
non-empty, else use the default callback (leaving it installed), else
`croak`; the chosen callback is invoked with `(client_handle, reply)`. -/
def dispatchReply (s : PState) (reply : Value) : StepRes :=
  match s.callbacks with
  | c :: cs => .deliver c s.redisdb reply { s with state := RDBP_CLEAN, callbacks := cs }
  | [] =>
    match s.default_cb with
    | some d => .deliver d s.redisdb reply { s with state := RDBP_CLEAN }
    | none => .fatal "No callbacks in the queue and no default callback set"

/-- `_reply_completed` (`src/parser.c` lines 246-283): if inside a multi-bulk
reply, run `_mblk_item`; on repeat, continue the loop in `RDBP_WAIT_BUCKS`;
otherwise wrap the finished top array (clearing `mblk_reply`) and dispatch. -/
def _reply_completed (s : PState) (v : Value) : StepRes :=
  if s.mblk_level ≠ 0 then
    match mblkItemAux s.mblk_store (s.mblk_reply.getD []) s.mblk_len s.mblk_level v with
    | .error m => .fatal m
    | .ok (true, store, cur, len, level) =>
      .cont { s with state := RDBP_WAIT_BUCKS, mblk_store := store,
                     mblk_reply := some cur, mblk_len := len, mblk_level := level }
    | .ok (false, store, cur, len, level) =>
      dispatchReply { s with mblk_store := store, mblk_reply := none,
                             mblk_len := len, mblk_level := level } (.array cur)
  else dispatchReply s v

/-- One iteration of `rdb_parser__parse_reply` (`src/parser.c` lines 285-395):
the empty-buffer entry check (line 291), the `RDBP_CLEAN` tag consumption
(lines 293-316, reachable only at entry), and one trip of the `while (1)`
loop (lines 318-392) beginning with its `sv_len < 2` check. -/
def step (s : PState) : StepRes :=
  if s.buffer = [] then .needMore s
  else if s.state = RDBP_CLEAN then
    match s.buffer with
    | [] => .needMore s
    | op :: rest =>
      if op = 43 then .cont { s with mblk_level := 0, state := RDBP_READ_LINE, buffer := rest }
      else if op = 45 then .cont { s with mblk_level := 0, state := RDBP_READ_ERROR, buffer := rest }
      else if op = 58 then .cont { s with mblk_level := 0, state := RDBP_READ_NUMBER, buffer := rest }
      else if op = 36 then .cont { s with mblk_level := 0, state := RDBP_READ_BULK_LEN, buffer := rest }
      else if op = 42 then .cont { s with mblk_level := 1, state := RDBP_READ_MBLK_LEN, buffer := rest }
      else .fatal "Got invalid reply"
  else if s.buffer.length < 2 then .needMore s
  else if s.state = RDBP_READ_LINE then
    match _read_line s.buffer with
    | none => .needMore s
    | some (line, rest) => _reply_completed { s with buffer := rest } (.simple line)
  else if s.state = RDBP_READ_ERROR then
    match _read_line s.buffer with
    | none => .needMore s
    | some (line, rest) => _reply_completed { s with buffer := rest } (.err line)
  else if s.state = RDBP_READ_NUMBER then
    match _read_number s.buffer with
    | none => .needMore s
    | some (n, rest) => _reply_completed { s with buffer := rest } (.int n)
  else if s.state = RDBP_READ_BULK_LEN then
    match _read_length s.buffer with
    | none => .needMore s
    | some (len, rest) =>
      if len ≥ 0 then
        .cont { s with state := RDBP_READ_BULK, bulk_len := len.toNat, buffer := rest }
      else if len = -1 then _reply_completed { s with buffer := rest } (.bulk none)
      else .needMore { s with buffer := rest }
  else if s.state = RDBP_READ_BULK then
    if s.buffer.length < 2 + s.bulk_len then .needMore s
    else if s.utf8 ∧ ¬ validUtf8 (s.buffer.take s.bulk_len) then
      .fatal "Received invalid UTF-8 string from the server"
    else
      _reply_completed { s with buffer := s.buffer.drop (s.bulk_len + 2) }
        (.bulk (some (s.buffer.take s.bulk_len)))
  else if s.state = RDBP_READ_MBLK_LEN then
    match _read_length s.buffer with
    | none => .needMore s
    | some (len, rest) =>
      if len > 0 then
        .cont { s with mblk_len := len.toNat, state := RDBP_WAIT_BUCKS,
                       mblk_reply := some [], buffer := rest }
      else if len = 0 ∨ len = -1 then
        if s.mblk_level - 1 > 0 then
          match s.mblk_store with
          | [] => .fatal "Already at the upper level of multi-bulk reply"
          | (r, l) :: rest' =>
            _reply_completed
              { s with buffer := rest, mblk_level := s.mblk_level - 1,
                       mblk_len := l, mblk_reply := r, mblk_store := rest' }
              (if len = 0 then .array [] else .bulk none)
        else
          _reply_completed { s with buffer := rest, mblk_level := s.mblk_level - 1 }
            (if len = 0 then .array [] else .bulk none)
      else .needMore { s with buffer := rest }
  else if s.state = RDBP_WAIT_BUCKS then
    match s.buffer with
    | [] => .needMore s
    | op :: rest =>
      if op = 36 then .cont { s with state := RDBP_READ_BULK_LEN, buffer := rest }
      else if op = 58 then .cont { s with state := RDBP_READ_NUMBER, buffer := rest }
      else if op = 43 then .cont { s with state := RDBP_READ_LINE, buffer := rest }
      else if op = 45 then .cont { s with state := RDBP_READ_ERROR, buffer := rest }
      else if op = 42 then
        .cont { s with state := RDBP_READ_MBLK_LEN, mblk_level := s.mblk_level + 1,
                       mblk_store := (s.mblk_reply, s.mblk_len) :: s.mblk_store,
                       mblk_reply := none, buffer := rest }
      else .fatal "Invalid multi-bulk reply. Expected [$:+-*] but got something else"
  else .needMore s

/-- Result of one `rdb_parser__parse_reply` call: `croak`, `return 0`
(need more data), or `return 1` with the reply that was completed and
dispatched. -/
inductive PRes where
  | fatal (msg : String)
  | needMore (s : PState)
  | delivered (cb : Nat) (handle : Nat) (v : Value) (s : PState)

/-- Fuel-indexed iteration of `step`; `rdb_parser__parse_reply` is
`parseLoop` with fuel `buffer.length + 1`, which is proved sufficient
(every `cont` iteration strictly shrinks the buffer). -/
def parseLoop : Nat → PState → PRes
  | 0, s => .needMore s
  | fuel + 1, s =>
    match step s with
    | .fatal m => .fatal m
    | .needMore t => .needMore t
    | .deliver c h v t => .delivered c h v t
    | .cont u => parseLoop fuel u

/-- `rdb_parser__parse_reply` (`src/parser.c` lines 285-395). -/
def rdb_parser__parse_reply (s : PState) : PRes :=
  parseLoop (s.buffer.length + 1) s

/-- Invocation loop of `rdb_parser__propagate_reply` (`src/parser.c`
lines 56-85): shift and invoke every queued callback in FIFO order, then
invoke and clear the default callback; the iteration after the default
callback is consumed finds no callback and breaks (inlined here as the
final list). -/
def propagateLoop : List Nat → Option Nat → List Nat
  | c :: cs, d => c :: propagateLoop cs d
  | [], some d => [d]
  | [], none => []

/-- `rdb_parser__propagate_reply` (`src/parser.c` lines 56-85): returns the
invocation list (each entry `(cb, client_handle, reply)`) and the parser
afterwards. -/
def rdb_parser__propagate_reply (s : PState) (reply : Value) :
    List (Nat × Nat × Value) × PState :=
  ((propagateLoop s.callbacks s.default_cb).map (fun c => (c, s.redisdb, reply)),
   { s with callbacks := [], default_cb := none })

/-- One driver round after an append: call `rdb_parser__parse_reply`
repeatedly until it returns 0 (`NeedMore`), collecting the dispatched
callback invocations; a `croak` aborts the round.  Fuel-indexed; every
delivered reply strictly shrinks the buffer, so `buffer.length + 1`
suffices. -/
def runLoop : Nat → PState → Except String (List (Nat × Nat × Value) × PState)
  | 0, s => .ok ([], s)
  | fuel + 1, s =>
    match rdb_parser__parse_reply s with
    | .fatal m => .error m
    | .needMore t => .ok ([], t)
    | .delivered c h v t =>
      match runLoop fuel t with
      | .error m => .error m
      | .ok (l, u) => .ok ((c, h, v) :: l, u)

/-- Drain the parser after an append (the driver loop "call `parse_reply`
until it returns `NeedMore`"). -/
def runAll (s : PState) : Except String (List (Nat × Nat × Value) × PState) :=
  runLoop (s.buffer.length + 1) s

/-- Feed a list of chunks: append each chunk in order and drain the parser
after each append, concatenating the callback invocations. -/
def feed (s : PState) : List (List Nat) → Except String (List (Nat × Nat × Value) × PState)
  | [] => .ok ([], s)
  | c :: cs =>
    match runAll (s.appendBytes c) with
    | .error m => .error m
    | .ok (l, t) =>
      match feed t cs with
      | .error m => .error m
      | .ok (l', u) => .ok (l ++ l', u)

/-- Specification-side predicate: the buffer holds the byte pair `\r\n`
at offset `k`. -/
def crlfAt (b : List Nat) (k : Nat) : Prop := b[k]? = some 13 ∧ b[k + 1]? = some 10

instance (b : List Nat) (k : Nat) : Decidable (crlfAt b k) := by
  unfold crlfAt; infer_instance

/-- Specification-side check: no `\r\n` pair occurs anywhere in the list
(so a line with this content is framed by the next CRLF). -/
def noCRLFb : List Nat → Bool
  | [] => true
  | [_] => true
  | a :: b :: t => (!((a == 13) && (b == 10))) && noCRLFb (b :: t)

/-- Specification-side decimal value of a digit byte list (most significant
first), as an integer. -/
def decVal (ds : List Nat) : Int :=
  ds.foldl (fun (a : Int) (c : Nat) => a * 10 + ((c : Int) - 48)) 0

/-- Decimal ASCII encoding of a natural number (no sign, no padding). -/
def encNat (n : Nat) : List Nat :=
  if n = 0 then [48] else (Nat.digits 10 n).reverse.map (fun d => d + 48)

/-- Decimal ASCII encoding of an integer (leading `-` when negative). -/
def encInt (n : Int) : List Nat :=
  if n < 0 then 45 :: encNat n.natAbs else encNat n.toNat

mutual
/-- A single well-formed RESP reply frame (specification side, from the wire
format of the spec): simple string, error, integer, bulk (possibly nil),
nil array (`*-1`), or array of nested frames. -/
inductive Frame where
  | simple (s : List Nat)
  | err (s : List Nat)
  | int (n : Int)
  | bulk (b : Option (List Nat))
  | nilArray
  | array (items : FrameList)

/-- A list of RESP frames (separate inductive so that all functions over
frames are structurally recursive). -/
inductive FrameList where
  | nil
  | cons (f : Frame) (fs : FrameList)
end

/-- Number of frames in a `FrameList`. -/
def FrameList.length : FrameList → Nat
  | .nil => 0
  | .cons _ fs => fs.length + 1

mutual
/-- RESP wire encoding of a frame (the byte stream a server sends). -/
def encFrame : Frame → List Nat
  | .simple s => 43 :: (s ++ [13, 10])
  | .err s => 45 :: (s ++ [13, 10])
  | .int n => 58 :: (encInt n ++ [13, 10])
  | .bulk none => [36, 45, 49, 13, 10]
  | .bulk (some p) => 36 :: (encNat p.length ++ [13, 10] ++ p ++ [13, 10])
  | .nilArray => [42, 45, 49, 13, 10]
  | .array items => 42 :: (encNat items.length ++ [13, 10] ++ encFList items)

/-- RESP wire encoding of a sequence of frames (concatenation). -/
def encFList : FrameList → List Nat
  | .nil => []
  | .cons f fs => encFrame f ++ encFList fs
end

mutual
/-- The `Value` the parser builds for a frame.  A nil array (`*-1`) becomes
`Value.bulk none`, matching `src/parser.c` line 367. -/
def frameVal : Frame → Value
  | .simple s => .simple s
  | .err s => .err s
  | .int n => .int n
  | .bulk b => .bulk b
  | .nilArray => .bulk none
  | .array items => .array (fvalList items)

/-- Values of a frame list. -/
def fvalList : FrameList → List Value
  | .nil => []
  | .cons f fs => frameVal f :: fvalList fs
end

/-- Value of the last frame of the non-empty frame list `f :: fs`. -/
def lastVal : Frame → FrameList → Value
  | f, .nil => frameVal f
  | _, .cons g gs => lastVal g gs

/-- Values of all but the last frame of the non-empty frame list `f :: fs`. -/
def frontVals : Frame → FrameList → List Value
  | _, .nil => []
  | f, .cons g gs => frameVal f :: frontVals g gs

mutual
/-- Well-formedness of a frame for a parser with the given `utf8` flag:
simple/error lines contain no CRLF (otherwise the stream would re-frame),
and in utf8 mode bulk payloads are valid UTF-8 (otherwise the parser
`croak`s). -/
def Frame.WFb (utf8 : Bool) : Frame → Bool
  | .simple s => noCRLFb s
  | .err s => noCRLFb s
  | .int _ => true
  | .bulk none => true
  | .bulk (some p) => !utf8 || validUtf8 p
  | .nilArray => true
  | .array items => FrameList.WFb utf8 items

/-- Well-formedness of every frame in a list. -/
def FrameList.WFb (utf8 : Bool) : FrameList → Bool
  | .nil => true
  | .cons f fs => f.WFb utf8 && FrameList.WFb utf8 fs
end

/-- `r` is produced from `s` after zero or more `cont` loop iterations. -/
inductive Reaches : PState → StepRes → Prop where
  | done {s : PState} {r : StepRes} : step s = r → Reaches s r
  | trans {s u : PState} {r : StepRes} : step s = .cont u → Reaches u r → Reaches s r

/-- From `s`, the loop runs through `cont` iterations and then stops with a
stable `needMore`: the stopping iteration returns its own state unchanged
(so re-running from `t` needs more bytes at exactly the same point). -/
inductive StableStop : PState → PState → Prop where
  | here {s : PState} : step s = .needMore s → StableStop s s
  | step {s u t : PState} : step s = .cont u → StableStop u t → StableStop s t

/-- From `s`, the loop runs through `cont` iterations and then delivers one
reply: callback `c` is invoked with `(h, v)` and the parser is left at `t`. -/
inductive Delivers : PState → Nat → Nat → Value → PState → Prop where
  | here {s t : PState} {c h : Nat} {v : Value} :
      step s = .deliver c h v t → Delivers s c h v t
  | step {s u t : PState} {c h : Nat} {v : Value} :
      step s = .cont u → Delivers u c h v t → Delivers s c h v t

/-- A good driver round from `s`: a sequence of delivered replies (each one
`rdb_parser__parse_reply` call) followed by a stable stop at `t`. -/
inductive GoodRun : PState → List (Nat × Nat × Value) → PState → Prop where
  | stop {s t : PState} : StableStop s t → GoodRun s [] t
  | cons {s u t : PState} {c h : Nat} {v : Value} {l : List (Nat × Nat × Value)} :
      Delivers s c h v u → GoodRun u l t → GoodRun s ((c, h, v) :: l) t

example :
    rdb_parser__parse_reply
      { rdb_parser__init 5 false with
          default_cb := some 9, buffer := [43, 79, 75, 13, 10] } =
    .delivered 9 5 (.simple [79, 75])
      { rdb_parser__init 5 false with
          default_cb := some 9, state := RDBP_CLEAN } := rfl

/-! ## Lemmas about the line scanner `_line_length` / `_read_line` -/

theorem lineLenAux_spec (b : List Nat) :
    ∀ i k, lineLenAux b i = some k →
      ∃ j, k = i + j ∧ crlfAt b j ∧ ∀ j' < j, ¬ crlfAt b j' := by
  induction b with
  | nil => intro i k h; simp [lineLenAux] at h
  | cons a rest ih =>
    intro i k h
    cases rest with
    | nil => simp [lineLenAux] at h
    | cons b t =>
      rw [lineLenAux] at h
      split at h
      · rename_i hc
        cases h
        exact ⟨0, by omega, by simp [crlfAt, hc.1, hc.2], by omega⟩
      · rename_i hc
        obtain ⟨j, hk, hcrlf, hmin⟩ := ih (i + 1) k h
        refine ⟨j + 1, by omega, ?_, ?_⟩
        · simpa [crlfAt] using hcrlf
        · intro j' hj'
          cases j' with
          | zero => simp [crlfAt]; intro h13 h10; exact hc ⟨h13, h10⟩
          | succ j'' =>
            have := hmin j'' (by omega)
            simpa [crlfAt] using this

theorem lineLenAux_of_crlf (b : List Nat) :
    ∀ i k, crlfAt b k → (∀ j < k, ¬ crlfAt b j) → lineLenAux b i = some (i + k) := by
  induction b with
  | nil => intro i k h _; simp [crlfAt] at h
  | cons a rest ih =>
    intro i k h hmin
    cases rest with
    | nil =>
      exfalso
      rcases h with ⟨h1, h2⟩
      cases k with
      | zero => simp at h2
      | succ k' => simp at h1
    | cons b t =>
      rw [lineLenAux]
      split
      · rename_i hc
        cases k with
        | zero => rfl
        | succ k' =>
          exfalso
          exact hmin 0 (by omega) (by simp [crlfAt, hc.1, hc.2])
      · rename_i hc
        cases k with
        | zero =>
          exfalso
          rcases h with ⟨h1, h2⟩
          simp [crlfAt] at h1 h2
          exact hc ⟨h1, h2⟩
        | succ k' =>
          have h' : crlfAt (b :: t) k' := by simpa [crlfAt] using h
          have hmin' : ∀ j < k', ¬ crlfAt (b :: t) j := by
            intro j hj hcj
            exact hmin (j + 1) (by omega) (by simpa [crlfAt] using hcj)
          have := ih (i + 1) k' h' hmin'
          rw [this]
          congr 1
          omega

theorem lineLenAux_of_noCRLF (b : List Nat) :
    ∀ i, (∀ k, ¬ crlfAt b k) → lineLenAux b i = none := by
  induction b with
  | nil => intro i _; simp [lineLenAux]
  | cons a rest ih =>
    intro i hno
    cases rest with
    | nil => simp [lineLenAux]
    | cons b t =>
      rw [lineLenAux]
      split
      · rename_i hc
        exact absurd (show crlfAt (a :: b :: t) 0 by simp [crlfAt, hc.1, hc.2]) (hno 0)
      · exact ih (i + 1) (fun k hk => hno (k + 1) (by simpa [crlfAt] using hk))

theorem _line_length_spec {b : List Nat} {k : Nat} (h : _line_length b = some k) :
    crlfAt b k ∧ ∀ j < k, ¬ crlfAt b j := by
  obtain ⟨j, hk, hc, hmin⟩ := lineLenAux_spec b 0 k h
  have : j = k := by omega
  subst this
  exact ⟨hc, hmin⟩

theorem _line_length_of_crlf {b : List Nat} {k : Nat}
    (h : crlfAt b k) (hmin : ∀ j < k, ¬ crlfAt b j) : _line_length b = some k := by
  simpa using lineLenAux_of_crlf b 0 k h hmin

theorem _line_length_of_noCRLF {b : List Nat} (h : ∀ k, ¬ crlfAt b k) :
    _line_length b = none :=
  lineLenAux_of_noCRLF b 0 h

theorem crlfAt_length {b : List Nat} {k : Nat} (h : crlfAt b k) : k + 2 ≤ b.length := by
  rcases h with ⟨_, h2⟩
  have := (List.getElem?_eq_some_iff.mp h2).1
  omega

theorem _line_length_le {b : List Nat} {k : Nat} (h : _line_length b = some k) :
    k + 2 ≤ b.length :=
  crlfAt_length (_line_length_spec h).1

theorem crlfAt_append_left {b e : List Nat} {k : Nat} (hk : k + 2 ≤ b.length)
    (h : crlfAt b k) : crlfAt (b ++ e) k := by
  rcases h with ⟨h1, h2⟩
  constructor
  · rwa [List.getElem?_append_left (by omega)]
  · rwa [List.getElem?_append_left (by omega)]

theorem crlfAt_append_elim {b e : List Nat} {j : Nat} (hj : j + 2 ≤ b.length)
    (h : crlfAt (b ++ e) j) : crlfAt b j := by
  rcases h with ⟨h1, h2⟩
  rw [List.getElem?_append_left (by omega)] at h1
  rw [List.getElem?_append_left (by omega)] at h2
  exact ⟨h1, h2⟩

theorem _line_length_append {b e : List Nat} {k : Nat} (h : _line_length b = some k) :
    _line_length (b ++ e) = some k := by
  obtain ⟨hc, hmin⟩ := _line_length_spec h
  have hlen := crlfAt_length hc
  refine _line_length_of_crlf (crlfAt_append_left hlen hc) ?_
  intro j hj hcj
  exact hmin j hj (crlfAt_append_elim (by omega) hcj)

theorem noCRLFb_no_pair {b : List Nat} (h : noCRLFb b = true) : ∀ j, ¬ crlfAt b j := by
  induction b with
  | nil => intro j hc; simp [crlfAt] at hc
  | cons a rest ih =>
    intro j hc
    cases rest with
    | nil =>
      rcases hc with ⟨h1, h2⟩
      cases j with
      | zero => simp at h2
      | succ j' => simp at h1
    | cons b t =>
      rw [noCRLFb] at h
      simp only [Bool.and_eq_true, Bool.not_eq_true'] at h
      cases j with
      | zero =>
        rcases hc with ⟨h1, h2⟩
        simp [crlfAt] at h1 h2
        subst h1; subst h2
        simp at h
      | succ j' => exact ih h.2 j' (by simpa [crlfAt] using hc)

theorem _line_length_frame {line rest : List Nat} (h : noCRLFb line = true) :
    _line_length (line ++ 13 :: 10 :: rest) = some line.length := by
  refine _line_length_of_crlf ⟨?_, ?_⟩ ?_
  · rw [List.getElem?_append_right (by omega)]
    simp
  · rw [List.getElem?_append_right (by omega)]
    simp
  · intro j hj hcj
    rcases hcj with ⟨h1, h2⟩
    rw [List.getElem?_append_left (by omega)] at h1
    rcases Nat.lt_or_ge (j + 1) line.length with hlt | hge
    · rw [List.getElem?_append_left hlt] at h2
      exact noCRLFb_no_pair h j ⟨h1, h2⟩
    · have : j + 1 = line.length := by omega
      rw [List.getElem?_append_right (by omega), this] at h2
      simp at h2

/-! ## Lemmas about `atol` and the decimal encodings -/

theorem atolDigits_eq_foldl (ds : List Nat) :
    ∀ acc, (∀ c ∈ ds, 48 ≤ c ∧ c ≤ 57) →
      atolDigits ds acc = ds.foldl (fun (a : Int) (c : Nat) => a * 10 + ((c : Int) - 48)) acc := by
  induction ds with
  | nil => intro acc _; rfl
  | cons c cs ih =>
    intro acc hds
    rw [atolDigits, if_pos (hds c (by simp)), List.foldl_cons]
    exact ih _ (fun x hx => hds x (by simp [hx]))

theorem atolDigits_append_stop (ds : List Nat) :
    ∀ (junk : List Nat) acc, (∀ j js, junk = j :: js → ¬ (48 ≤ j ∧ j ≤ 57)) →
      atolDigits (ds ++ junk) acc = atolDigits ds acc := by
  induction ds with
  | nil =>
    intro junk acc hj
    cases junk with
    | nil => rfl
    | cons j js => simp [atolDigits, hj j js rfl]
  | cons c cs ih =>
    intro junk acc hj
    by_cases hc : 48 ≤ c ∧ c ≤ 57
    · simp only [List.cons_append, atolDigits, if_pos hc]
      exact ih junk _ hj
    · simp [atolDigits, hc]

theorem atolDigits_map_digits (l : List Nat) :
    ∀ acc : Int, (∀ d ∈ l, d < 10) →
      atolDigits (l.map (fun d => d + 48)) acc =
        acc * 10 ^ l.length + (((Nat.ofDigits 10 l.reverse : Nat)) : Int) := by
  induction l with
  | nil => intro acc _; simp [atolDigits, Nat.ofDigits]
  | cons d t ih =>
    intro acc hl
    have hd : d < 10 := hl d (by simp)
    rw [List.map_cons, atolDigits, if_pos (by omega)]
    rw [ih _ (fun x hx => hl x (by simp [hx]))]
    rw [List.reverse_cons]
    rw [show ((Nat.ofDigits 10 (t.reverse ++ [d]) : Nat)) =
      (Nat.ofDigits 10 t.reverse : Nat) + 10 ^ t.reverse.length * d by
        rw [Nat.ofDigits_append]; simp [Nat.ofDigits]]
    push_cast
    simp only [List.length_reverse, List.length_cons]
    ring

theorem encNat_digits (n : Nat) : ∀ c ∈ encNat n, 48 ≤ c ∧ c ≤ 57 := by
  intro c hc
  unfold encNat at hc
  split at hc
  · simp at hc; omega
  · obtain ⟨d, hd, rfl⟩ := List.mem_map.mp hc
    have := Nat.digits_lt_base (by norm_num) (List.mem_reverse.mp hd)
    omega

theorem atolDigits_encNat (n : Nat) : atolDigits (encNat n) 0 = n := by
  unfold encNat
  split
  · subst n; simp [atolDigits]
  · rw [atolDigits_map_digits _ 0
      (fun d hd => Nat.digits_lt_base (by norm_num) (List.mem_reverse.mp hd))]
    rw [List.reverse_reverse, Nat.ofDigits_digits]
    simp

theorem isspace_digit_false {c : Nat} (h : 48 ≤ c) : isspace c = false := by
  simp [isspace]; omega

theorem skipws_nonspace {c : Nat} (cs : List Nat) (h : isspace c = false) :
    skipws (c :: cs) = c :: cs := by
  simp [skipws, h]

theorem atol_encInt (n : Int) : atol (encInt n) = n := by
  unfold encInt
  split
  · rename_i hn
    rw [atol, skipws_nonspace _ (by simp [isspace])]
    rw [atolSigned, if_pos rfl, atolDigits_encNat]
    omega
  · rename_i hn
    have h48 : ∀ c ∈ encNat n.toNat, 48 ≤ c ∧ c ≤ 57 := encNat_digits _
    have hne : encNat n.toNat ≠ [] := by
      unfold encNat; split
      · simp
      · simp [Nat.digits_ne_nil_iff_ne_zero, *]
    obtain ⟨c, cs, hcons⟩ := List.exists_cons_of_ne_nil hne
    have hc : 48 ≤ c ∧ c ≤ 57 := h48 c (by rw [hcons]; simp)
    rw [atol, hcons, skipws_nonspace _ (isspace_digit_false hc.1)]
    rw [atolSigned, if_neg (by omega), if_neg (by omega), ← hcons, atolDigits_encNat]
    omega

theorem encNat_ne13 (n : Nat) : ∀ c ∈ encNat n, c ≠ 13 := by
  intro c hc
  have := encNat_digits n c hc
  omega

theorem noCRLFb_of_no13 (b : List Nat) (h : ∀ c ∈ b, c ≠ 13) : noCRLFb b = true := by
  induction b with
  | nil => rfl
  | cons a rest ih =>
    cases rest with
    | nil => rfl
    | cons x t =>
      rw [noCRLFb]
      have ha : a ≠ 13 := h a (by simp)
      simp only [Bool.and_eq_true, Bool.not_eq_true']
      refine ⟨by simp [ha], ih (fun c hc => h c (by simp [hc]))⟩

theorem noCRLFb_encInt (n : Int) : noCRLFb (encInt n) = true := by
  refine noCRLFb_of_no13 _ ?_
  intro c hc
  unfold encInt at hc
  split at hc
  · rcases List.mem_cons.mp hc with h | h
    · omega
    · exact encNat_ne13 _ c h
  · exact encNat_ne13 _ c hc

/-! ## Framed-line corollaries for the three readers -/

theorem _read_line_frame {line rest : List Nat} (h : noCRLFb line = true) :
    _read_line (line ++ 13 :: 10 :: rest) = some (line, rest) := by
  rw [_read_line, _line_length_frame h]
  have ht : (line ++ 13 :: 10 :: rest).take line.length = line := List.take_left line _
  have hd : (line ++ 13 :: 10 :: rest).drop (line.length + 2) = rest := by
    rw [show line ++ 13 :: 10 :: rest = (line ++ [13, 10]) ++ rest by simp]
    rw [show line.length + 2 = (line ++ [13, 10]).length by simp]
    exact List.drop_left _ _
  simp [ht, hd]

theorem _read_number_frame {line rest : List Nat} (h : noCRLFb line = true) :
    _read_number (line ++ 13 :: 10 :: rest) = some (atol line, rest) := by
  rw [_read_number, _line_length_frame h]
  have ht : (line ++ 13 :: 10 :: rest).take line.length = line := List.take_left line _
  have hd : (line ++ 13 :: 10 :: rest).drop (line.length + 2) = rest := by
    rw [show line ++ 13 :: 10 :: rest = (line ++ [13, 10]) ++ rest by simp]
    rw [show line.length + 2 = (line ++ [13, 10]).length by simp]
    exact List.drop_left _ _
  simp [ht, hd]

theorem _read_length_frame {line rest : List Nat} (h : noCRLFb line = true) :
    _read_length (line ++ 13 :: 10 :: rest) = some (atol line, rest) := by
  rw [_read_length, _line_length_frame h]
  have ht : (line ++ 13 :: 10 :: rest).take line.length = line := List.take_left line _
  have hd : (line ++ 13 :: 10 :: rest).drop (line.length + 2) = rest := by
    rw [show line ++ 13 :: 10 :: rest = (line ++ [13, 10]) ++ rest by simp]
    rw [show line.length + 2 = (line ++ [13, 10]).length by simp]
    exact List.drop_left _ _
  simp [ht, hd]

theorem _read_length_encInt {n : Int} {rest : List Nat} :
    _read_length (encInt n ++ 13 :: 10 :: rest) = some (n, rest) := by
  rw [_read_length_frame (noCRLFb_encInt n), atol_encInt]

theorem _read_length_len {b : List Nat} {n : Int} {rest : List Nat}
    (h : _read_length b = some (n, rest)) :
    2 ≤ b.length ∧ rest.length < b.length ∧ ∃ k, _line_length b = some k ∧
      rest = b.drop (k + 2) ∧ n = atol (b.take k) := by
  rw [_read_length] at h
  cases hll : _line_length b with
  | none => rw [hll] at h; cases h
  | some k =>
    rw [hll] at h
    have hk := _line_length_le hll
    cases h
    refine ⟨by omega, ?_, k, rfl, rfl, rfl⟩
    rw [List.length_drop]
    omega

theorem _read_line_len {b line rest : List Nat}
    (h : _read_line b = some (line, rest)) :
    2 ≤ b.length ∧ rest.length < b.length ∧ ∃ k, _line_length b = some k ∧
      line = b.take k ∧ rest = b.drop (k + 2) := by
  rw [_read_line] at h
  cases hll : _line_length b with
  | none => rw [hll] at h; cases h
  | some k =>
    rw [hll] at h
    have hk := _line_length_le hll
    cases h
    refine ⟨by omega, ?_, k, rfl, rfl, rfl⟩
    rw [List.length_drop]
    omega

theorem _read_number_len {b : List Nat} {n : Int} {rest : List Nat}
    (h : _read_number b = some (n, rest)) :
    2 ≤ b.length ∧ rest.length < b.length ∧ ∃ k, _line_length b = some k ∧
      rest = b.drop (k + 2) ∧ n = atol (b.take k) := by
  rw [_read_number] at h
  cases hll : _line_length b with
  | none => rw [hll] at h; cases h
  | some k =>
    rw [hll] at h
    have hk := _line_length_le hll
    cases h
    refine ⟨by omega, ?_, k, rfl, rfl, rfl⟩
    rw [List.length_drop]
    omega

theorem _read_line_append {b e line rest : List Nat}
    (h : _read_line b = some (line, rest)) :
    _read_line (b ++ e) = some (line, rest ++ e) := by
  obtain ⟨h2, _, k, hll, hline, hrest⟩ := _read_line_len h
  have hk := _line_length_le hll
  have h1 : (b ++ e).take k = b.take k := List.take_append_of_le_length (by omega)
  have h2 : (b ++ e).drop (k + 2) = b.drop (k + 2) ++ e :=
    List.drop_append_of_le_length (by omega)
  rw [_read_line, _line_length_append hll]
  simp [h1, h2, hline, hrest]

theorem _read_number_append {b e : List Nat} {n : Int} {rest : List Nat}
    (h : _read_number b = some (n, rest)) :
    _read_number (b ++ e) = some (n, rest ++ e) := by
  obtain ⟨h2, _, k, hll, hrest, hn⟩ := _read_number_len h
  have hk := _line_length_le hll
  have h1 : (b ++ e).take k = b.take k := List.take_append_of_le_length (by omega)
  have h2 : (b ++ e).drop (k + 2) = b.drop (k + 2) ++ e :=
    List.drop_append_of_le_length (by omega)
  rw [_read_number, _line_length_append hll]
  simp [h1, h2, ← hn, hrest]

theorem _read_length_append {b e : List Nat} {n : Int} {rest : List Nat}
    (h : _read_length b = some (n, rest)) :
    _read_length (b ++ e) = some (n, rest ++ e) := by
  obtain ⟨h2, _, k, hll, hrest, hn⟩ := _read_length_len h
  have hk := _line_length_le hll
  have h1 : (b ++ e).take k = b.take k := List.take_append_of_le_length (by omega)
  have h2 : (b ++ e).drop (k + 2) = b.drop (k + 2) ++ e :=
    List.drop_append_of_le_length (by omega)
  rw [_read_length, _line_length_append hll]
  simp [h1, h2, ← hn, hrest]

/-! ## Characterization of one loop iteration (`step`) -/

theorem step_cases (s : PState) :
    (s.buffer = [] ∧ step s = .needMore s) ∨
    (s.buffer ≠ [] ∧ s.state = RDBP_CLEAN ∧ ∃ op rest, s.buffer = op :: rest ∧
      ((op = 43 ∧ step s = .cont { s with mblk_level := 0, state := RDBP_READ_LINE, buffer := rest }) ∨
       (op = 45 ∧ step s = .cont { s with mblk_level := 0, state := RDBP_READ_ERROR, buffer := rest }) ∨
       (op = 58 ∧ step s = .cont { s with mblk_level := 0, state := RDBP_READ_NUMBER, buffer := rest }) ∨
       (op = 36 ∧ step s = .cont { s with mblk_level := 0, state := RDBP_READ_BULK_LEN, buffer := rest }) ∨
       (op = 42 ∧ step s = .cont { s with mblk_level := 1, state := RDBP_READ_MBLK_LEN, buffer := rest }) ∨
       (op ≠ 43 ∧ op ≠ 45 ∧ op ≠ 58 ∧ op ≠ 36 ∧ op ≠ 42 ∧ step s = .fatal "Got invalid reply"))) ∨
    (s.buffer ≠ [] ∧ s.state ≠ RDBP_CLEAN ∧ s.buffer.length < 2 ∧ step s = .needMore s) ∨
    (2 ≤ s.buffer.length ∧ s.state = RDBP_READ_LINE ∧
      ((_read_line s.buffer = none ∧ step s = .needMore s) ∨
       (∃ line rest, _read_line s.buffer = some (line, rest) ∧
         step s = _reply_completed { s with buffer := rest } (.simple line)))) ∨
    (2 ≤ s.buffer.length ∧ s.state = RDBP_READ_ERROR ∧
      ((_read_line s.buffer = none ∧ step s = .needMore s) ∨
       (∃ line rest, _read_line s.buffer = some (line, rest) ∧
         step s = _reply_completed { s with buffer := rest } (.err line)))) ∨
    (2 ≤ s.buffer.length ∧ s.state = RDBP_READ_NUMBER ∧
      ((_read_number s.buffer = none ∧ step s = .needMore s) ∨
       (∃ n rest, _read_number s.buffer = some (n, rest) ∧
         step s = _reply_completed { s with buffer := rest } (.int n)))) ∨
    (2 ≤ s.buffer.length ∧ s.state = RDBP_READ_BULK_LEN ∧
      ((_read_length s.buffer = none ∧ step s = .needMore s) ∨
       (∃ n rest, _read_length s.buffer = some (n, rest) ∧
         ((0 ≤ n ∧ step s = .cont { s with state := RDBP_READ_BULK, bulk_len := n.toNat, buffer := rest }) ∨
          (n = -1 ∧ step s = _reply_completed { s with buffer := rest } (.bulk none)) ∨
          (n < -1 ∧ step s = .needMore { s with buffer := rest }))))) ∨
    (2 ≤ s.buffer.length ∧ s.state = RDBP_READ_BULK ∧
      ((s.buffer.length < 2 + s.bulk_len ∧ step s = .needMore s) ∨
       (2 + s.bulk_len ≤ s.buffer.length ∧ s.utf8 = true ∧
         validUtf8 (s.buffer.take s.bulk_len) = false ∧
         step s = .fatal "Received invalid UTF-8 string from the server") ∨
       (2 + s.bulk_len ≤ s.buffer.length ∧
         (s.utf8 = false ∨ validUtf8 (s.buffer.take s.bulk_len) = true) ∧
         step s = _reply_completed { s with buffer := s.buffer.drop (s.bulk_len + 2) }
           (.bulk (some (s.buffer.take s.bulk_len)))))) ∨
    (2 ≤ s.buffer.length ∧ s.state = RDBP_READ_MBLK_LEN ∧
      ((_read_length s.buffer = none ∧ step s = .needMore s) ∨
       (∃ n rest, _read_length s.buffer = some (n, rest) ∧
         ((0 < n ∧ step s = .cont { s with mblk_len := n.toNat, state := RDBP_WAIT_BUCKS,
                                             mblk_reply := some [], buffer := rest }) ∨
          ((n = 0 ∨ n = -1) ∧ 0 < s.mblk_level - 1 ∧ s.mblk_store = [] ∧
            step s = .fatal "Already at the upper level of multi-bulk reply") ∨
          ((n = 0 ∨ n = -1) ∧ 0 < s.mblk_level - 1 ∧ (∃ r l rest', s.mblk_store = (r, l) :: rest' ∧
            step s = _reply_completed
                { s with buffer := rest, mblk_level := s.mblk_level - 1,
                         mblk_len := l, mblk_reply := r, mblk_store := rest' }
                (if n = 0 then .array [] else .bulk none))) ∨
          ((n = 0 ∨ n = -1) ∧ s.mblk_level - 1 ≤ 0 ∧
            step s = _reply_completed { s with buffer := rest, mblk_level := s.mblk_level - 1 }
              (if n = 0 then .array [] else .bulk none)) ∨
          (n < -1 ∧ step s = .needMore { s with buffer := rest }))))) ∨
    (2 ≤ s.buffer.length ∧ s.state = RDBP_WAIT_BUCKS ∧ ∃ op rest, s.buffer = op :: rest ∧
      ((op = 36 ∧ step s = .cont { s with state := RDBP_READ_BULK_LEN, buffer := rest }) ∨
       (op = 58 ∧ step s = .cont { s with state := RDBP_READ_NUMBER, buffer := rest }) ∨
       (op = 43 ∧ step s = .cont { s with state := RDBP_READ_LINE, buffer := rest }) ∨
       (op = 45 ∧ step s = .cont { s with state := RDBP_READ_ERROR, buffer := rest }) ∨
       (op = 42 ∧ step s = .cont { s with state := RDBP_READ_MBLK_LEN,
                                            mblk_level := s.mblk_level + 1,
                                            mblk_store := (s.mblk_reply, s.mblk_len) :: s.mblk_store,
                                            mblk_reply := none, buffer := rest }) ∨
       (op ≠ 36 ∧ op ≠ 58 ∧ op ≠ 43 ∧ op ≠ 45 ∧ op ≠ 42 ∧
         step s = .fatal "Invalid multi-bulk reply. Expected [$:+-*] but got something else"))) ∨
    (s.buffer ≠ [] ∧ 2 ≤ s.buffer.length ∧ s.state ≠ RDBP_CLEAN ∧ s.state ≠ RDBP_READ_LINE ∧
      s.state ≠ RDBP_READ_ERROR ∧ s.state ≠ RDBP_READ_NUMBER ∧ s.state ≠ RDBP_READ_BULK_LEN ∧
      s.state ≠ RDBP_READ_BULK ∧ s.state ≠ RDBP_READ_MBLK_LEN ∧ s.state ≠ RDBP_WAIT_BUCKS ∧
      step s = .needMore s) := by
  by_cases h1 : s.buffer = []
  · exact Or.inl ⟨h1, by simp [step, h1]⟩
  obtain ⟨op, rest, hb⟩ := List.exists_cons_of_ne_nil h1
  by_cases h2 : s.state = RDBP_CLEAN
  · refine Or.inr (Or.inl ⟨h1, h2, op, rest, hb, ?_⟩)
    by_cases c43 : op = 43
    · exact Or.inl ⟨c43, by simp [step, h1, h2, hb, c43]⟩
    by_cases c45 : op = 45
    · exact Or.inr (Or.inl ⟨c45, by simp [step, h1, h2, hb, c43, c45]⟩)
    by_cases c58 : op = 58
    · exact Or.inr (Or.inr (Or.inl ⟨c58, by simp [step, h1, h2, hb, c43, c45, c58]⟩))
    by_cases c36 : op = 36
    · exact Or.inr (Or.inr (Or.inr (Or.inl ⟨c36, by simp [step, h1, h2, hb, c43, c45, c58, c36]⟩)))
    by_cases c42 : op = 42
    · exact Or.inr (Or.inr (Or.inr (Or.inr (Or.inl
        ⟨c42, by simp [step, h1, h2, hb, c43, c45, c58, c36, c42]⟩))))
    · exact Or.inr (Or.inr (Or.inr (Or.inr (Or.inr
        ⟨c43, c45, c58, c36, c42, by simp [step, h1, h2, hb, c43, c45, c58, c36, c42]⟩))))
  by_cases h3 : s.buffer.length < 2
  · exact Or.inr (Or.inr (Or.inl ⟨h1, h2, h3, by simp [step, h1, h2, h3]⟩))
  have h3' : 2 ≤ s.buffer.length := by omega
  by_cases hRL : s.state = RDBP_READ_LINE
  · refine Or.inr (Or.inr (Or.inr (Or.inl ⟨h3', hRL, ?_⟩)))
    cases hr : _read_line s.buffer with
    | none => exact Or.inl ⟨rfl, by simp [step, h1, h2, h3, hRL, hr]⟩
    | some p =>
      exact Or.inr ⟨p.1, p.2, rfl, by simp [step, h1, h2, h3, hRL, hr]⟩
  by_cases hRE : s.state = RDBP_READ_ERROR
  · refine Or.inr (Or.inr (Or.inr (Or.inr (Or.inl ⟨h3', hRE, ?_⟩))))
    cases hr : _read_line s.buffer with
    | none => exact Or.inl ⟨rfl, by simp [step, h1, h2, h3, hRL, hRE, hr]⟩
    | some p =>
      exact Or.inr ⟨p.1, p.2, rfl, by simp [step, h1, h2, h3, hRL, hRE, hr]⟩
  by_cases hRN : s.state = RDBP_READ_NUMBER
  · refine Or.inr (Or.inr (Or.inr (Or.inr (Or.inr (Or.inl ⟨h3', hRN, ?_⟩)))))
    cases hr : _read_number s.buffer with
    | none => exact Or.inl ⟨rfl, by simp [step, h1, h2, h3, hRL, hRE, hRN, hr]⟩
    | some p =>
      exact Or.inr ⟨p.1, p.2, rfl, by simp [step, h1, h2, h3, hRL, hRE, hRN, hr]⟩
  by_cases hBL : s.state = RDBP_READ_BULK_LEN
  · refine Or.inr (Or.inr (Or.inr (Or.inr (Or.inr (Or.inr (Or.inl ⟨h3', hBL, ?_⟩))))))
    cases hr : _read_length s.buffer with
    | none => exact Or.inl ⟨rfl, by simp [step, h1, h2, h3, hRL, hRE, hRN, hBL, hr]⟩
    | some p =>
      refine Or.inr ⟨p.1, p.2, rfl, ?_⟩
      by_cases hn : 0 ≤ p.1
      · exact Or.inl ⟨hn, by simp [step, h1, h2, h3, hRL, hRE, hRN, hBL, hr, hn]⟩
      by_cases hn1 : p.1 = -1
      · refine Or.inr (Or.inl ⟨hn1, ?_⟩)
        simp only [step, h1, h2, h3, hRL, hRE, hRN, hBL, hr]
        simp [hn, hn1]
      · refine Or.inr (Or.inr ⟨by omega, ?_⟩)
        simp only [step, h1, h2, h3, hRL, hRE, hRN, hBL, hr]
        simp [hn, hn1]
  by_cases hRB : s.state = RDBP_READ_BULK
  · refine Or.inr (Or.inr (Or.inr (Or.inr (Or.inr (Or.inr (Or.inr (Or.inl ⟨h3', hRB, ?_⟩)))))))
    by_cases hlen : s.buffer.length < 2 + s.bulk_len
    · exact Or.inl ⟨hlen, by simp [step, h1, h2, h3, hRL, hRE, hRN, hBL, hRB, hlen]⟩
    cases hu8 : s.utf8 with
    | false =>
      refine Or.inr (Or.inr ⟨by omega, Or.inl rfl, ?_⟩)
      simp [step, h1, h2, h3, hRL, hRE, hRN, hBL, hRB, hlen, hu8]
    | true =>
      cases hv : validUtf8 (s.buffer.take s.bulk_len) with
      | false =>
        refine Or.inr (Or.inl ⟨by omega, rfl, rfl, ?_⟩)
        simp [step, h1, h2, h3, hRL, hRE, hRN, hBL, hRB, hlen, hu8, hv]
      | true =>
        refine Or.inr (Or.inr ⟨by omega, Or.inr rfl, ?_⟩)
        simp [step, h1, h2, h3, hRL, hRE, hRN, hBL, hRB, hlen, hu8, hv]
  by_cases hML : s.state = RDBP_READ_MBLK_LEN
  · refine Or.inr (Or.inr (Or.inr (Or.inr (Or.inr (Or.inr (Or.inr (Or.inr (Or.inl
      ⟨h3', hML, ?_⟩))))))))
    cases hr : _read_length s.buffer with
    | none => exact Or.inl ⟨rfl, by simp [step, h1, h2, h3, hRL, hRE, hRN, hBL, hRB, hML, hr]⟩
    | some p =>
      refine Or.inr ⟨p.1, p.2, rfl, ?_⟩
      by_cases hn : 0 < p.1
      · exact Or.inl ⟨hn, by simp [step, h1, h2, h3, hRL, hRE, hRN, hBL, hRB, hML, hr, hn]⟩
      by_cases hn01 : p.1 = 0 ∨ p.1 = -1
      · by_cases hlv : 0 < s.mblk_level - 1
        · cases hst : s.mblk_store with
          | nil =>
            refine Or.inr (Or.inl ⟨hn01, hlv, rfl, ?_⟩)
            simp only [step, h1, h2, h3, hRL, hRE, hRN, hBL, hRB, hML, hr]
            rcases hn01 with h0 | h0 <;> simp [hn, h0, hlv, hst]
          | cons q rest' =>
            refine Or.inr (Or.inr (Or.inl ⟨hn01, hlv, q.1, q.2, rest', rfl, ?_⟩))
            simp only [step, h1, h2, h3, hRL, hRE, hRN, hBL, hRB, hML, hr]
            rcases hn01 with h0 | h0 <;> simp [hn, h0, hlv, hst]
        · refine Or.inr (Or.inr (Or.inr (Or.inl ⟨hn01, by omega, ?_⟩)))
          simp only [step, h1, h2, h3, hRL, hRE, hRN, hBL, hRB, hML, hr]
          rcases hn01 with h0 | h0 <;> simp [hn, h0, hlv]
      · refine Or.inr (Or.inr (Or.inr (Or.inr ⟨by omega, ?_⟩)))
        simp only [step, h1, h2, h3, hRL, hRE, hRN, hBL, hRB, hML, hr]
        have hn0 : ¬ p.1 = 0 := by omega
        have hn1 : ¬ p.1 = -1 := by omega
        simp [hn, hn0, hn1]
  by_cases hWB : s.state = RDBP_WAIT_BUCKS
  · refine Or.inr (Or.inr (Or.inr (Or.inr (Or.inr (Or.inr (Or.inr (Or.inr (Or.inr (Or.inl
      ⟨h3', hWB, op, rest, hb, ?_⟩)))))))))
    by_cases c36 : op = 36
    · exact Or.inl ⟨c36, by rw [hb] at h3; simp at h3; simp [step, h1, h2, h3, hRL, hRE, hRN, hBL, hRB, hML, hWB, hb, c36]⟩
    by_cases c58 : op = 58
    · exact Or.inr (Or.inl ⟨c58, by
        rw [hb] at h3; simp at h3; simp [step, h1, h2, h3, hRL, hRE, hRN, hBL, hRB, hML, hWB, hb, c36, c58]⟩)
    by_cases c43 : op = 43
    · exact Or.inr (Or.inr (Or.inl ⟨c43, by
        rw [hb] at h3; simp at h3; simp [step, h1, h2, h3, hRL, hRE, hRN, hBL, hRB, hML, hWB, hb, c36, c58, c43]⟩))
    by_cases c45 : op = 45
    · exact Or.inr (Or.inr (Or.inr (Or.inl ⟨c45, by
        rw [hb] at h3; simp at h3; simp [step, h1, h2, h3, hRL, hRE, hRN, hBL, hRB, hML, hWB, hb, c36, c58, c43, c45]⟩)))
    by_cases c42 : op = 42
    · exact Or.inr (Or.inr (Or.inr (Or.inr (Or.inl ⟨c42, by
        rw [hb] at h3; simp at h3; simp [step, h1, h2, h3, hRL, hRE, hRN, hBL, hRB, hML, hWB, hb, c36, c58, c43, c45, c42]⟩))))
    · exact Or.inr (Or.inr (Or.inr (Or.inr (Or.inr ⟨c36, c58, c43, c45, c42, by
        rw [hb] at h3; simp at h3; simp [step, h1, h2, h3, hRL, hRE, hRN, hBL, hRB, hML, hWB, hb, c36, c58, c43, c45, c42]⟩))))
  · refine Or.inr (Or.inr (Or.inr (Or.inr (Or.inr (Or.inr (Or.inr (Or.inr (Or.inr (Or.inr
      ⟨h1, h3', h2, hRL, hRE, hRN, hBL, hRB, hML, hWB, ?_⟩)))))))))
    simp [step, h1, h2, h3, hRL, hRE, hRN, hBL, hRB, hML, hWB]

/-! ## Inventory lemmas for `dispatchReply` and `_reply_completed` -/

theorem dispatchReply_cases (s : PState) (r : Value) :
    (∃ c cs, s.callbacks = c :: cs ∧
      dispatchReply s r = .deliver c s.redisdb r { s with state := RDBP_CLEAN, callbacks := cs }) ∨
    (s.callbacks = [] ∧ ∃ d, s.default_cb = some d ∧
      dispatchReply s r = .deliver d s.redisdb r { s with state := RDBP_CLEAN }) ∨
    (s.callbacks = [] ∧ s.default_cb = none ∧
      dispatchReply s r = .fatal "No callbacks in the queue and no default callback set") := by
  cases hcb : s.callbacks with
  | cons c cs => exact Or.inl ⟨c, cs, rfl, by simp [dispatchReply, hcb]⟩
  | nil =>
    cases hd : s.default_cb with
    | some d => exact Or.inr (Or.inl ⟨rfl, d, rfl, by simp [dispatchReply, hcb, hd]⟩)
    | none => exact Or.inr (Or.inr ⟨rfl, rfl, by simp [dispatchReply, hcb, hd]⟩)

theorem dispatchReply_ne_cont (s : PState) (r : Value) (u : PState) :
    dispatchReply s r ≠ .cont u := by
  rcases dispatchReply_cases s r with ⟨c, cs, _, he⟩ | ⟨_, d, _, he⟩ | ⟨_, _, he⟩ <;>
    simp [he]

theorem dispatchReply_ne_needMore (s : PState) (r : Value) (u : PState) :
    dispatchReply s r ≠ .needMore u := by
  rcases dispatchReply_cases s r with ⟨c, cs, _, he⟩ | ⟨_, d, _, he⟩ | ⟨_, _, he⟩ <;>
    simp [he]

theorem _reply_completed_ne_needMore (s : PState) (v : Value) (u : PState) :
    _reply_completed s v ≠ .needMore u := by
  unfold _reply_completed
  split
  · cases haux : mblkItemAux s.mblk_store (s.mblk_reply.getD []) s.mblk_len s.mblk_level v with
    | error m => simp [haux]
    | ok x =>
      obtain ⟨b, store, cur, len, level⟩ := x
      cases b <;> simp [haux, dispatchReply_ne_needMore]
  · exact dispatchReply_ne_needMore _ _ _

theorem _reply_completed_cont_inv {s : PState} {v : Value} {u : PState}
    (h : _reply_completed s v = .cont u) :
    u.buffer = s.buffer ∧ u.callbacks = s.callbacks ∧ u.default_cb = s.default_cb ∧
    u.redisdb = s.redisdb ∧ u.utf8 = s.utf8 ∧ u.state = RDBP_WAIT_BUCKS ∧
    u.bulk_len = s.bulk_len := by
  unfold _reply_completed at h
  split at h
  · cases haux : mblkItemAux s.mblk_store (s.mblk_reply.getD []) s.mblk_len s.mblk_level v with
    | error m => rw [haux] at h; simp at h
    | ok x =>
      obtain ⟨b, store, cur, len, level⟩ := x
      rw [haux] at h
      cases b
      · exact absurd h (by simp [dispatchReply_ne_cont])
      · simp only [StepRes.cont.injEq] at h
        subst h
        simp
  · exact absurd h (dispatchReply_ne_cont _ _ _)

theorem _reply_completed_deliver_inv {s : PState} {v : Value} {c hd : Nat} {r : Value}
    {t : PState} (h : _reply_completed s v = .deliver c hd r t) :
    hd = s.redisdb ∧ t.buffer = s.buffer ∧ t.state = RDBP_CLEAN ∧
    t.redisdb = s.redisdb ∧ t.utf8 = s.utf8 ∧ t.default_cb = s.default_cb ∧
    t.bulk_len = s.bulk_len ∧
    ((∃ cs, s.callbacks = c :: cs ∧ t.callbacks = cs) ∨
     (s.callbacks = [] ∧ s.default_cb = some c ∧ t.callbacks = [])) := by
  unfold _reply_completed at h
  split at h
  · cases haux : mblkItemAux s.mblk_store (s.mblk_reply.getD []) s.mblk_len s.mblk_level v with
    | error m => rw [haux] at h; simp at h
    | ok x =>
      obtain ⟨b, store, cur, len, level⟩ := x
      rw [haux] at h
      cases b
      · replace h : dispatchReply { s with mblk_store := store, mblk_reply := none, mblk_len := len, mblk_level := level } (.array cur) = .deliver c hd r t := h
        have hD := dispatchReply_cases { s with mblk_store := store, mblk_reply := none, mblk_len := len, mblk_level := level } (.array cur)
        rcases hD with ⟨c', cs', hcb, he⟩ | ⟨hcb, d, hd', he⟩ | ⟨hcb, hd', he⟩
        · rw [he] at h
          simp only [StepRes.deliver.injEq] at h
          obtain ⟨h1, h2, h3, h4⟩ := h
          subst h1; subst h2; subst h4
          simp at hcb
          refine ⟨rfl, rfl, rfl, rfl, rfl, rfl, rfl, Or.inl ⟨cs', hcb, rfl⟩⟩
        · rw [he] at h
          simp only [StepRes.deliver.injEq] at h
          obtain ⟨h1, h2, h3, h4⟩ := h
          subst h1; subst h2; subst h4
          simp at hcb hd'
          exact ⟨rfl, rfl, rfl, rfl, rfl, rfl, rfl, Or.inr ⟨hcb, hd', by simp [hcb]⟩⟩
        · rw [he] at h; simp at h
      · simp at h
  · rcases dispatchReply_cases s v with
      ⟨c', cs', hcb, he⟩ | ⟨hcb, d, hd', he⟩ | ⟨hcb, hd', he⟩
    · rw [he] at h
      simp only [StepRes.deliver.injEq] at h
      obtain ⟨h1, h2, h3, h4⟩ := h
      subst h1; subst h2; subst h4
      exact ⟨rfl, rfl, rfl, rfl, rfl, rfl, rfl, Or.inl ⟨cs', hcb, rfl⟩⟩
    · rw [he] at h
      simp only [StepRes.deliver.injEq] at h
      obtain ⟨h1, h2, h3, h4⟩ := h
      subst h1; subst h2; subst h4
      exact ⟨rfl, rfl, rfl, rfl, rfl, rfl, rfl, Or.inr ⟨hcb, hd', hcb⟩⟩
    · rw [he] at h; simp at h

theorem dispatchReply_buffer_eq (s : PState) (r : Value) (b : List Nat) :
    dispatchReply { s with buffer := b } r =
      (match dispatchReply s r with
       | .cont u => .cont { u with buffer := b }
       | .needMore u => .needMore { u with buffer := b }
       | .deliver c h v t => .deliver c h v { t with buffer := b }
       | .fatal m => .fatal m) := by
  cases hcb : s.callbacks with
  | cons c cs => simp [dispatchReply, hcb]
  | nil =>
    cases hd : s.default_cb with
    | some d => simp [dispatchReply, hcb, hd]
    | none => simp [dispatchReply, hcb, hd]

theorem dispatchReply_state_eq (s : PState) (r : Value) (x : Nat) :
    dispatchReply { s with state := x } r = dispatchReply s r := by
  cases hcb : s.callbacks with
  | cons c cs => simp [dispatchReply, hcb]
  | nil =>
    cases hd : s.default_cb with
    | some d => simp [dispatchReply, hcb, hd]
    | none => simp [dispatchReply, hcb, hd]

theorem _reply_completed_buffer_eq (s : PState) (v : Value) (b : List Nat) :
    _reply_completed { s with buffer := b } v =
      (match _reply_completed s v with
       | .cont u => .cont { u with buffer := b }
       | .needMore u => .needMore { u with buffer := b }
       | .deliver c h r t => .deliver c h r { t with buffer := b }
       | .fatal m => .fatal m) := by
  unfold _reply_completed
  simp only [PState.mblk_level, PState.mblk_store, PState.mblk_reply, PState.mblk_len]
  split
  · cases haux : mblkItemAux s.mblk_store (s.mblk_reply.getD []) s.mblk_len s.mblk_level v with
    | error m => simp [haux]
    | ok x =>
      obtain ⟨bl, store, cur, len, level⟩ := x
      cases bl
      · simp only [haux]
        exact dispatchReply_buffer_eq { s with mblk_store := store, mblk_reply := none, mblk_len := len, mblk_level := level } (.array cur) b
      · simp [haux]
  · exact dispatchReply_buffer_eq s v b

theorem _reply_completed_state_eq (s : PState) (v : Value) (x : Nat) :
    _reply_completed { s with state := x } v = _reply_completed s v := by
  unfold _reply_completed
  split
  · cases haux : mblkItemAux s.mblk_store (s.mblk_reply.getD []) s.mblk_len s.mblk_level v with
    | error m => simp [haux]
    | ok y =>
      obtain ⟨bl, store, cur, len, level⟩ := y
      cases bl
      · simp only [haux]
        exact dispatchReply_state_eq { s with mblk_store := store, mblk_reply := none, mblk_len := len, mblk_level := level } (.array cur) x
      · simp [haux]
  · exact dispatchReply_state_eq s v x

/-! ## Forward branch equations for `step` -/

theorem step_clean_op {s : PState} {op : Nat} {rest : List Nat}
    (hst : s.state = RDBP_CLEAN) (hb : s.buffer = op :: rest) :
    step s =
      (if op = 43 then .cont { s with mblk_level := 0, state := RDBP_READ_LINE, buffer := rest }
       else if op = 45 then .cont { s with mblk_level := 0, state := RDBP_READ_ERROR, buffer := rest }
       else if op = 58 then .cont { s with mblk_level := 0, state := RDBP_READ_NUMBER, buffer := rest }
       else if op = 36 then .cont { s with mblk_level := 0, state := RDBP_READ_BULK_LEN, buffer := rest }
       else if op = 42 then .cont { s with mblk_level := 1, state := RDBP_READ_MBLK_LEN, buffer := rest }
       else .fatal "Got invalid reply") := by
  simp [step, hst, hb]

theorem step_wb_op {s : PState} {op : Nat} {rest : List Nat}
    (hst : s.state = RDBP_WAIT_BUCKS) (hb : s.buffer = op :: rest) (hr : rest ≠ []) :
    step s =
      (if op = 36 then .cont { s with state := RDBP_READ_BULK_LEN, buffer := rest }
       else if op = 58 then .cont { s with state := RDBP_READ_NUMBER, buffer := rest }
       else if op = 43 then .cont { s with state := RDBP_READ_LINE, buffer := rest }
       else if op = 45 then .cont { s with state := RDBP_READ_ERROR, buffer := rest }
       else if op = 42 then .cont { s with state := RDBP_READ_MBLK_LEN,
                                            mblk_level := s.mblk_level + 1,
                                            mblk_store := (s.mblk_reply, s.mblk_len) :: s.mblk_store,
                                            mblk_reply := none, buffer := rest }
       else .fatal "Invalid multi-bulk reply. Expected [$:+-*] but got something else") := by
  have h0 : 1 ≤ rest.length := by
    cases rest with
    | nil => exact absurd rfl hr
    | cons a t => simp
  have h1 : ¬ (rest.length + 1 < 2) := by omega
  simp [step, hst, hb, h1]

theorem step_read_line_eq {s : PState} (hst : s.state = RDBP_READ_LINE)
    (h2 : 2 ≤ s.buffer.length) :
    step s =
      (match _read_line s.buffer with
       | none => .needMore s
       | some (line, rest) => _reply_completed { s with buffer := rest } (.simple line)) := by
  have h2' : ¬ s.buffer.length < 2 := by omega
  have hne : s.buffer ≠ [] := by
    intro hh; rw [hh] at h2; simp at h2
  simp [step, hst, h2', hne]

theorem step_read_error_eq {s : PState} (hst : s.state = RDBP_READ_ERROR)
    (h2 : 2 ≤ s.buffer.length) :
    step s =
      (match _read_line s.buffer with
       | none => .needMore s
       | some (line, rest) => _reply_completed { s with buffer := rest } (.err line)) := by
  have h2' : ¬ s.buffer.length < 2 := by omega
  have hne : s.buffer ≠ [] := by
    intro hh; rw [hh] at h2; simp at h2
  simp [step, hst, h2', hne]

theorem step_read_number_eq {s : PState} (hst : s.state = RDBP_READ_NUMBER)
    (h2 : 2 ≤ s.buffer.length) :
    step s =
      (match _read_number s.buffer with
       | none => .needMore s
       | some (n, rest) => _reply_completed { s with buffer := rest } (.int n)) := by
  have h2' : ¬ s.buffer.length < 2 := by omega
  have hne : s.buffer ≠ [] := by
    intro hh; rw [hh] at h2; simp at h2
  simp [step, hst, h2', hne]

theorem step_read_bulk_len_eq {s : PState} (hst : s.state = RDBP_READ_BULK_LEN)
    (h2 : 2 ≤ s.buffer.length) :
    step s =
      (match _read_length s.buffer with
       | none => .needMore s
       | some (len, rest) =>
         if len ≥ 0 then
           .cont { s with state := RDBP_READ_BULK, bulk_len := len.toNat, buffer := rest }
         else if len = -1 then _reply_completed { s with buffer := rest } (.bulk none)
         else .needMore { s with buffer := rest }) := by
  have h2' : ¬ s.buffer.length < 2 := by omega
  have hne : s.buffer ≠ [] := by
    intro hh; rw [hh] at h2; simp at h2
  simp [step, hst, h2', hne]

theorem step_read_bulk_eq {s : PState} (hst : s.state = RDBP_READ_BULK)
    (h2 : 2 ≤ s.buffer.length) :
    step s =
      (if s.buffer.length < 2 + s.bulk_len then .needMore s
       else if s.utf8 ∧ ¬ validUtf8 (s.buffer.take s.bulk_len) then
         .fatal "Received invalid UTF-8 string from the server"
       else
         _reply_completed { s with buffer := s.buffer.drop (s.bulk_len + 2) }
           (.bulk (some (s.buffer.take s.bulk_len)))) := by
  have h2' : ¬ s.buffer.length < 2 := by omega
  have hne : s.buffer ≠ [] := by
    intro hh; rw [hh] at h2; simp at h2
  simp [step, hst, h2', hne]

theorem step_read_mblk_len_eq {s : PState} (hst : s.state = RDBP_READ_MBLK_LEN)
    (h2 : 2 ≤ s.buffer.length) :
    step s =
      (match _read_length s.buffer with
       | none => .needMore s
       | some (len, rest) =>
         if len > 0 then
           .cont { s with mblk_len := len.toNat, state := RDBP_WAIT_BUCKS,
                          mblk_reply := some [], buffer := rest }
         else if len = 0 ∨ len = -1 then
           if s.mblk_level - 1 > 0 then
             match s.mblk_store with
             | [] => .fatal "Already at the upper level of multi-bulk reply"
             | (r, l) :: rest' =>
               _reply_completed
                 { s with buffer := rest, mblk_level := s.mblk_level - 1,
                          mblk_len := l, mblk_reply := r, mblk_store := rest' }
                 (if len = 0 then .array [] else .bulk none)
           else
             _reply_completed { s with buffer := rest, mblk_level := s.mblk_level - 1 }
               (if len = 0 then .array [] else .bulk none)
         else .needMore { s with buffer := rest }) := by
  have h2' : ¬ s.buffer.length < 2 := by omega
  have hne : s.buffer ≠ [] := by
    intro hh; rw [hh] at h2; simp at h2
  simp [step, hst, h2', hne]

/-! ## Appending bytes commutes with `_reply_completed` outcomes -/

theorem rc_cont_append {s₀ u : PState} {v : Value} (e : List Nat)
    (h : _reply_completed s₀ v = .cont u) :
    _reply_completed { s₀ with buffer := s₀.buffer ++ e } v = .cont (u.appendBytes e) := by
  have h2 := _reply_completed_buffer_eq s₀ v (s₀.buffer ++ e)
  rw [h] at h2
  simp only [] at h2
  rw [h2]
  have hub : u.buffer = s₀.buffer := (_reply_completed_cont_inv h).1
  rw [PState.appendBytes, hub]

theorem rc_deliver_append {s₀ t : PState} {v r : Value} {c hd : Nat} (e : List Nat)
    (h : _reply_completed s₀ v = .deliver c hd r t) :
    _reply_completed { s₀ with buffer := s₀.buffer ++ e } v =
      .deliver c hd r (t.appendBytes e) := by
  have h2 := _reply_completed_buffer_eq s₀ v (s₀.buffer ++ e)
  rw [h] at h2
  simp only [] at h2
  rw [h2]
  have hub : t.buffer = s₀.buffer := (_reply_completed_deliver_inv h).2.1
  rw [PState.appendBytes, hub]

theorem rc_fatal_append {s₀ : PState} {v : Value} {m : String} (e : List Nat)
    (h : _reply_completed s₀ v = .fatal m) :
    _reply_completed { s₀ with buffer := s₀.buffer ++ e } v = .fatal m := by
  have h2 := _reply_completed_buffer_eq s₀ v (s₀.buffer ++ e)
  rw [h] at h2
  simpa using h2

/-! ## Global facts about `step` results -/

theorem step_inv (s : PState) :
    (∀ u, step s = .cont u →
      u.buffer.length < s.buffer.length ∧ u.callbacks = s.callbacks ∧
      u.default_cb = s.default_cb ∧ u.redisdb = s.redisdb ∧ u.utf8 = s.utf8) ∧
    (∀ c hd v t, step s = .deliver c hd v t →
      hd = s.redisdb ∧ t.buffer.length < s.buffer.length ∧ t.state = RDBP_CLEAN ∧
      t.redisdb = s.redisdb ∧ t.utf8 = s.utf8 ∧ t.default_cb = s.default_cb ∧
      ((∃ cs, s.callbacks = c :: cs ∧ t.callbacks = cs) ∨
       (s.callbacks = [] ∧ s.default_cb = some c ∧ t.callbacks = []))) := by
  have hrc : ∀ (s' : PState) (v : Value),
      s'.buffer.length < s.buffer.length → s'.callbacks = s.callbacks →
      s'.default_cb = s.default_cb → s'.redisdb = s.redisdb → s'.utf8 = s.utf8 →
      (∀ u, _reply_completed s' v = .cont u →
        u.buffer.length < s.buffer.length ∧ u.callbacks = s.callbacks ∧
        u.default_cb = s.default_cb ∧ u.redisdb = s.redisdb ∧ u.utf8 = s.utf8) ∧
      (∀ c hd v' t, _reply_completed s' v = .deliver c hd v' t →
        hd = s.redisdb ∧ t.buffer.length < s.buffer.length ∧ t.state = RDBP_CLEAN ∧
        t.redisdb = s.redisdb ∧ t.utf8 = s.utf8 ∧ t.default_cb = s.default_cb ∧
        ((∃ cs, s.callbacks = c :: cs ∧ t.callbacks = cs) ∨
         (s.callbacks = [] ∧ s.default_cb = some c ∧ t.callbacks = []))) := by
    intro s' v hlen hcb hdc hrd hu8
    constructor
    · intro u hcont
      obtain ⟨e1, e2, e3, e4, e5, _, _⟩ := _reply_completed_cont_inv hcont
      exact ⟨by rw [e1]; exact hlen, by rw [e2, hcb], by rw [e3, hdc], by rw [e4, hrd], by rw [e5, hu8]⟩
    · intro c hd v' t hdel
      obtain ⟨e1, e2, e3, e4, e5, e6, _, e8⟩ := _reply_completed_deliver_inv hdel
      refine ⟨by rw [e1, hrd], by rw [e2]; exact hlen, e3, by rw [e4, hrd], by rw [e5, hu8],
        by rw [e6, hdc], ?_⟩
      rw [hcb] at e8
      rcases e8 with ⟨cs, hc1, hc2⟩ | ⟨hc1, hc2, hc3⟩
      · exact Or.inl ⟨cs, hc1, hc2⟩
      · rw [hdc] at hc2
        exact Or.inr ⟨hc1, hc2, hc3⟩
  rcases step_cases s with
    ⟨hbe, he⟩ |
    ⟨hb0, hst, op, rest, hb, ⟨hop, he⟩ | ⟨hop, he⟩ | ⟨hop, he⟩ | ⟨hop, he⟩ | ⟨hop, he⟩ |
      ⟨h43, h45, h58, h36, h42, he⟩⟩ |
    ⟨hb0, hst, hlt, he⟩ |
    ⟨h2, hst, ⟨hre, he⟩ | ⟨line, rest, hre, he⟩⟩ |
    ⟨h2, hst, ⟨hre, he⟩ | ⟨line, rest, hre, he⟩⟩ |
    ⟨h2, hst, ⟨hre, he⟩ | ⟨n, rest, hre, he⟩⟩ |
    ⟨h2, hst, ⟨hre, he⟩ | ⟨n, rest, hre, ⟨hn, he⟩ | ⟨hn, he⟩ | ⟨hn, he⟩⟩⟩ |
    ⟨h2, hst, ⟨hlen, he⟩ | ⟨hlen, hu, hv, he⟩ | ⟨hlen, hu, he⟩⟩ |
    ⟨h2, hst, ⟨hre, he⟩ | ⟨n, rest, hre, ⟨hn, he⟩ | ⟨hn, hlv, hstore, he⟩ |
      ⟨hn, hlv, r, l, rest', hstore, he⟩ | ⟨hn, hlv, he⟩ | ⟨hn, he⟩⟩⟩ |
    ⟨h2, hst, op, rest, hb, ⟨hop, he⟩ | ⟨hop, he⟩ | ⟨hop, he⟩ | ⟨hop, he⟩ | ⟨hop, he⟩ |
      ⟨h36x, h58x, h43x, h45x, h42x, he⟩⟩ |
    ⟨hb0, h2x, hs0, hs1, hs2, hs3, hs4, hs5, hs6, hs7, he⟩
  -- (1) empty buffer: needMore
  · exact ⟨fun u h => (by rw [he] at h; cases h), fun c hd v t h => (by rw [he] at h; cases h)⟩
  -- (2) CLEAN tags: five conts then fatal
  · refine ⟨fun u h => ?_, fun c hd v t h => (by rw [he] at h; cases h)⟩
    rw [he] at h
    cases h
    simp [hb]
  · refine ⟨fun u h => ?_, fun c hd v t h => (by rw [he] at h; cases h)⟩
    rw [he] at h
    cases h
    simp [hb]
  · refine ⟨fun u h => ?_, fun c hd v t h => (by rw [he] at h; cases h)⟩
    rw [he] at h
    cases h
    simp [hb]
  · refine ⟨fun u h => ?_, fun c hd v t h => (by rw [he] at h; cases h)⟩
    rw [he] at h
    cases h
    simp [hb]
  · refine ⟨fun u h => ?_, fun c hd v t h => (by rw [he] at h; cases h)⟩
    rw [he] at h
    cases h
    simp [hb]
  · exact ⟨fun u h => (by rw [he] at h; cases h), fun c hd v t h => (by rw [he] at h; cases h)⟩
  -- (3) short buffer
  · exact ⟨fun u h => (by rw [he] at h; cases h), fun c hd v t h => (by rw [he] at h; cases h)⟩
  -- (4) READ_LINE
  · exact ⟨fun u h => (by rw [he] at h; cases h), fun c hd v t h => (by rw [he] at h; cases h)⟩
  · have hl := (_read_line_len hre).2.1
    have := hrc { s with buffer := rest } (.simple line) (by simpa using hl) rfl rfl rfl rfl
    exact ⟨fun u h => this.1 u (he ▸ h), fun c hd v t h => this.2 c hd v t (he ▸ h)⟩
  -- (5) READ_ERROR
  · exact ⟨fun u h => (by rw [he] at h; cases h), fun c hd v t h => (by rw [he] at h; cases h)⟩
  · have hl := (_read_line_len hre).2.1
    have := hrc { s with buffer := rest } (.err line) (by simpa using hl) rfl rfl rfl rfl
    exact ⟨fun u h => this.1 u (he ▸ h), fun c hd v t h => this.2 c hd v t (he ▸ h)⟩
  -- (6) READ_NUMBER
  · exact ⟨fun u h => (by rw [he] at h; cases h), fun c hd v t h => (by rw [he] at h; cases h)⟩
  · have hl := (_read_number_len hre).2.1
    have := hrc { s with buffer := rest } (.int n) (by simpa using hl) rfl rfl rfl rfl
    exact ⟨fun u h => this.1 u (he ▸ h), fun c hd v t h => this.2 c hd v t (he ▸ h)⟩
  -- (7) READ_BULK_LEN
  · exact ⟨fun u h => (by rw [he] at h; cases h), fun c hd v t h => (by rw [he] at h; cases h)⟩
  · refine ⟨fun u h => ?_, fun c hd v t h => (by rw [he] at h; cases h)⟩
    rw [he] at h
    cases h
    have hl := (_read_length_len hre).2.1
    simpa using hl
  · have hl := (_read_length_len hre).2.1
    have := hrc { s with buffer := rest } (.bulk none) (by simpa using hl) rfl rfl rfl rfl
    exact ⟨fun u h => this.1 u (he ▸ h), fun c hd v t h => this.2 c hd v t (he ▸ h)⟩
  · exact ⟨fun u h => (by rw [he] at h; cases h), fun c hd v t h => (by rw [he] at h; cases h)⟩
  -- (8) READ_BULK
  · exact ⟨fun u h => (by rw [he] at h; cases h), fun c hd v t h => (by rw [he] at h; cases h)⟩
  · exact ⟨fun u h => (by rw [he] at h; cases h), fun c hd v t h => (by rw [he] at h; cases h)⟩
  · have hl : (s.buffer.drop (s.bulk_len + 2)).length < s.buffer.length := by
      rw [List.length_drop]; omega
    have := hrc { s with buffer := s.buffer.drop (s.bulk_len + 2) }
      (.bulk (some (s.buffer.take s.bulk_len))) (by simpa using hl) rfl rfl rfl rfl
    exact ⟨fun u h => this.1 u (he ▸ h), fun c hd v t h => this.2 c hd v t (he ▸ h)⟩
  -- (9) READ_MBLK_LEN
  · exact ⟨fun u h => (by rw [he] at h; cases h), fun c hd v t h => (by rw [he] at h; cases h)⟩
  · refine ⟨fun u h => ?_, fun c hd v t h => (by rw [he] at h; cases h)⟩
    rw [he] at h
    cases h
    have hl := (_read_length_len hre).2.1
    simpa using hl
  · exact ⟨fun u h => (by rw [he] at h; cases h), fun c hd v t h => (by rw [he] at h; cases h)⟩
  · have hl := (_read_length_len hre).2.1
    have := hrc { s with buffer := rest, mblk_level := s.mblk_level - 1, mblk_len := l, mblk_reply := r, mblk_store := rest' } (if n = 0 then Value.array [] else Value.bulk none) (by simpa using hl) rfl rfl rfl rfl
    exact ⟨fun u h => this.1 u (he ▸ h), fun c hd v t h => this.2 c hd v t (he ▸ h)⟩
  · have hl := (_read_length_len hre).2.1
    have := hrc { s with buffer := rest, mblk_level := s.mblk_level - 1 }
      (if n = 0 then Value.array [] else Value.bulk none) (by simpa using hl) rfl rfl rfl rfl
    exact ⟨fun u h => this.1 u (he ▸ h), fun c hd v t h => this.2 c hd v t (he ▸ h)⟩
  · exact ⟨fun u h => (by rw [he] at h; cases h), fun c hd v t h => (by rw [he] at h; cases h)⟩
  -- (10) WAIT_BUCKS tags
  · refine ⟨fun u h => ?_, fun c hd v t h => (by rw [he] at h; cases h)⟩
    rw [he] at h
    cases h
    simp [hb]
  · refine ⟨fun u h => ?_, fun c hd v t h => (by rw [he] at h; cases h)⟩
    rw [he] at h
    cases h
    simp [hb]
  · refine ⟨fun u h => ?_, fun c hd v t h => (by rw [he] at h; cases h)⟩
    rw [he] at h
    cases h
    simp [hb]
  · refine ⟨fun u h => ?_, fun c hd v t h => (by rw [he] at h; cases h)⟩
    rw [he] at h
    cases h
    simp [hb]
  · refine ⟨fun u h => ?_, fun c hd v t h => (by rw [he] at h; cases h)⟩
    rw [he] at h
    cases h
    simp [hb]
  · exact ⟨fun u h => (by rw [he] at h; cases h), fun c hd v t h => (by rw [he] at h; cases h)⟩
  -- (11) invalid state
  · exact ⟨fun u h => (by rw [he] at h; cases h), fun c hd v t h => (by rw [he] at h; cases h)⟩

theorem step_append (s : PState) (e : List Nat) :
    (∀ u, step s = .cont u → step (s.appendBytes e) = .cont (u.appendBytes e)) ∧
    (∀ c hd v t, step s = .deliver c hd v t →
      step (s.appendBytes e) = .deliver c hd v (t.appendBytes e)) ∧
    (∀ m, step s = .fatal m → step (s.appendBytes e) = .fatal m) ∧
    (∀ t, step s = .needMore t → t ≠ s →
      step (s.appendBytes e) = .needMore (t.appendBytes e)) := by
  rcases step_cases s with
    ⟨hbe, he⟩ |
    ⟨hb0, hst, op, rest, hb, ⟨hop, he⟩ | ⟨hop, he⟩ | ⟨hop, he⟩ | ⟨hop, he⟩ | ⟨hop, he⟩ |
      ⟨h43, h45, h58, h36, h42, he⟩⟩ |
    ⟨hb0, hst, hlt, he⟩ |
    ⟨h2, hst, ⟨hre, he⟩ | ⟨line, rest, hre, he⟩⟩ |
    ⟨h2, hst, ⟨hre, he⟩ | ⟨line, rest, hre, he⟩⟩ |
    ⟨h2, hst, ⟨hre, he⟩ | ⟨n, rest, hre, he⟩⟩ |
    ⟨h2, hst, ⟨hre, he⟩ | ⟨n, rest, hre, ⟨hn, he⟩ | ⟨hn, he⟩ | ⟨hn, he⟩⟩⟩ |
    ⟨h2, hst, ⟨hlen, he⟩ | ⟨hlen, hu, hv, he⟩ | ⟨hlen, hu, he⟩⟩ |
    ⟨h2, hst, ⟨hre, he⟩ | ⟨n, rest, hre, ⟨hn, he⟩ | ⟨hn, hlv, hstore, he⟩ |
      ⟨hn, hlv, r, l, rest', hstore, he⟩ | ⟨hn, hlv, he⟩ | ⟨hn, he⟩⟩⟩ |
    ⟨h2, hst, op, rest, hb, ⟨hop, he⟩ | ⟨hop, he⟩ | ⟨hop, he⟩ | ⟨hop, he⟩ | ⟨hop, he⟩ |
      ⟨h36x, h58x, h43x, h45x, h42x, he⟩⟩ |
    ⟨hb0, h2x, hs0, hs1, hs2, hs3, hs4, hs5, hs6, hs7, he⟩
  -- (1) empty buffer
  · exact ⟨fun u h => (by rw [he] at h; cases h),
      fun c hd v t h => (by rw [he] at h; cases h),
      fun m h => (by rw [he] at h; cases h),
      fun t h hne => (by rw [he] at h; cases h; exact absurd rfl hne)⟩
  -- (2) CLEAN tags
  · refine ⟨fun u h => ?_, fun c hd v t h => (by rw [he] at h; cases h),
      fun m h => (by rw [he] at h; cases h),
      fun t h hne => (by rw [he] at h; cases h)⟩
    rw [he] at h
    cases h
    rw [@step_clean_op (s.appendBytes e) op (rest ++ e) hst (by simp [PState.appendBytes, hb])]
    simp [hop, PState.appendBytes]
  · refine ⟨fun u h => ?_, fun c hd v t h => (by rw [he] at h; cases h),
      fun m h => (by rw [he] at h; cases h),
      fun t h hne => (by rw [he] at h; cases h)⟩
    rw [he] at h
    cases h
    rw [@step_clean_op (s.appendBytes e) op (rest ++ e) hst (by simp [PState.appendBytes, hb])]
    simp [hop, PState.appendBytes]
  · refine ⟨fun u h => ?_, fun c hd v t h => (by rw [he] at h; cases h),
      fun m h => (by rw [he] at h; cases h),
      fun t h hne => (by rw [he] at h; cases h)⟩
    rw [he] at h
    cases h
    rw [@step_clean_op (s.appendBytes e) op (rest ++ e) hst (by simp [PState.appendBytes, hb])]
    simp [hop, PState.appendBytes]
  · refine ⟨fun u h => ?_, fun c hd v t h => (by rw [he] at h; cases h),
      fun m h => (by rw [he] at h; cases h),
      fun t h hne => (by rw [he] at h; cases h)⟩
    rw [he] at h
    cases h
    rw [@step_clean_op (s.appendBytes e) op (rest ++ e) hst (by simp [PState.appendBytes, hb])]
    simp [hop, PState.appendBytes]
  · refine ⟨fun u h => ?_, fun c hd v t h => (by rw [he] at h; cases h),
      fun m h => (by rw [he] at h; cases h),
      fun t h hne => (by rw [he] at h; cases h)⟩
    rw [he] at h
    cases h
    rw [@step_clean_op (s.appendBytes e) op (rest ++ e) hst (by simp [PState.appendBytes, hb])]
    simp [hop, PState.appendBytes]
  · refine ⟨fun u h => (by rw [he] at h; cases h),
      fun c hd v t h => (by rw [he] at h; cases h), fun m h => ?_,
      fun t h hne => (by rw [he] at h; cases h)⟩
    rw [he] at h
    cases h
    rw [@step_clean_op (s.appendBytes e) op (rest ++ e) hst (by simp [PState.appendBytes, hb])]
    simp [h43, h45, h58, h36, h42]
  -- (3) short buffer, state not CLEAN
  · exact ⟨fun u h => (by rw [he] at h; cases h),
      fun c hd v t h => (by rw [he] at h; cases h),
      fun m h => (by rw [he] at h; cases h),
      fun t h hne => (by rw [he] at h; cases h; exact absurd rfl hne)⟩
  -- (4) READ_LINE
  · exact ⟨fun u h => (by rw [he] at h; cases h),
      fun c hd v t h => (by rw [he] at h; cases h),
      fun m h => (by rw [he] at h; cases h),
      fun t h hne => (by rw [he] at h; cases h; exact absurd rfl hne)⟩
  · have hf : step (s.appendBytes e) =
        _reply_completed { s.appendBytes e with buffer := rest ++ e } (.simple line) := by
      rw [step_read_line_eq (s := s.appendBytes e) hst
        (by have := h2; simp [PState.appendBytes]; omega)]
      rw [show _read_line ((s.appendBytes e).buffer) = some (line, rest ++ e) from
        _read_line_append hre]
    refine ⟨fun u h => ?_, fun c hd v t h => ?_, fun m h => ?_, fun t h hne => ?_⟩
    · rw [he] at h
      rw [hf]
      exact rc_cont_append e h
    · rw [he] at h
      rw [hf]
      exact rc_deliver_append e h
    · rw [he] at h
      rw [hf]
      exact rc_fatal_append e h
    · rw [he] at h
      exact absurd h (_reply_completed_ne_needMore _ _ _)
  -- (5) READ_ERROR
  · exact ⟨fun u h => (by rw [he] at h; cases h),
      fun c hd v t h => (by rw [he] at h; cases h),
      fun m h => (by rw [he] at h; cases h),
      fun t h hne => (by rw [he] at h; cases h; exact absurd rfl hne)⟩
  · have hf : step (s.appendBytes e) =
        _reply_completed { s.appendBytes e with buffer := rest ++ e } (.err line) := by
      rw [step_read_error_eq (s := s.appendBytes e) hst
        (by have := h2; simp [PState.appendBytes]; omega)]
      rw [show _read_line ((s.appendBytes e).buffer) = some (line, rest ++ e) from
        _read_line_append hre]
    refine ⟨fun u h => ?_, fun c hd v t h => ?_, fun m h => ?_, fun t h hne => ?_⟩
    · rw [he] at h
      rw [hf]
      exact rc_cont_append e h
    · rw [he] at h
      rw [hf]
      exact rc_deliver_append e h
    · rw [he] at h
      rw [hf]
      exact rc_fatal_append e h
    · rw [he] at h
      exact absurd h (_reply_completed_ne_needMore _ _ _)
  -- (6) READ_NUMBER
  · exact ⟨fun u h => (by rw [he] at h; cases h),
      fun c hd v t h => (by rw [he] at h; cases h),
      fun m h => (by rw [he] at h; cases h),
      fun t h hne => (by rw [he] at h; cases h; exact absurd rfl hne)⟩
  · have hf : step (s.appendBytes e) =
        _reply_completed { s.appendBytes e with buffer := rest ++ e } (.int n) := by
      rw [step_read_number_eq (s := s.appendBytes e) hst
        (by have := h2; simp [PState.appendBytes]; omega)]
      rw [show _read_number ((s.appendBytes e).buffer) = some (n, rest ++ e) from
        _read_number_append hre]
    refine ⟨fun u h => ?_, fun c hd v t h => ?_, fun m h => ?_, fun t h hne => ?_⟩
    · rw [he] at h
      rw [hf]
      exact rc_cont_append e h
    · rw [he] at h
      rw [hf]
      exact rc_deliver_append e h
    · rw [he] at h
      rw [hf]
      exact rc_fatal_append e h
    · rw [he] at h
      exact absurd h (_reply_completed_ne_needMore _ _ _)
  -- (7) READ_BULK_LEN
  · exact ⟨fun u h => (by rw [he] at h; cases h),
      fun c hd v t h => (by rw [he] at h; cases h),
      fun m h => (by rw [he] at h; cases h),
      fun t h hne => (by rw [he] at h; cases h; exact absurd rfl hne)⟩
  · refine ⟨fun u h => ?_, fun c hd v t h => (by rw [he] at h; cases h),
      fun m h => (by rw [he] at h; cases h),
      fun t h hne => (by rw [he] at h; cases h)⟩
    rw [he] at h
    cases h
    rw [step_read_bulk_len_eq (s := s.appendBytes e) hst
      (by have := h2; simp [PState.appendBytes]; omega)]
    rw [show _read_length ((s.appendBytes e).buffer) = some (n, rest ++ e) from
      _read_length_append hre]
    simp [hn, PState.appendBytes]
  · have hf : step (s.appendBytes e) =
        _reply_completed { s.appendBytes e with buffer := rest ++ e } (.bulk none) := by
      rw [step_read_bulk_len_eq (s := s.appendBytes e) hst
        (by have := h2; simp [PState.appendBytes]; omega)]
      rw [show _read_length ((s.appendBytes e).buffer) = some (n, rest ++ e) from
        _read_length_append hre]
      simp [hn]
    refine ⟨fun u h => ?_, fun c hd v t h => ?_, fun m h => ?_, fun t h hne => ?_⟩
    · rw [he] at h
      rw [hf]
      exact rc_cont_append e h
    · rw [he] at h
      rw [hf]
      exact rc_deliver_append e h
    · rw [he] at h
      rw [hf]
      exact rc_fatal_append e h
    · rw [he] at h
      exact absurd h (_reply_completed_ne_needMore _ _ _)
  · refine ⟨fun u h => (by rw [he] at h; cases h),
      fun c hd v t h => (by rw [he] at h; cases h),
      fun m h => (by rw [he] at h; cases h), fun t h hne => ?_⟩
    rw [he] at h
    cases h
    rw [step_read_bulk_len_eq (s := s.appendBytes e) hst
      (by have := h2; simp [PState.appendBytes]; omega)]
    rw [show _read_length ((s.appendBytes e).buffer) = some (n, rest ++ e) from
      _read_length_append hre]
    have hn0 : ¬ n ≥ 0 := by omega
    have hn1 : ¬ n = -1 := by omega
    simp [hn0, hn1, PState.appendBytes]
  -- (8) READ_BULK
  · exact ⟨fun u h => (by rw [he] at h; cases h),
      fun c hd v t h => (by rw [he] at h; cases h),
      fun m h => (by rw [he] at h; cases h),
      fun t h hne => (by rw [he] at h; cases h; exact absurd rfl hne)⟩
  · refine ⟨fun u h => (by rw [he] at h; cases h),
      fun c hd v t h => (by rw [he] at h; cases h), fun m h => ?_,
      fun t h hne => (by rw [he] at h; cases h)⟩
    rw [he] at h
    cases h
    rw [step_read_bulk_eq (s := s.appendBytes e) hst
      (by have := h2; simp [PState.appendBytes]; omega)]
    have hlen' : ¬ (s.buffer.length + e.length < 2 + s.bulk_len) := by omega
    have htake : (s.buffer ++ e).take s.bulk_len = s.buffer.take s.bulk_len :=
      List.take_append_of_le_length (by omega)
    simp [hlen', htake, hu, hv, PState.appendBytes]
  · have htake : (s.buffer ++ e).take s.bulk_len = s.buffer.take s.bulk_len :=
      List.take_append_of_le_length (by omega)
    have hdrop : (s.buffer ++ e).drop (s.bulk_len + 2) = s.buffer.drop (s.bulk_len + 2) ++ e :=
      List.drop_append_of_le_length (by omega)
    have hf : step (s.appendBytes e) =
        _reply_completed { s.appendBytes e with buffer := s.buffer.drop (s.bulk_len + 2) ++ e }
          (.bulk (some (s.buffer.take s.bulk_len))) := by
      rw [step_read_bulk_eq (s := s.appendBytes e) hst
        (by have := h2; simp [PState.appendBytes]; omega)]
      have hlen' : ¬ (s.buffer.length + e.length < 2 + s.bulk_len) := by omega
      rcases hu with hu8 | hv8
      · simp [hlen', htake, hdrop, hu8, PState.appendBytes]
      · simp [hlen', htake, hdrop, hv8, PState.appendBytes]
    refine ⟨fun u h => ?_, fun c hd v t h => ?_, fun m h => ?_, fun t h hne => ?_⟩
    · rw [he] at h
      rw [hf]
      exact rc_cont_append e h
    · rw [he] at h
      rw [hf]
      exact rc_deliver_append e h
    · rw [he] at h
      rw [hf]
      exact rc_fatal_append e h
    · rw [he] at h
      exact absurd h (_reply_completed_ne_needMore _ _ _)
  -- (9) READ_MBLK_LEN
  · exact ⟨fun u h => (by rw [he] at h; cases h),
      fun c hd v t h => (by rw [he] at h; cases h),
      fun m h => (by rw [he] at h; cases h),
      fun t h hne => (by rw [he] at h; cases h; exact absurd rfl hne)⟩
  · refine ⟨fun u h => ?_, fun c hd v t h => (by rw [he] at h; cases h),
      fun m h => (by rw [he] at h; cases h),
      fun t h hne => (by rw [he] at h; cases h)⟩
    rw [he] at h
    cases h
    rw [step_read_mblk_len_eq (s := s.appendBytes e) hst
      (by have := h2; simp [PState.appendBytes]; omega)]
    rw [show _read_length ((s.appendBytes e).buffer) = some (n, rest ++ e) from
      _read_length_append hre]
    simp [hn, PState.appendBytes]
  · refine ⟨fun u h => (by rw [he] at h; cases h),
      fun c hd v t h => (by rw [he] at h; cases h), fun m h => ?_,
      fun t h hne => (by rw [he] at h; cases h)⟩
    rw [he] at h
    cases h
    rw [step_read_mblk_len_eq (s := s.appendBytes e) hst
      (by have := h2; simp [PState.appendBytes]; omega)]
    rw [show _read_length ((s.appendBytes e).buffer) = some (n, rest ++ e) from
      _read_length_append hre]
    have hng : ¬ n > 0 := by omega
    have hlv2 : 1 < s.mblk_level := by omega
    rcases hn with hn' | hn' <;> simp [hng, hn', hlv2, hstore, PState.appendBytes]
  · have hf : step (s.appendBytes e) =
        _reply_completed
          { s.appendBytes e with buffer := rest ++ e, mblk_level := s.mblk_level - 1,
                                 mblk_len := l, mblk_reply := r, mblk_store := rest' }
          (if n = 0 then Value.array [] else Value.bulk none) := by
      rw [step_read_mblk_len_eq (s := s.appendBytes e) hst
        (by have := h2; simp [PState.appendBytes]; omega)]
      rw [show _read_length ((s.appendBytes e).buffer) = some (n, rest ++ e) from
        _read_length_append hre]
      have hng : ¬ n > 0 := by omega
      have hlv2 : 1 < s.mblk_level := by omega
      rcases hn with hn' | hn' <;> simp [hng, hn', hlv2, hstore, PState.appendBytes]
    refine ⟨fun u h => ?_, fun c hd v t h => ?_, fun m h => ?_, fun t h hne => ?_⟩
    · rw [he] at h
      rw [hf]
      exact rc_cont_append e h
    · rw [he] at h
      rw [hf]
      exact rc_deliver_append e h
    · rw [he] at h
      rw [hf]
      exact rc_fatal_append e h
    · rw [he] at h
      exact absurd h (_reply_completed_ne_needMore _ _ _)
  · have hf : step (s.appendBytes e) =
        _reply_completed
          { s.appendBytes e with buffer := rest ++ e, mblk_level := s.mblk_level - 1 }
          (if n = 0 then Value.array [] else Value.bulk none) := by
      rw [step_read_mblk_len_eq (s := s.appendBytes e) hst
        (by have := h2; simp [PState.appendBytes]; omega)]
      rw [show _read_length ((s.appendBytes e).buffer) = some (n, rest ++ e) from
        _read_length_append hre]
      have hng : ¬ n > 0 := by omega
      have hlv' : ¬ (1 < s.mblk_level) := by omega
      rcases hn with hn' | hn' <;> simp [hng, hn', hlv', PState.appendBytes]
    refine ⟨fun u h => ?_, fun c hd v t h => ?_, fun m h => ?_, fun t h hne => ?_⟩
    · rw [he] at h
      rw [hf]
      exact rc_cont_append e h
    · rw [he] at h
      rw [hf]
      exact rc_deliver_append e h
    · rw [he] at h
      rw [hf]
      exact rc_fatal_append e h
    · rw [he] at h
      exact absurd h (_reply_completed_ne_needMore _ _ _)
  · refine ⟨fun u h => (by rw [he] at h; cases h),
      fun c hd v t h => (by rw [he] at h; cases h),
      fun m h => (by rw [he] at h; cases h), fun t h hne => ?_⟩
    rw [he] at h
    cases h
    rw [step_read_mblk_len_eq (s := s.appendBytes e) hst
      (by have := h2; simp [PState.appendBytes]; omega)]
    rw [show _read_length ((s.appendBytes e).buffer) = some (n, rest ++ e) from
      _read_length_append hre]
    have hng : ¬ n > 0 := by omega
    have hn0 : ¬ n = 0 := by omega
    have hn1 : ¬ n = -1 := by omega
    simp [hng, hn0, hn1, PState.appendBytes]
  -- (10) WAIT_BUCKS tags
  · refine ⟨fun u h => ?_, fun c hd v t h => (by rw [he] at h; cases h),
      fun m h => (by rw [he] at h; cases h),
      fun t h hne => (by rw [he] at h; cases h)⟩
    rw [he] at h
    cases h
    rw [@step_wb_op (s.appendBytes e) op (rest ++ e) hst (by simp [PState.appendBytes, hb]) (by have := h2; rw [hb] at this; simp at this; cases rest with | nil => simp at this | cons a t => simp)]
    simp [hop, PState.appendBytes]
  · refine ⟨fun u h => ?_, fun c hd v t h => (by rw [he] at h; cases h),
      fun m h => (by rw [he] at h; cases h),
      fun t h hne => (by rw [he] at h; cases h)⟩
    rw [he] at h
    cases h
    rw [@step_wb_op (s.appendBytes e) op (rest ++ e) hst (by simp [PState.appendBytes, hb]) (by have := h2; rw [hb] at this; simp at this; cases rest with | nil => simp at this | cons a t => simp)]
    simp [hop, PState.appendBytes]
  · refine ⟨fun u h => ?_, fun c hd v t h => (by rw [he] at h; cases h),
      fun m h => (by rw [he] at h; cases h),
      fun t h hne => (by rw [he] at h; cases h)⟩
    rw [he] at h
    cases h
    rw [@step_wb_op (s.appendBytes e) op (rest ++ e) hst (by simp [PState.appendBytes, hb]) (by have := h2; rw [hb] at this; simp at this; cases rest with | nil => simp at this | cons a t => simp)]
    simp [hop, PState.appendBytes]
  · refine ⟨fun u h => ?_, fun c hd v t h => (by rw [he] at h; cases h),
      fun m h => (by rw [he] at h; cases h),
      fun t h hne => (by rw [he] at h; cases h)⟩
    rw [he] at h
    cases h
    rw [@step_wb_op (s.appendBytes e) op (rest ++ e) hst (by simp [PState.appendBytes, hb]) (by have := h2; rw [hb] at this; simp at this; cases rest with | nil => simp at this | cons a t => simp)]
    simp [hop, PState.appendBytes]
  · refine ⟨fun u h => ?_, fun c hd v t h => (by rw [he] at h; cases h),
      fun m h => (by rw [he] at h; cases h),
      fun t h hne => (by rw [he] at h; cases h)⟩
    rw [he] at h
    cases h
    rw [@step_wb_op (s.appendBytes e) op (rest ++ e) hst (by simp [PState.appendBytes, hb]) (by have := h2; rw [hb] at this; simp at this; cases rest with | nil => simp at this | cons a t => simp)]
    simp [hop, PState.appendBytes]
  · refine ⟨fun u h => (by rw [he] at h; cases h),
      fun c hd v t h => (by rw [he] at h; cases h), fun m h => ?_,
      fun t h hne => (by rw [he] at h; cases h)⟩
    rw [he] at h
    cases h
    rw [@step_wb_op (s.appendBytes e) op (rest ++ e) hst (by simp [PState.appendBytes, hb]) (by have := h2; rw [hb] at this; simp at this; cases rest with | nil => simp at this | cons a t => simp)]
    simp [h36x, h58x, h43x, h45x, h42x]
  -- (11) invalid state
  · exact ⟨fun u h => (by rw [he] at h; cases h),
      fun c hd v t h => (by rw [he] at h; cases h),
      fun m h => (by rw [he] at h; cases h),
      fun t h hne => (by rw [he] at h; cases h; exact absurd rfl hne)⟩

/-! ## Fuel adequacy and unfolding of `rdb_parser__parse_reply` and `runAll` -/

theorem parseLoop_fuel : ∀ (f : Nat) (s : PState) (g : Nat),
    s.buffer.length < f → s.buffer.length < g → parseLoop f s = parseLoop g s := by
  intro f
  induction f with
  | zero => intro s g h1 _; omega
  | succ f ih =>
    intro s g h1 h2
    cases g with
    | zero => omega
    | succ g' =>
      cases hs : step s with
      | fatal m => simp only [parseLoop]; rw [hs]
      | needMore t => simp only [parseLoop]; rw [hs]
      | deliver c hd v t => simp only [parseLoop]; rw [hs]
      | cont u =>
        have hlt := ((step_inv s).1 u hs).1
        simp only [parseLoop]
        rw [hs]
        exact ih u g' (by omega) (by omega)

theorem parse_reply_of_cont {s u : PState} (h : step s = .cont u) :
    rdb_parser__parse_reply s = rdb_parser__parse_reply u := by
  have hlt := ((step_inv s).1 u h).1
  unfold rdb_parser__parse_reply
  have h1 : parseLoop (s.buffer.length + 1) s = parseLoop s.buffer.length u := by
    simp only [parseLoop]; rw [h]
  rw [h1]
  exact parseLoop_fuel _ u _ (by omega) (by omega)

theorem parse_reply_of_needMore {s t : PState} (h : step s = .needMore t) :
    rdb_parser__parse_reply s = .needMore t := by
  unfold rdb_parser__parse_reply
  simp only [parseLoop]
  rw [h]

theorem parse_reply_of_deliver {s t : PState} {c hd : Nat} {v : Value}
    (h : step s = .deliver c hd v t) :
    rdb_parser__parse_reply s = .delivered c hd v t := by
  unfold rdb_parser__parse_reply
  simp only [parseLoop]
  rw [h]

theorem parse_reply_of_fatal {s : PState} {m : String} (h : step s = .fatal m) :
    rdb_parser__parse_reply s = .fatal m := by
  unfold rdb_parser__parse_reply
  simp only [parseLoop]
  rw [h]

theorem parse_reply_deliver_inv {s t : PState} {c hd : Nat} {v : Value}
    (h : rdb_parser__parse_reply s = .delivered c hd v t) :
    hd = s.redisdb ∧ t.buffer.length < s.buffer.length ∧ t.state = RDBP_CLEAN ∧
    t.redisdb = s.redisdb ∧ t.utf8 = s.utf8 ∧ t.default_cb = s.default_cb ∧
    ((∃ cs, s.callbacks = c :: cs ∧ t.callbacks = cs) ∨
     (s.callbacks = [] ∧ s.default_cb = some c ∧ t.callbacks = [])) := by
  have main : ∀ (f : Nat) (s : PState), parseLoop f s = .delivered c hd v t →
      hd = s.redisdb ∧ t.buffer.length < s.buffer.length ∧ t.state = RDBP_CLEAN ∧
      t.redisdb = s.redisdb ∧ t.utf8 = s.utf8 ∧ t.default_cb = s.default_cb ∧
      ((∃ cs, s.callbacks = c :: cs ∧ t.callbacks = cs) ∨
       (s.callbacks = [] ∧ s.default_cb = some c ∧ t.callbacks = [])) := by
    intro f
    induction f with
    | zero => intro s hh; cases hh
    | succ f ih =>
      intro s hh
      rw [parseLoop] at hh
      cases hs : step s with
      | fatal m => rw [hs] at hh; cases hh
      | needMore t' => rw [hs] at hh; cases hh
      | deliver c' hd' v' t' =>
        rw [hs] at hh
        cases hh
        exact (step_inv s).2 c hd v t hs
      | cont u =>
        rw [hs] at hh
        obtain ⟨hu1, hu2, hu3, hu4, hu5⟩ := (step_inv s).1 u hs
        obtain ⟨e1, e2, e3, e4, e5, e6, e7⟩ := ih u hh
        refine ⟨by rw [e1, hu4], by omega, e3, by rw [e4, hu4], by rw [e5, hu5],
          by rw [e6, hu3], ?_⟩
        rw [hu2, hu3] at e7
        exact e7
  exact main _ s h

theorem runLoop_fuel : ∀ (f : Nat) (s : PState) (g : Nat),
    s.buffer.length < f → s.buffer.length < g → runLoop f s = runLoop g s := by
  intro f
  induction f with
  | zero => intro s g h1 _; omega
  | succ f ih =>
    intro s g h1 h2
    cases g with
    | zero => omega
    | succ g' =>
      cases hp : rdb_parser__parse_reply s with
      | fatal m => simp only [runLoop]; rw [hp]
      | needMore t => simp only [runLoop]; rw [hp]
      | delivered c hd v t =>
        have hlt := (parse_reply_deliver_inv hp).2.1
        simp only [runLoop]
        rw [hp]
        show (match runLoop f t with
              | .error m => (Except.error m : Except String (List (Nat × Nat × Value) × PState))
              | .ok (l, u) => .ok ((c, hd, v) :: l, u)) =
             (match runLoop g' t with
              | .error m => .error m
              | .ok (l, u) => .ok ((c, hd, v) :: l, u))
        rw [ih t g' (by omega) (by omega)]

theorem runAll_of_needMore {s t : PState} (h : rdb_parser__parse_reply s = .needMore t) :
    runAll s = .ok ([], t) := by
  unfold runAll
  simp only [runLoop]
  rw [h]

theorem runAll_of_fatal {s : PState} {m : String} (h : rdb_parser__parse_reply s = .fatal m) :
    runAll s = .error m := by
  unfold runAll
  simp only [runLoop]
  rw [h]

theorem runAll_of_deliver {s t : PState} {c hd : Nat} {v : Value}
    (h : rdb_parser__parse_reply s = .delivered c hd v t) :
    runAll s =
      (match runAll t with
       | .error m => .error m
       | .ok (l, u) => .ok ((c, hd, v) :: l, u)) := by
  have hlt := (parse_reply_deliver_inv h).2.1
  unfold runAll
  simp only [runLoop]
  rw [h]
  show (match runLoop s.buffer.length t with
        | .error m => (Except.error m : Except String (List (Nat × Nat × Value) × PState))
        | .ok (l, u) => .ok ((c, hd, v) :: l, u)) =
       (match runAll t with
        | .error m => .error m
        | .ok (l, u) => .ok ((c, hd, v) :: l, u))
  rw [show runLoop s.buffer.length t = runAll t from runLoop_fuel _ t _ (by omega) (by omega)]

theorem runAll_congr {s₁ s₂ : PState}
    (h : rdb_parser__parse_reply s₁ = rdb_parser__parse_reply s₂) :
    runAll s₁ = runAll s₂ := by
  cases hp : rdb_parser__parse_reply s₂ with
  | fatal m => rw [runAll_of_fatal (h.trans hp), runAll_of_fatal hp]
  | needMore t => rw [runAll_of_needMore (h.trans hp), runAll_of_needMore hp]
  | delivered c hd v t => rw [runAll_of_deliver (h.trans hp), runAll_of_deliver hp]

/-! ## Good runs: delivered replies followed by a stable stop -/

theorem Delivers_parse {s t : PState} {c hd : Nat} {v : Value}
    (h : Delivers s c hd v t) : rdb_parser__parse_reply s = .delivered c hd v t := by
  induction h with
  | here hs => exact parse_reply_of_deliver hs
  | step hs _ ih => rw [parse_reply_of_cont hs]; exact ih

theorem StableStop_parse {s t : PState} (h : StableStop s t) :
    rdb_parser__parse_reply s = .needMore t ∧ rdb_parser__parse_reply t = .needMore t := by
  induction h with
  | here hs => exact ⟨parse_reply_of_needMore hs, parse_reply_of_needMore hs⟩
  | step hs _ ih => exact ⟨by rw [parse_reply_of_cont hs]; exact ih.1, ih.2⟩

theorem GoodRun_runAll {s t : PState} {l : List (Nat × Nat × Value)}
    (h : GoodRun s l t) : runAll s = .ok (l, t) := by
  induction h with
  | stop hst => exact runAll_of_needMore (StableStop_parse hst).1
  | cons hdel _ ih => rw [runAll_of_deliver (Delivers_parse hdel), ih]

theorem GoodRun_quiescent {s t : PState} {l : List (Nat × Nat × Value)}
    (h : GoodRun s l t) : rdb_parser__parse_reply t = .needMore t := by
  induction h with
  | stop hst => exact (StableStop_parse hst).2
  | cons _ _ ih => exact ih

theorem Delivers_append {s t : PState} {c hd : Nat} {v : Value} (e : List Nat)
    (h : Delivers s c hd v t) : Delivers (s.appendBytes e) c hd v (t.appendBytes e) := by
  induction h with
  | here hs => exact .here ((step_append _ e).2.1 _ _ _ _ hs)
  | step hs _ ih => exact .step ((step_append _ e).1 _ hs) ih

theorem StableStop_resume {s t : PState} (e : List Nat) (h : StableStop s t) :
    rdb_parser__parse_reply (s.appendBytes e) = rdb_parser__parse_reply (t.appendBytes e) := by
  induction h with
  | here _ => rfl
  | step hs _ ih => rw [parse_reply_of_cont ((step_append _ e).1 _ hs)]; exact ih

theorem GoodRun_append {s t : PState} {l : List (Nat × Nat × Value)} (e : List Nat)
    (h : GoodRun s l t) :
    runAll (s.appendBytes e) =
      (match runAll (t.appendBytes e) with
       | .error m => .error m
       | .ok (l', u) => .ok (l ++ l', u)) := by
  induction h with
  | stop hst =>
    rw [runAll_congr (StableStop_resume e hst)]
    cases runAll (PState.appendBytes _ e) with
    | error m => rfl
    | ok p => simp
  | cons hdel _ ih =>
    rw [runAll_of_deliver (Delivers_parse (Delivers_append e hdel)), ih]
    cases runAll (PState.appendBytes _ e) with
    | error m => rfl
    | ok p => simp

/-! ## Inversion and prefix lemmas for good runs -/

theorem GoodRun_cont_inv {s u t : PState} {l : List (Nat × Nat × Value)}
    (hs : step s = .cont u) (h : GoodRun s l t) : GoodRun u l t := by
  cases h with
  | stop hst =>
    cases hst with
    | here h0 => rw [hs] at h0; cases h0
    | step h0 h1 => rw [hs] at h0; cases h0; exact .stop h1
  | cons hdel hrest =>
    cases hdel with
    | here h0 => rw [hs] at h0; cases h0
    | step h0 h1 => rw [hs] at h0; cases h0; exact .cons h1 hrest

theorem GoodRun_deliver_inv {s u t : PState} {c hd : Nat} {v : Value}
    {L : List (Nat × Nat × Value)}
    (hs : step s = .deliver c hd v u) (h : GoodRun s L t) :
    ∃ l', L = (c, hd, v) :: l' ∧ GoodRun u l' t := by
  cases h with
  | stop hst =>
    cases hst with
    | here h0 => rw [hs] at h0; cases h0
    | step h0 _ => rw [hs] at h0; cases h0
  | cons hdel hrest =>
    cases hdel with
    | here h0 =>
      rw [hs] at h0
      cases h0
      exact ⟨_, rfl, hrest⟩
    | step h0 _ => rw [hs] at h0; cases h0

theorem GoodRun_not_badstop {s t' t : PState} {l : List (Nat × Nat × Value)}
    (hs : step s = .needMore t') (hne : t' ≠ s) (h : GoodRun s l t) : False := by
  cases h with
  | stop hst =>
    cases hst with
    | here h0 => rw [hs] at h0; cases h0; exact hne rfl
    | step h0 _ => rw [hs] at h0; cases h0
  | cons hdel _ =>
    cases hdel with
    | here h0 => rw [hs] at h0; cases h0
    | step h0 _ => rw [hs] at h0; cases h0

theorem GoodRun_not_fatal {s t : PState} {m : String} {l : List (Nat × Nat × Value)}
    (hs : step s = .fatal m) (h : GoodRun s l t) : False := by
  cases h with
  | stop hst =>
    cases hst with
    | here h0 => rw [hs] at h0; cases h0
    | step h0 _ => rw [hs] at h0; cases h0
  | cons hdel _ =>
    cases hdel with
    | here h0 => rw [hs] at h0; cases h0
    | step h0 _ => rw [hs] at h0; cases h0

theorem GoodRun_prepend_cont {s u t : PState} {l : List (Nat × Nat × Value)}
    (hs : step s = .cont u) (h : GoodRun u l t) : GoodRun s l t := by
  cases h with
  | stop hst => exact .stop (.step hs hst)
  | cons hdel hrest => exact .cons (.step hs hdel) hrest

theorem appendBytes_inj {s t : PState} {e : List Nat}
    (h : s.appendBytes e = t.appendBytes e) : s = t := by
  cases s
  cases t
  simp only [PState.appendBytes, PState.mk.injEq] at h ⊢
  obtain ⟨h1, h2, h3, h4, h5, h6, h7, h8, h9, h10, h11⟩ := h
  exact ⟨h1, h2, h3, h4, List.append_cancel_right h5, h6, h7, h8, h9, h10, h11⟩

theorem GoodRun_prefix : ∀ (n : Nat) (s : PState) (e : List Nat)
    (L : List (Nat × Nat × Value)) (T : PState), s.buffer.length ≤ n →
    GoodRun (s.appendBytes e) L T → ∃ l t, GoodRun s l t := by
  intro n
  induction n with
  | zero =>
    intro s e L T hn hG
    cases hs : step s with
    | cont u =>
      have := ((step_inv s).1 u hs).1
      omega
    | deliver c hd v t =>
      have := ((step_inv s).2 c hd v t hs).2.1
      omega
    | fatal m => exact absurd hG (GoodRun_not_fatal ((step_append s e).2.2.1 m hs) hG).elim
    | needMore t =>
      by_cases ht : t = s
      · subst ht
        exact ⟨[], t, .stop (.here hs)⟩
      · have h1 := (step_append s e).2.2.2 t hs ht
        have h2 : t.appendBytes e ≠ s.appendBytes e := fun hh => ht (appendBytes_inj hh)
        exact absurd hG (fun hG => GoodRun_not_badstop h1 h2 hG)
  | succ n ih =>
    intro s e L T hn hG
    cases hs : step s with
    | cont u =>
      have hu := ((step_inv s).1 u hs).1
      have h1 := (step_append s e).1 u hs
      obtain ⟨l, t, hg⟩ := ih u e L T (by omega) (GoodRun_cont_inv h1 hG)
      exact ⟨l, t, GoodRun_prepend_cont hs hg⟩
    | deliver c hd v t =>
      have hu := ((step_inv s).2 c hd v t hs).2.1
      have h1 := (step_append s e).2.1 c hd v t hs
      obtain ⟨l', hL, hg'⟩ := GoodRun_deliver_inv h1 hG
      obtain ⟨l, t', hg⟩ := ih t e l' T (by omega) hg'
      exact ⟨(c, hd, v) :: l, t', .cons (.here hs) hg⟩
    | fatal m => exact absurd hG (GoodRun_not_fatal ((step_append s e).2.2.1 m hs) hG).elim
    | needMore t =>
      by_cases ht : t = s
      · subst ht
        exact ⟨[], t, .stop (.here hs)⟩
      · have h1 := (step_append s e).2.2.2 t hs ht
        have h2 : t.appendBytes e ≠ s.appendBytes e := fun hh => ht (appendBytes_inj hh)
        exact absurd hG (fun hG => GoodRun_not_badstop h1 h2 hG)

theorem Delivers_goodrun_inv {s w : PState} {c hc : Nat} {v : Value} (e : List Nat)
    (hdel : Delivers s c hc v w) :
    ∀ {L : List (Nat × Nat × Value)} {T : PState}, GoodRun (s.appendBytes e) L T →
      ∃ l', L = (c, hc, v) :: l' ∧ GoodRun (w.appendBytes e) l' T := by
  induction hdel with
  | here h0 => exact fun hG => GoodRun_deliver_inv ((step_append _ e).2.1 _ _ _ _ h0) hG
  | step h0 _ ih => exact fun hG => ih (GoodRun_cont_inv ((step_append _ e).1 _ h0) hG)

theorem StableStop_goodrun_inv {s t : PState} (e : List Nat) (hst : StableStop s t) :
    ∀ {L : List (Nat × Nat × Value)} {T : PState}, GoodRun (s.appendBytes e) L T →
      GoodRun (t.appendBytes e) L T := by
  induction hst with
  | here _ => exact fun hG => hG
  | step h0 _ ih => exact fun hG => ih (GoodRun_cont_inv ((step_append _ e).1 _ h0) hG)

theorem GoodRun_transfer {s t : PState} {l : List (Nat × Nat × Value)} (e : List Nat)
    (hg : GoodRun s l t) :
    ∀ {L : List (Nat × Nat × Value)} {T : PState}, GoodRun (s.appendBytes e) L T →
      ∃ L' T', GoodRun (t.appendBytes e) L' T' := by
  induction hg with
  | stop hst => exact fun hG => ⟨_, _, StableStop_goodrun_inv e hst hG⟩
  | cons hdel _ ih =>
    intro L T hG
    obtain ⟨l', _, hg'⟩ := Delivers_goodrun_inv e hdel hG
    exact ih hg'

/-! ## Feeding chunk by chunk equals feeding the whole stream -/

theorem feed_eq_runAll : ∀ (cs : List (List Nat)) (s : PState),
    rdb_parser__parse_reply s = .needMore s →
    (∃ L T, GoodRun (s.appendBytes cs.flatten) L T) →
    feed s cs = runAll (s.appendBytes cs.flatten) := by
  intro cs
  induction cs with
  | nil =>
    intro s hq _
    rw [show s.appendBytes ([] : List (List Nat)).flatten = s from by
      cases s; simp [PState.appendBytes]]
    rw [runAll_of_needMore hq]
    rfl
  | cons c cs ih =>
    intro s hq hgood
    have hflat : s.appendBytes (c :: cs).flatten = (s.appendBytes c).appendBytes cs.flatten := by
      cases s; simp [PState.appendBytes]
    rw [hflat] at hgood
    obtain ⟨l1, t1, hg1⟩ := GoodRun_prefix ((s.appendBytes c).buffer.length)
      (s.appendBytes c) cs.flatten _ _ (le_refl _) hgood.choose_spec.choose_spec
    have hrun1 : runAll (s.appendBytes c) = .ok (l1, t1) := GoodRun_runAll hg1
    have hcomp := GoodRun_append cs.flatten hg1
    obtain ⟨L2, T2, hg2⟩ := GoodRun_transfer cs.flatten hg1 hgood.choose_spec.choose_spec
    have hq1 : rdb_parser__parse_reply t1 = .needMore t1 := GoodRun_quiescent hg1
    have hih := ih t1 hq1 ⟨L2, T2, hg2⟩
    rw [hflat]
    simp only [feed]
    rw [hrun1]
    show (match feed t1 cs with
          | .error m => (Except.error m : Except String (List (Nat × Nat × Value) × PState))
          | .ok (l', u) => .ok (l1 ++ l', u)) =
         runAll ((s.appendBytes c).appendBytes cs.flatten)
    rw [hih, hcomp]

/-! ## Parsing encoded frames: reader steps -/

theorem atol_encNat (n : Nat) : atol (encNat n) = n := by
  have h := atol_encInt (n : Int)
  rw [encInt, if_neg (by omega)] at h
  simpa using h

theorem fvalList_front_last : ∀ (f : Frame) (fs : FrameList),
    fvalList (.cons f fs) = frontVals f fs ++ [lastVal f fs]
  | _, .nil => by simp [fvalList, frontVals, lastVal]
  | f, .cons g gs => by
    rw [fvalList, lastVal, frontVals]
    rw [show fvalList (FrameList.cons g gs) = frontVals g gs ++ [lastVal g gs] from
      fvalList_front_last g gs]
    simp
termination_by _ fs => sizeOf fs

theorem encFrame_ne_nil (f : Frame) : encFrame f ≠ [] := by
  cases f with
  | simple s => simp [encFrame]
  | err s => simp [encFrame]
  | int n => simp [encFrame]
  | bulk b => cases b with
    | none => simp [encFrame]
    | some p => simp [encFrame]
  | nilArray => simp [encFrame]
  | array items => simp [encFrame]

theorem read_simple_step {s : PState} {str rest : List Nat}
    (hst : s.state = RDBP_READ_LINE) (hb : s.buffer = str ++ 13 :: 10 :: rest)
    (hno : noCRLFb str = true) :
    step s = _reply_completed { s with buffer := rest } (.simple str) := by
  rw [step_read_line_eq hst (by rw [hb]; simp; omega)]
  rw [hb, _read_line_frame hno]

theorem read_err_step {s : PState} {str rest : List Nat}
    (hst : s.state = RDBP_READ_ERROR) (hb : s.buffer = str ++ 13 :: 10 :: rest)
    (hno : noCRLFb str = true) :
    step s = _reply_completed { s with buffer := rest } (.err str) := by
  rw [step_read_error_eq hst (by rw [hb]; simp; omega)]
  rw [hb, _read_line_frame hno]

theorem read_int_step {s : PState} {n : Int} {rest : List Nat}
    (hst : s.state = RDBP_READ_NUMBER) (hb : s.buffer = encInt n ++ 13 :: 10 :: rest) :
    step s = _reply_completed { s with buffer := rest } (.int n) := by
  rw [step_read_number_eq hst (by rw [hb]; simp; omega)]
  rw [hb, _read_number_frame (noCRLFb_encInt n), atol_encInt]

theorem read_bulk_len_step {s : PState} {n : Nat} {rest : List Nat}
    (hst : s.state = RDBP_READ_BULK_LEN) (hb : s.buffer = encNat n ++ 13 :: 10 :: rest) :
    step s = .cont { s with state := RDBP_READ_BULK, bulk_len := n, buffer := rest } := by
  rw [step_read_bulk_len_eq hst (by rw [hb]; simp; omega)]
  rw [hb, _read_length_frame (noCRLFb_of_no13 _ (encNat_ne13 n)), atol_encNat]
  simp

theorem read_bulk_nil_step {s : PState} {rest : List Nat}
    (hst : s.state = RDBP_READ_BULK_LEN) (hb : s.buffer = 45 :: 49 :: 13 :: 10 :: rest) :
    step s = _reply_completed { s with buffer := rest } (.bulk none) := by
  rw [step_read_bulk_len_eq hst (by rw [hb]; simp)]
  have h1 : _read_length s.buffer = some (-1, rest) := by
    rw [hb]
    rw [show (45 :: 49 :: 13 :: 10 :: rest : List Nat) = [45, 49] ++ 13 :: 10 :: rest from rfl]
    rw [_read_length_frame (by rfl)]
    rfl
  rw [h1]
  simp

theorem read_bulk_body_step {s : PState} {p rest : List Nat}
    (hst : s.state = RDBP_READ_BULK) (hbl : s.bulk_len = p.length)
    (hb : s.buffer = p ++ 13 :: 10 :: rest)
    (hu : s.utf8 = true → validUtf8 p = true) :
    step s = _reply_completed { s with buffer := rest } (.bulk (some p)) := by
  rw [step_read_bulk_eq hst (by rw [hb]; simp; omega)]
  have hlen : ¬ (s.buffer.length < 2 + s.bulk_len) := by
    rw [hb, hbl]; simp; omega
  have htake : s.buffer.take s.bulk_len = p := by
    rw [hb, hbl]; exact List.take_left p _
  have hdrop : s.buffer.drop (s.bulk_len + 2) = rest := by
    rw [hb, hbl]
    rw [show p ++ 13 :: 10 :: rest = (p ++ [13, 10]) ++ rest by simp]
    rw [show p.length + 2 = (p ++ [13, 10]).length by simp]
    exact List.drop_left _ _
  rw [if_neg hlen, htake, hdrop]
  cases hu8 : s.utf8 with
  | false => simp
  | true => simp [hu hu8]

theorem read_mblk_len_pos_step {s : PState} {n : Nat} {rest : List Nat}
    (hst : s.state = RDBP_READ_MBLK_LEN) (hb : s.buffer = encNat n ++ 13 :: 10 :: rest)
    (hn : 0 < n) :
    step s = .cont { s with mblk_len := n, state := RDBP_WAIT_BUCKS,
                            mblk_reply := some [], buffer := rest } := by
  rw [step_read_mblk_len_eq hst (by rw [hb]; simp; omega)]
  rw [hb, _read_length_frame (noCRLFb_of_no13 _ (encNat_ne13 n)), atol_encNat]
  have : (0 : Int) < n := by omega
  simp [this]

theorem read_mblk_empty_top_step {s : PState} {rest : List Nat}
    (hst : s.state = RDBP_READ_MBLK_LEN) (hb : s.buffer = 48 :: 13 :: 10 :: rest)
    (hlv : s.mblk_level = 1) :
    step s = _reply_completed { s with buffer := rest, mblk_level := 0 } (.array []) := by
  rw [step_read_mblk_len_eq hst (by rw [hb]; simp)]
  have h1 : _read_length s.buffer = some (0, rest) := by
    rw [hb]
    rw [show (48 :: 13 :: 10 :: rest : List Nat) = [48] ++ 13 :: 10 :: rest from rfl]
    rw [_read_length_frame (by rfl)]
    rfl
  rw [h1]
  rw [hlv]
  simp

theorem read_mblk_nil_top_step {s : PState} {rest : List Nat}
    (hst : s.state = RDBP_READ_MBLK_LEN) (hb : s.buffer = 45 :: 49 :: 13 :: 10 :: rest)
    (hlv : s.mblk_level = 1) :
    step s = _reply_completed { s with buffer := rest, mblk_level := 0 } (.bulk none) := by
  rw [step_read_mblk_len_eq hst (by rw [hb]; simp)]
  have h1 : _read_length s.buffer = some (-1, rest) := by
    rw [hb]
    rw [show (45 :: 49 :: 13 :: 10 :: rest : List Nat) = [45, 49] ++ 13 :: 10 :: rest from rfl]
    rw [_read_length_frame (by rfl)]
    rfl
  rw [h1]
  rw [hlv]
  simp

theorem read_mblk_empty_pop_step {s : PState} {rest : List Nat} {r : Option (List Value)}
    {l : Nat} {st' : List (Option (List Value) × Nat)}
    (hst : s.state = RDBP_READ_MBLK_LEN) (hb : s.buffer = 48 :: 13 :: 10 :: rest)
    (hlv : 1 < s.mblk_level) (hstore : s.mblk_store = (r, l) :: st') :
    step s = _reply_completed
      { s with buffer := rest, mblk_level := s.mblk_level - 1,
               mblk_len := l, mblk_reply := r, mblk_store := st' } (.array []) := by
  rw [step_read_mblk_len_eq hst (by rw [hb]; simp)]
  have h1 : _read_length s.buffer = some (0, rest) := by
    rw [hb]
    rw [show (48 :: 13 :: 10 :: rest : List Nat) = [48] ++ 13 :: 10 :: rest from rfl]
    rw [_read_length_frame (by rfl)]
    rfl
  rw [h1, hstore]
  have hlv' : s.mblk_level - 1 > 0 := by omega
  simp [hlv']

theorem read_mblk_nil_pop_step {s : PState} {rest : List Nat} {r : Option (List Value)}
    {l : Nat} {st' : List (Option (List Value) × Nat)}
    (hst : s.state = RDBP_READ_MBLK_LEN) (hb : s.buffer = 45 :: 49 :: 13 :: 10 :: rest)
    (hlv : 1 < s.mblk_level) (hstore : s.mblk_store = (r, l) :: st') :
    step s = _reply_completed
      { s with buffer := rest, mblk_level := s.mblk_level - 1,
               mblk_len := l, mblk_reply := r, mblk_store := st' } (.bulk none) := by
  rw [step_read_mblk_len_eq hst (by rw [hb]; simp)]
  have h1 : _read_length s.buffer = some (-1, rest) := by
    rw [hb]
    rw [show (45 :: 49 :: 13 :: 10 :: rest : List Nat) = [45, 49] ++ 13 :: 10 :: rest from rfl]
    rw [_read_length_frame (by rfl)]
    rfl
  rw [h1, hstore]
  have hlv' : s.mblk_level - 1 > 0 := by omega
  simp [hlv']

/-! ## The completion cascade at a closed inner array -/

theorem cascade_eq (X : PState) (x : Nat) (cur : List Value) (v : Value)
    (hlv : 1 ≤ X.mblk_level) :
    _reply_completed
      { X with state := x, mblk_level := X.mblk_level + 1,
               mblk_store := (X.mblk_reply, X.mblk_len) :: X.mblk_store,
               mblk_reply := some cur, mblk_len := 1 } v =
    _reply_completed X (.array (cur ++ [v])) := by
  have hkey : mblkItemAux ((X.mblk_reply, X.mblk_len) :: X.mblk_store) ((some cur).getD []) 1
        (X.mblk_level + 1) v =
      mblkItemAux X.mblk_store (X.mblk_reply.getD []) X.mblk_len X.mblk_level
        (.array (cur ++ [v])) := by
    rw [mblkItemAux]
    rw [if_neg (by omega), if_pos (by omega)]
    simp only [Option.getD_some]
    rw [show X.mblk_level + 1 - 1 = X.mblk_level from by omega]
  unfold _reply_completed
  rw [if_pos (by simp; omega), if_pos (by omega)]
  simp only [PState.mblk_store, PState.mblk_reply, PState.mblk_len, PState.mblk_level]
  rw [hkey]
  cases haux : mblkItemAux X.mblk_store (X.mblk_reply.getD []) X.mblk_len X.mblk_level
      (.array (cur ++ [v])) with
  | error m => rfl
  | ok y =>
    obtain ⟨b, store, cur', len, level⟩ := y
    cases b
    · exact dispatchReply_state_eq
        { X with mblk_store := store, mblk_reply := none, mblk_len := len, mblk_level := level }
        (.array cur') x
    · rfl

/-! ## Composition lemmas for `Reaches` -/

theorem Reaches_cont_trans {s u : PState} {r : StepRes}
    (h1 : Reaches s (.cont u)) (h2 : Reaches u r) : Reaches s r := by
  generalize hq : StepRes.cont u = q at h1
  induction h1 with
  | done h0 => cases hq; exact .trans h0 h2
  | trans h0 _ ih => exact .trans h0 (ih hq)

theorem Reaches_deliver_Delivers {s t : PState} {c hd : Nat} {v : Value}
    (h : Reaches s (.deliver c hd v t)) : Delivers s c hd v t := by
  generalize hq : StepRes.deliver c hd v t = q at h
  induction h with
  | done h0 => cases hq; exact .here h0
  | trans h0 _ ih => exact .step h0 (ih hq)

/-- Completing one value of a multi-bulk frame that still expects more items:
`_mblk_item` pushes the value, decrements the count and repeats the loop in
`RDBP_WAIT_BUCKS`. -/
theorem mblkItemAux_eq (store : List (Option (List Value) × Nat)) (cur : List Value)
    (len : Nat) (level : Int) (v : Value) :
    mblkItemAux store cur len level v =
      if len > 1 then .ok (true, store, cur ++ [v], len - 1, level)
      else if level > 1 then
        match store with
        | [] => .error "Already at the upper level of multi-bulk reply"
        | (r, l) :: rest => mblkItemAux rest (r.getD []) l (level - 1) (.array (cur ++ [v]))
      else .ok (false, store, cur ++ [v], len, level) := by
  cases store
  all_goals rw [mblkItemAux]

theorem rc_repeat {s₀ : PState} {acc : List Value} {v : Value} {k : Nat}
    (hlv : 1 ≤ s₀.mblk_level) (hlen : s₀.mblk_len = k + 2)
    (hrep : s₀.mblk_reply = some acc) :
    _reply_completed s₀ v =
      .cont { s₀ with state := RDBP_WAIT_BUCKS,
                      mblk_reply := some (acc ++ [v]), mblk_len := k + 1 } := by
  unfold _reply_completed
  rw [if_pos (by omega)]
  rw [show mblkItemAux s₀.mblk_store (s₀.mblk_reply.getD []) s₀.mblk_len s₀.mblk_level v =
      .ok (true, s₀.mblk_store, acc ++ [v], k + 1, s₀.mblk_level) from by
    rw [hrep, hlen, mblkItemAux_eq, if_pos (show k + 2 > 1 by omega)]
    simp]

/-- With `mblk_level = 0` a completed value goes straight to callback dispatch
(`src/parser.c` line 250, else-branch at 257). -/
theorem rc_top {s₀ : PState} {v : Value} (h : s₀.mblk_level = 0) :
    _reply_completed s₀ v = dispatchReply s₀ v := by
  unfold _reply_completed
  rw [if_neg (by omega)]

/-- With `mblk_level = 1` and `mblk_len = 1` a completed value closes the
outermost multi-bulk reply: the value is pushed and the collected array is
dispatched, with `mblk_level` left at 1. -/
theorem rc_final {s₀ : PState} {acc : List Value} {v : Value}
    (hlv : s₀.mblk_level = 1) (hlen : s₀.mblk_len = 1) (hrep : s₀.mblk_reply = some acc) :
    _reply_completed s₀ v =
      dispatchReply { s₀ with mblk_reply := none, mblk_len := 1, mblk_level := 1 }
        (.array (acc ++ [v])) := by
  unfold _reply_completed
  rw [if_pos (by omega)]
  rw [show mblkItemAux s₀.mblk_store (s₀.mblk_reply.getD []) s₀.mblk_len s₀.mblk_level v =
      .ok (false, s₀.mblk_store, acc ++ [v], 1, 1) from by
    rw [hrep, hlen, hlv, mblkItemAux_eq]
    simp]

/-! ## Parsing one well-formed encoded frame from `RDBP_WAIT_BUCKS` -/

mutual
theorem frame_nested (f : Frame) (utf8 : Bool) (hwf : f.WFb utf8 = true)
    (s : PState) (rest : List Nat) (h1 : s.state = RDBP_WAIT_BUCKS)
    (h2 : 1 ≤ s.mblk_level) (h3 : s.utf8 = utf8)
    (h4 : s.buffer = encFrame f ++ rest) :
    ∃ bl, Reaches s
      (_reply_completed { s with buffer := rest, bulk_len := bl } (frameVal f)) := by
  cases f with
  | simple str =>
    have hno : noCRLFb str = true := by simpa [Frame.WFb] using hwf
    have hb' : s.buffer = 43 :: (str ++ 13 :: 10 :: rest) := by rw [h4]; simp [encFrame]
    have hs1 : step s = .cont { s with state := RDBP_READ_LINE, buffer := str ++ 13 :: 10 :: rest } := by
      rw [step_wb_op h1 hb' (by simp)]
      simp
    have hs2 : step { s with state := RDBP_READ_LINE, buffer := str ++ 13 :: 10 :: rest } =
        _reply_completed { s with state := RDBP_READ_LINE, buffer := rest } (.simple str) :=
      read_simple_step rfl rfl hno
    have heq : _reply_completed { s with state := RDBP_READ_LINE, buffer := rest } (.simple str) =
        _reply_completed { s with buffer := rest, bulk_len := s.bulk_len } (frameVal (.simple str)) := by
      rw [show ({ s with buffer := rest, bulk_len := s.bulk_len } : PState) = { s with buffer := rest } from by cases s; rfl]
      exact _reply_completed_state_eq { s with buffer := rest } _ RDBP_READ_LINE
    exact ⟨s.bulk_len, heq ▸ Reaches.trans hs1 (Reaches.done hs2)⟩
  | err str =>
    have hno : noCRLFb str = true := by simpa [Frame.WFb] using hwf
    have hb' : s.buffer = 45 :: (str ++ 13 :: 10 :: rest) := by rw [h4]; simp [encFrame]
    have hs1 : step s = .cont { s with state := RDBP_READ_ERROR, buffer := str ++ 13 :: 10 :: rest } := by
      rw [step_wb_op h1 hb' (by simp)]
      simp
    have hs2 : step { s with state := RDBP_READ_ERROR, buffer := str ++ 13 :: 10 :: rest } =
        _reply_completed { s with state := RDBP_READ_ERROR, buffer := rest } (.err str) :=
      read_err_step rfl rfl hno
    have heq : _reply_completed { s with state := RDBP_READ_ERROR, buffer := rest } (.err str) =
        _reply_completed { s with buffer := rest, bulk_len := s.bulk_len } (frameVal (.err str)) := by
      rw [show ({ s with buffer := rest, bulk_len := s.bulk_len } : PState) = { s with buffer := rest } from by cases s; rfl]
      exact _reply_completed_state_eq { s with buffer := rest } _ RDBP_READ_ERROR
    exact ⟨s.bulk_len, heq ▸ Reaches.trans hs1 (Reaches.done hs2)⟩
  | int n =>
    have hb' : s.buffer = 58 :: (encInt n ++ 13 :: 10 :: rest) := by rw [h4]; simp [encFrame]
    have hs1 : step s = .cont { s with state := RDBP_READ_NUMBER, buffer := encInt n ++ 13 :: 10 :: rest } := by
      rw [step_wb_op h1 hb' (by simp)]
      simp
    have hs2 : step { s with state := RDBP_READ_NUMBER, buffer := encInt n ++ 13 :: 10 :: rest } =
        _reply_completed { s with state := RDBP_READ_NUMBER, buffer := rest } (.int n) :=
      read_int_step rfl rfl
    have heq : _reply_completed { s with state := RDBP_READ_NUMBER, buffer := rest } (.int n) =
        _reply_completed { s with buffer := rest, bulk_len := s.bulk_len } (frameVal (.int n)) := by
      rw [show ({ s with buffer := rest, bulk_len := s.bulk_len } : PState) = { s with buffer := rest } from by cases s; rfl]
      exact _reply_completed_state_eq { s with buffer := rest } _ RDBP_READ_NUMBER
    exact ⟨s.bulk_len, heq ▸ Reaches.trans hs1 (Reaches.done hs2)⟩
  | bulk b =>
    cases b with
    | none =>
      have hb' : s.buffer = 36 :: (45 :: 49 :: 13 :: 10 :: rest) := by rw [h4]; simp [encFrame]
      have hs1 : step s = .cont { s with state := RDBP_READ_BULK_LEN, buffer := 45 :: 49 :: 13 :: 10 :: rest } := by
        rw [step_wb_op h1 hb' (by simp)]
        simp
      have hs2 : step { s with state := RDBP_READ_BULK_LEN, buffer := 45 :: 49 :: 13 :: 10 :: rest } =
          _reply_completed { s with state := RDBP_READ_BULK_LEN, buffer := rest } (.bulk none) :=
        read_bulk_nil_step rfl rfl
      have heq : _reply_completed { s with state := RDBP_READ_BULK_LEN, buffer := rest } (.bulk none) =
          _reply_completed { s with buffer := rest, bulk_len := s.bulk_len } (frameVal (.bulk none)) := by
        rw [show ({ s with buffer := rest, bulk_len := s.bulk_len } : PState) = { s with buffer := rest } from by cases s; rfl]
        exact _reply_completed_state_eq { s with buffer := rest } _ RDBP_READ_BULK_LEN
      exact ⟨s.bulk_len, heq ▸ Reaches.trans hs1 (Reaches.done hs2)⟩
    | some p =>
      have hvu : s.utf8 = true → validUtf8 p = true := by
        intro hu8
        rw [hu8] at h3
        rw [Frame.WFb, ← h3] at hwf
        simpa using hwf
      have hb' : s.buffer = 36 :: (encNat p.length ++ 13 :: 10 :: (p ++ 13 :: 10 :: rest)) := by
        rw [h4]; simp [encFrame]
      have hs1 : step s = .cont { s with state := RDBP_READ_BULK_LEN, buffer := encNat p.length ++ 13 :: 10 :: (p ++ 13 :: 10 :: rest) } := by
        rw [step_wb_op h1 hb' (by simp)]
        simp
      have hs2 : step { s with state := RDBP_READ_BULK_LEN, buffer := encNat p.length ++ 13 :: 10 :: (p ++ 13 :: 10 :: rest) } =
          .cont { s with state := RDBP_READ_BULK, bulk_len := p.length, buffer := p ++ 13 :: 10 :: rest } :=
        read_bulk_len_step rfl rfl
      have hs3 : step { s with state := RDBP_READ_BULK, bulk_len := p.length, buffer := p ++ 13 :: 10 :: rest } =
          _reply_completed { s with state := RDBP_READ_BULK, bulk_len := p.length, buffer := rest } (.bulk (some p)) :=
        read_bulk_body_step rfl rfl rfl hvu
      have heq : _reply_completed { s with state := RDBP_READ_BULK, bulk_len := p.length, buffer := rest } (.bulk (some p)) =
          _reply_completed { s with buffer := rest, bulk_len := p.length } (frameVal (.bulk (some p))) :=
        _reply_completed_state_eq { s with buffer := rest, bulk_len := p.length } _ RDBP_READ_BULK
      exact ⟨p.length, heq ▸ Reaches.trans hs1 (Reaches.trans hs2 (Reaches.done hs3))⟩
  | nilArray =>
    have hb' : s.buffer = 42 :: (45 :: 49 :: 13 :: 10 :: rest) := by rw [h4]; simp [encFrame]
    have hs1 : step s = .cont { s with state := RDBP_READ_MBLK_LEN, mblk_level := s.mblk_level + 1, mblk_store := (s.mblk_reply, s.mblk_len) :: s.mblk_store, mblk_reply := none, buffer := 45 :: 49 :: 13 :: 10 :: rest } := by
      rw [step_wb_op h1 hb' (by simp)]
      simp
    have hs2 : step { s with state := RDBP_READ_MBLK_LEN, mblk_level := s.mblk_level + 1, mblk_store := (s.mblk_reply, s.mblk_len) :: s.mblk_store, mblk_reply := none, buffer := 45 :: 49 :: 13 :: 10 :: rest } =
        _reply_completed { s with state := RDBP_READ_MBLK_LEN, mblk_level := s.mblk_level + 1 - 1, buffer := rest } (.bulk none) :=
      read_mblk_nil_pop_step rfl rfl (by simp; omega) rfl
    have heq : _reply_completed { s with state := RDBP_READ_MBLK_LEN, mblk_level := s.mblk_level + 1 - 1, buffer := rest } (.bulk none) =
        _reply_completed { s with buffer := rest, bulk_len := s.bulk_len } (frameVal .nilArray) := by
      rw [show ({ s with state := RDBP_READ_MBLK_LEN, mblk_level := s.mblk_level + 1 - 1, buffer := rest } : PState) = { s with state := RDBP_READ_MBLK_LEN, buffer := rest } from by cases s; simp]
      rw [show ({ s with buffer := rest, bulk_len := s.bulk_len } : PState) = { s with buffer := rest } from by cases s; rfl]
      exact _reply_completed_state_eq { s with buffer := rest } _ RDBP_READ_MBLK_LEN
    exact ⟨s.bulk_len, heq ▸ Reaches.trans hs1 (Reaches.done hs2)⟩
  | array items =>
    cases items with
    | nil =>
      have hb' : s.buffer = 42 :: (48 :: 13 :: 10 :: rest) := by
        rw [h4]; simp [encFrame, encFList, encNat, FrameList.length]
      have hs1 : step s = .cont { s with state := RDBP_READ_MBLK_LEN, mblk_level := s.mblk_level + 1, mblk_store := (s.mblk_reply, s.mblk_len) :: s.mblk_store, mblk_reply := none, buffer := 48 :: 13 :: 10 :: rest } := by
        rw [step_wb_op h1 hb' (by simp)]
        simp
      have hs2 : step { s with state := RDBP_READ_MBLK_LEN, mblk_level := s.mblk_level + 1, mblk_store := (s.mblk_reply, s.mblk_len) :: s.mblk_store, mblk_reply := none, buffer := 48 :: 13 :: 10 :: rest } =
          _reply_completed { s with state := RDBP_READ_MBLK_LEN, mblk_level := s.mblk_level + 1 - 1, buffer := rest } (.array []) :=
        read_mblk_empty_pop_step rfl rfl (by simp; omega) rfl
      have heq : _reply_completed { s with state := RDBP_READ_MBLK_LEN, mblk_level := s.mblk_level + 1 - 1, buffer := rest } (.array []) =
          _reply_completed { s with buffer := rest, bulk_len := s.bulk_len } (frameVal (.array .nil)) := by
        rw [show ({ s with state := RDBP_READ_MBLK_LEN, mblk_level := s.mblk_level + 1 - 1, buffer := rest } : PState) = { s with state := RDBP_READ_MBLK_LEN, buffer := rest } from by cases s; simp]
        rw [show ({ s with buffer := rest, bulk_len := s.bulk_len } : PState) = { s with buffer := rest } from by cases s; rfl]
        rw [show frameVal (.array .nil) = .array [] from rfl]
        exact _reply_completed_state_eq { s with buffer := rest } _ RDBP_READ_MBLK_LEN
      exact ⟨s.bulk_len, heq ▸ Reaches.trans hs1 (Reaches.done hs2)⟩
    | cons g gs =>
      have hwf' : g.WFb utf8 = true ∧ FrameList.WFb utf8 gs = true := by
        rw [Frame.WFb, FrameList.WFb] at hwf
        simpa using hwf
      have hb' : s.buffer = 42 :: (encNat (gs.length + 1) ++ 13 :: 10 :: (encFrame g ++ encFList gs ++ rest)) := by
        rw [h4]; simp [encFrame, encFList, FrameList.length]
      have hs1 : step s = .cont { s with state := RDBP_READ_MBLK_LEN, mblk_level := s.mblk_level + 1, mblk_store := (s.mblk_reply, s.mblk_len) :: s.mblk_store, mblk_reply := none, buffer := encNat (gs.length + 1) ++ 13 :: 10 :: (encFrame g ++ encFList gs ++ rest) } := by
        rw [step_wb_op h1 hb' (by simp)]
        simp
      have hs2 : step { s with state := RDBP_READ_MBLK_LEN, mblk_level := s.mblk_level + 1, mblk_store := (s.mblk_reply, s.mblk_len) :: s.mblk_store, mblk_reply := none, buffer := encNat (gs.length + 1) ++ 13 :: 10 :: (encFrame g ++ encFList gs ++ rest) } =
          .cont { s with state := RDBP_WAIT_BUCKS, mblk_level := s.mblk_level + 1, mblk_store := (s.mblk_reply, s.mblk_len) :: s.mblk_store, mblk_reply := some [], mblk_len := gs.length + 1, buffer := encFrame g ++ encFList gs ++ rest } := by
        rw [read_mblk_len_pos_step rfl rfl (by omega)]
      obtain ⟨bl, hr⟩ := frames_nested g gs utf8 hwf'.1 hwf'.2
        { s with state := RDBP_WAIT_BUCKS, mblk_level := s.mblk_level + 1, mblk_store := (s.mblk_reply, s.mblk_len) :: s.mblk_store, mblk_reply := some [], mblk_len := gs.length + 1, buffer := encFrame g ++ encFList gs ++ rest }
        [] rest rfl (by simp; omega) h3 (by simp) (by simp) rfl
      have hcasc : _reply_completed { s with state := RDBP_WAIT_BUCKS, mblk_level := s.mblk_level + 1, mblk_store := (s.mblk_reply, s.mblk_len) :: s.mblk_store, mblk_reply := some ([] ++ frontVals g gs), mblk_len := 1, buffer := rest, bulk_len := bl } (lastVal g gs) =
          _reply_completed { s with buffer := rest, bulk_len := bl } (frameVal (.array (.cons g gs))) := by
        have hc := cascade_eq { s with buffer := rest, bulk_len := bl } RDBP_WAIT_BUCKS
          (frontVals g gs) (lastVal g gs) (by simpa using h2)
        rw [show frameVal (.array (.cons g gs)) = .array (frontVals g gs ++ [lastVal g gs]) from by rw [frameVal, fvalList_front_last g gs]]
        rw [← hc]
        simp
      exact ⟨bl, Reaches_cont_trans (Reaches.trans hs1 (Reaches.done hs2)) (hcasc ▸ hr)⟩
termination_by sizeOf f

theorem frames_nested (f : Frame) (fs : FrameList) (utf8 : Bool)
    (hwf : f.WFb utf8 = true) (hwfs : FrameList.WFb utf8 fs = true)
    (s : PState) (acc : List Value) (rest : List Nat)
    (h1 : s.state = RDBP_WAIT_BUCKS) (h2 : 1 ≤ s.mblk_level) (h3 : s.utf8 = utf8)
    (h4 : s.buffer = encFrame f ++ encFList fs ++ rest)
    (h5 : s.mblk_len = fs.length + 1) (h6 : s.mblk_reply = some acc) :
    ∃ bl, Reaches s
      (_reply_completed
        { s with buffer := rest, state := RDBP_WAIT_BUCKS, mblk_len := 1,
                 mblk_reply := some (acc ++ frontVals f fs), bulk_len := bl }
        (lastVal f fs)) := by
  cases fs with
  | nil =>
    obtain ⟨bl, hr⟩ := frame_nested f utf8 hwf s rest h1 h2 h3
      (by rw [h4]; simp [encFList])
    refine ⟨bl, ?_⟩
    have heq : ({ s with buffer := rest, bulk_len := bl } : PState) =
        { s with buffer := rest, state := RDBP_WAIT_BUCKS, mblk_len := 1, mblk_reply := some (acc ++ frontVals f .nil), bulk_len := bl } := by
      rw [FrameList.length] at h5
      cases s
      simp_all [frontVals]
    rw [show lastVal f .nil = frameVal f from rfl]
    rw [← heq]
    exact hr
  | cons g gs =>
    have hwf' : g.WFb utf8 = true ∧ FrameList.WFb utf8 gs = true := by
      rw [FrameList.WFb] at hwfs
      simpa using hwfs
    obtain ⟨bl1, hr1⟩ := frame_nested f utf8 hwf s (encFList (.cons g gs) ++ rest) h1 h2 h3
      (by rw [h4]; simp)
    have hrc1 : _reply_completed { s with buffer := encFList (.cons g gs) ++ rest, bulk_len := bl1 } (frameVal f) =
        .cont { s with buffer := encFList (.cons g gs) ++ rest, bulk_len := bl1, state := RDBP_WAIT_BUCKS, mblk_reply := some (acc ++ [frameVal f]), mblk_len := gs.length + 1 } := by
      have := @rc_repeat { s with buffer := encFList (.cons g gs) ++ rest, bulk_len := bl1 }
        acc (frameVal f) gs.length
        (by simpa using h2)
        (by show s.mblk_len = gs.length + 2; rw [h5, FrameList.length])
        (by simpa using h6)
      rw [this]
    obtain ⟨bl2, hr2⟩ := frames_nested g gs utf8 hwf'.1 hwf'.2
      { s with buffer := encFList (.cons g gs) ++ rest, bulk_len := bl1, state := RDBP_WAIT_BUCKS, mblk_reply := some (acc ++ [frameVal f]), mblk_len := gs.length + 1 }
      (acc ++ [frameVal f]) rest rfl (by simpa using h2) h3
      (by simp [encFList]) (by simp) rfl
    refine ⟨bl2, ?_⟩
    have hlist : acc ++ frontVals f (.cons g gs) = (acc ++ [frameVal f]) ++ frontVals g gs := by
      rw [show frontVals f (.cons g gs) = frameVal f :: frontVals g gs from rfl]
      simp
    rw [show lastVal f (.cons g gs) = lastVal g gs from rfl, hlist]
    rw [hrc1] at hr1
    exact Reaches_cont_trans hr1 hr2
termination_by sizeOf f + sizeOf fs
end

/-! ## Parsing one well-formed encoded frame from `RDBP_CLEAN` -/

theorem frame_deliver (f : Frame) (utf8 : Bool) (hwf : f.WFb utf8 = true)
    (s : PState) (rest : List Nat) (h1 : s.state = RDBP_CLEAN) (h3 : s.utf8 = utf8)
    (h4 : s.buffer = encFrame f ++ rest) :
    ∃ X : PState, Reaches s (dispatchReply X (frameVal f)) ∧
      X.buffer = rest ∧ X.callbacks = s.callbacks ∧ X.default_cb = s.default_cb ∧
      X.redisdb = s.redisdb ∧ X.utf8 = s.utf8 ∧ X.mblk_store = s.mblk_store ∧
      (X.mblk_level = 0 ∨ X.mblk_level = 1) := by
  cases f with
  | simple str =>
    have hno : noCRLFb str = true := by simpa [Frame.WFb] using hwf
    have hb' : s.buffer = 43 :: (str ++ 13 :: 10 :: rest) := by rw [h4]; simp [encFrame]
    have hs1 : step s = .cont { s with mblk_level := 0, state := RDBP_READ_LINE, buffer := str ++ 13 :: 10 :: rest } := by
      rw [step_clean_op h1 hb']
      simp
    have hs2 : step { s with mblk_level := 0, state := RDBP_READ_LINE, buffer := str ++ 13 :: 10 :: rest } =
        _reply_completed { s with mblk_level := 0, state := RDBP_READ_LINE, buffer := rest } (.simple str) :=
      read_simple_step rfl rfl hno
    exact ⟨{ s with mblk_level := 0, state := RDBP_READ_LINE, buffer := rest },
      Reaches.trans hs1 (Reaches.done (hs2.trans (rc_top rfl))), rfl, rfl, rfl, rfl, rfl, rfl, Or.inl rfl⟩
  | err str =>
    have hno : noCRLFb str = true := by simpa [Frame.WFb] using hwf
    have hb' : s.buffer = 45 :: (str ++ 13 :: 10 :: rest) := by rw [h4]; simp [encFrame]
    have hs1 : step s = .cont { s with mblk_level := 0, state := RDBP_READ_ERROR, buffer := str ++ 13 :: 10 :: rest } := by
      rw [step_clean_op h1 hb']
      simp
    have hs2 : step { s with mblk_level := 0, state := RDBP_READ_ERROR, buffer := str ++ 13 :: 10 :: rest } =
        _reply_completed { s with mblk_level := 0, state := RDBP_READ_ERROR, buffer := rest } (.err str) :=
      read_err_step rfl rfl hno
    exact ⟨{ s with mblk_level := 0, state := RDBP_READ_ERROR, buffer := rest },
      Reaches.trans hs1 (Reaches.done (hs2.trans (rc_top rfl))), rfl, rfl, rfl, rfl, rfl, rfl, Or.inl rfl⟩
  | int n =>
    have hb' : s.buffer = 58 :: (encInt n ++ 13 :: 10 :: rest) := by rw [h4]; simp [encFrame]
    have hs1 : step s = .cont { s with mblk_level := 0, state := RDBP_READ_NUMBER, buffer := encInt n ++ 13 :: 10 :: rest } := by
      rw [step_clean_op h1 hb']
      simp
    have hs2 : step { s with mblk_level := 0, state := RDBP_READ_NUMBER, buffer := encInt n ++ 13 :: 10 :: rest } =
        _reply_completed { s with mblk_level := 0, state := RDBP_READ_NUMBER, buffer := rest } (.int n) :=
      read_int_step rfl rfl
    exact ⟨{ s with mblk_level := 0, state := RDBP_READ_NUMBER, buffer := rest },
      Reaches.trans hs1 (Reaches.done (hs2.trans (rc_top rfl))), rfl, rfl, rfl, rfl, rfl, rfl, Or.inl rfl⟩
  | bulk b =>
    cases b with
    | none =>
      have hb' : s.buffer = 36 :: (45 :: 49 :: 13 :: 10 :: rest) := by rw [h4]; simp [encFrame]
      have hs1 : step s = .cont { s with mblk_level := 0, state := RDBP_READ_BULK_LEN, buffer := 45 :: 49 :: 13 :: 10 :: rest } := by
        rw [step_clean_op h1 hb']
        simp
      have hs2 : step { s with mblk_level := 0, state := RDBP_READ_BULK_LEN, buffer := 45 :: 49 :: 13 :: 10 :: rest } =
          _reply_completed { s with mblk_level := 0, state := RDBP_READ_BULK_LEN, buffer := rest } (.bulk none) :=
        read_bulk_nil_step rfl rfl
      exact ⟨{ s with mblk_level := 0, state := RDBP_READ_BULK_LEN, buffer := rest },
        Reaches.trans hs1 (Reaches.done (hs2.trans (rc_top rfl))), rfl, rfl, rfl, rfl, rfl, rfl, Or.inl rfl⟩
    | some p =>
      have hvu : s.utf8 = true → validUtf8 p = true := by
        intro hu8
        rw [hu8] at h3
        rw [Frame.WFb, ← h3] at hwf
        simpa using hwf
      have hb' : s.buffer = 36 :: (encNat p.length ++ 13 :: 10 :: (p ++ 13 :: 10 :: rest)) := by
        rw [h4]; simp [encFrame]
      have hs1 : step s = .cont { s with mblk_level := 0, state := RDBP_READ_BULK_LEN, buffer := encNat p.length ++ 13 :: 10 :: (p ++ 13 :: 10 :: rest) } := by
        rw [step_clean_op h1 hb']
        simp
      have hs2 : step { s with mblk_level := 0, state := RDBP_READ_BULK_LEN, buffer := encNat p.length ++ 13 :: 10 :: (p ++ 13 :: 10 :: rest) } =
          .cont { s with mblk_level := 0, state := RDBP_READ_BULK, bulk_len := p.length, buffer := p ++ 13 :: 10 :: rest } :=
        read_bulk_len_step rfl rfl
      have hs3 : step { s with mblk_level := 0, state := RDBP_READ_BULK, bulk_len := p.length, buffer := p ++ 13 :: 10 :: rest } =
          _reply_completed { s with mblk_level := 0, state := RDBP_READ_BULK, bulk_len := p.length, buffer := rest } (.bulk (some p)) :=
        read_bulk_body_step rfl rfl rfl hvu
      exact ⟨{ s with mblk_level := 0, state := RDBP_READ_BULK, bulk_len := p.length, buffer := rest },
        Reaches.trans hs1 (Reaches.trans hs2 (Reaches.done (hs3.trans (rc_top rfl)))), rfl, rfl, rfl, rfl, rfl, rfl, Or.inl rfl⟩
  | nilArray =>
    have hb' : s.buffer = 42 :: (45 :: 49 :: 13 :: 10 :: rest) := by rw [h4]; simp [encFrame]
    have hs1 : step s = .cont { s with mblk_level := 1, state := RDBP_READ_MBLK_LEN, buffer := 45 :: 49 :: 13 :: 10 :: rest } := by
      rw [step_clean_op h1 hb']
      simp
    have hs2 : step { s with mblk_level := 1, state := RDBP_READ_MBLK_LEN, buffer := 45 :: 49 :: 13 :: 10 :: rest } =
        _reply_completed { s with mblk_level := 0, state := RDBP_READ_MBLK_LEN, buffer := rest } (.bulk none) :=
      read_mblk_nil_top_step rfl rfl rfl
    exact ⟨{ s with mblk_level := 0, state := RDBP_READ_MBLK_LEN, buffer := rest },
      Reaches.trans hs1 (Reaches.done (hs2.trans (rc_top rfl))), rfl, rfl, rfl, rfl, rfl, rfl, Or.inl rfl⟩
  | array items =>
    cases items with
    | nil =>
      have hb' : s.buffer = 42 :: (48 :: 13 :: 10 :: rest) := by
        rw [h4]; simp [encFrame, encFList, encNat, FrameList.length]
      have hs1 : step s = .cont { s with mblk_level := 1, state := RDBP_READ_MBLK_LEN, buffer := 48 :: 13 :: 10 :: rest } := by
        rw [step_clean_op h1 hb']
        simp
      have hs2 : step { s with mblk_level := 1, state := RDBP_READ_MBLK_LEN, buffer := 48 :: 13 :: 10 :: rest } =
          _reply_completed { s with mblk_level := 0, state := RDBP_READ_MBLK_LEN, buffer := rest } (.array []) :=
        read_mblk_empty_top_step rfl rfl rfl
      exact ⟨{ s with mblk_level := 0, state := RDBP_READ_MBLK_LEN, buffer := rest },
        Reaches.trans hs1 (Reaches.done (hs2.trans (rc_top rfl))), rfl, rfl, rfl, rfl, rfl, rfl, Or.inl rfl⟩
    | cons g gs =>
      have hwf' : g.WFb utf8 = true ∧ FrameList.WFb utf8 gs = true := by
        rw [Frame.WFb, FrameList.WFb] at hwf
        simpa using hwf
      have hb' : s.buffer = 42 :: (encNat (gs.length + 1) ++ 13 :: 10 :: (encFrame g ++ encFList gs ++ rest)) := by
        rw [h4]; simp [encFrame, encFList, FrameList.length]
      have hs1 : step s = .cont { s with mblk_level := 1, state := RDBP_READ_MBLK_LEN, buffer := encNat (gs.length + 1) ++ 13 :: 10 :: (encFrame g ++ encFList gs ++ rest) } := by
        rw [step_clean_op h1 hb']
        simp
      have hs2 : step { s with mblk_level := 1, state := RDBP_READ_MBLK_LEN, buffer := encNat (gs.length + 1) ++ 13 :: 10 :: (encFrame g ++ encFList gs ++ rest) } =
          .cont { s with mblk_level := 1, state := RDBP_WAIT_BUCKS, mblk_len := gs.length + 1, mblk_reply := some [], buffer := encFrame g ++ encFList gs ++ rest } := by
        rw [read_mblk_len_pos_step rfl rfl (by omega)]
      obtain ⟨bl, hr⟩ := frames_nested g gs utf8 hwf'.1 hwf'.2
        { s with mblk_level := 1, state := RDBP_WAIT_BUCKS, mblk_len := gs.length + 1, mblk_reply := some [], buffer := encFrame g ++ encFList gs ++ rest }
        [] rest rfl (by simp) h3 rfl rfl rfl
      have hr' : Reaches { s with mblk_level := 1, state := RDBP_WAIT_BUCKS, mblk_len := gs.length + 1, mblk_reply := some [], buffer := encFrame g ++ encFList gs ++ rest }
          (_reply_completed { s with mblk_level := 1, state := RDBP_WAIT_BUCKS, mblk_len := 1, mblk_reply := some ([] ++ frontVals g gs), buffer := rest, bulk_len := bl } (lastVal g gs)) := hr
      have hfin : _reply_completed { s with mblk_level := 1, state := RDBP_WAIT_BUCKS, mblk_len := 1, mblk_reply := some ([] ++ frontVals g gs), buffer := rest, bulk_len := bl } (lastVal g gs) =
          dispatchReply { s with mblk_level := 1, state := RDBP_WAIT_BUCKS, mblk_len := 1, mblk_reply := none, buffer := rest, bulk_len := bl } (.array (([] ++ frontVals g gs) ++ [lastVal g gs])) :=
        rc_final rfl rfl rfl
      rw [hfin] at hr'
      refine ⟨{ s with mblk_level := 1, state := RDBP_WAIT_BUCKS, mblk_len := 1, mblk_reply := none, buffer := rest, bulk_len := bl }, ?_, rfl, rfl, rfl, rfl, rfl, rfl, Or.inr rfl⟩
      have hval : frameVal (.array (.cons g gs)) = .array (([] ++ frontVals g gs) ++ [lastVal g gs]) := by
        rw [frameVal, fvalList_front_last g gs]
        simp
      rw [hval]
      exact Reaches.trans hs1 (Reaches.trans hs2 hr')

/-- With an empty buffer `rdb_parser__parse_reply` returns immediately
(`src/parser.c` line 291). -/
theorem step_empty {s : PState} (hb : s.buffer = []) : step s = .needMore s := by
  unfold step
  rw [if_pos hb]

/-- A parser in `RDBP_CLEAN` with a default callback installed makes a good
driver run over any buffer holding a whole well-formed encoded stream: every
frame is delivered and the run ends in a stable `needMore`. -/
theorem stream_goodrun : ∀ (frames : FrameList) (utf8 : Bool),
    FrameList.WFb utf8 frames = true → ∀ (d : Nat) (s : PState),
    s.state = RDBP_CLEAN → s.utf8 = utf8 → s.default_cb = some d →
    s.buffer = encFList frames → ∃ L t, GoodRun s L t
  | .nil, utf8, hwf, d, s, h1, h3, hd, hb => by
    refine ⟨[], s, .stop (.here (step_empty ?_))⟩
    rw [hb, encFList]
  | .cons g gs, utf8, hwf, d, s, h1, h3, hd, hb => by
    have hwf' : g.WFb utf8 = true ∧ FrameList.WFb utf8 gs = true := by
      rw [FrameList.WFb] at hwf
      simpa using hwf
    obtain ⟨X, hre, hXb, hXcb, hXd, hXr, hXu, hXs, -⟩ :=
      frame_deliver g utf8 hwf'.1 s (encFList gs) h1 h3 (by rw [hb, encFList])
    rcases dispatchReply_cases X (frameVal g) with
      ⟨c, cs, hcb, hdisp⟩ | ⟨hcb, d', hd', hdisp⟩ | ⟨hcb, hnone, hdisp⟩
    · rw [hdisp] at hre
      obtain ⟨L, t, hg⟩ := stream_goodrun gs utf8 hwf'.2 d
        { X with state := RDBP_CLEAN, callbacks := cs }
        rfl (by rw [show ({ X with state := RDBP_CLEAN, callbacks := cs } : PState).utf8 = X.utf8 from rfl, hXu, h3])
        (by rw [show ({ X with state := RDBP_CLEAN, callbacks := cs } : PState).default_cb = X.default_cb from rfl, hXd, hd])
        (by rw [show ({ X with state := RDBP_CLEAN, callbacks := cs } : PState).buffer = X.buffer from rfl, hXb])
      exact ⟨(c, X.redisdb, frameVal g) :: L, t, .cons (Reaches_deliver_Delivers hre) hg⟩
    · rw [hdisp] at hre
      obtain ⟨L, t, hg⟩ := stream_goodrun gs utf8 hwf'.2 d
        { X with state := RDBP_CLEAN }
        rfl (by rw [show ({ X with state := RDBP_CLEAN } : PState).utf8 = X.utf8 from rfl, hXu, h3])
        (by rw [show ({ X with state := RDBP_CLEAN } : PState).default_cb = X.default_cb from rfl, hXd, hd])
        (by rw [show ({ X with state := RDBP_CLEAN } : PState).buffer = X.buffer from rfl, hXb])
      exact ⟨(d', X.redisdb, frameVal g) :: L, t, .cons (Reaches_deliver_Delivers hre) hg⟩
    · rw [hXd, hd] at hnone
      cases hnone
termination_by frames => sizeOf frames

/-! ## Claim theorems -/

/-- Claim C1: for every valid RESP byte stream (a well-formed frame list) and
every partition of it into chunks, appending the chunks one at a time and
draining the parser (calling `rdb_parser__parse_reply` until it returns
`NeedMore`) after each append produces exactly the same callback invocations,
in the same order, and the same final parser state as appending the whole
stream at once and draining; mid-frame `NeedMore` suspension preserves all
parser state, which is what makes the chunked runs compose. -/
theorem claim_C1 (utf8 : Bool) (d : Nat) (frames : FrameList)
    (chunks : List (List Nat)) (s : PState)
    (hwf : FrameList.WFb utf8 frames = true)
    (hst : s.state = RDBP_CLEAN) (hbuf : s.buffer = []) (hu : s.utf8 = utf8)
    (hd : s.default_cb = some d)
    (hflat : chunks.flatten = encFList frames) :
    feed s chunks = runAll (s.appendBytes chunks.flatten) := by
  apply feed_eq_runAll
  · exact parse_reply_of_needMore (step_empty hbuf)
  · obtain ⟨L, T, hg⟩ := stream_goodrun frames utf8 hwf d (s.appendBytes chunks.flatten)
      hst hu hd
      (by rw [show (s.appendBytes chunks.flatten).buffer = s.buffer ++ chunks.flatten from rfl, hbuf, hflat]; simp)
    exact ⟨L, T, hg⟩

theorem claim_C1_witness :
    FrameList.WFb false (.cons (.simple [79, 75]) .nil) = true ∧
    ({ rdb_parser__init 5 false with default_cb := some 9 } : PState).state = RDBP_CLEAN ∧
    ({ rdb_parser__init 5 false with default_cb := some 9 } : PState).buffer = [] ∧
    ({ rdb_parser__init 5 false with default_cb := some 9 } : PState).utf8 = false ∧
    ({ rdb_parser__init 5 false with default_cb := some 9 } : PState).default_cb = some 9 ∧
    ([[43, 79], [75, 13, 10]] : List (List Nat)).flatten = encFList (.cons (.simple [79, 75]) .nil) ∧
    feed { rdb_parser__init 5 false with default_cb := some 9 } [[43, 79], [75, 13, 10]] =
      runAll (({ rdb_parser__init 5 false with default_cb := some 9 } : PState).appendBytes
        ([[43, 79], [75, 13, 10]] : List (List Nat)).flatten) :=
  ⟨rfl, rfl, rfl, rfl, rfl, rfl,
    claim_C1 false 9 (.cons (.simple [79, 75]) .nil) [[43, 79], [75, 13, 10]]
      { rdb_parser__init 5 false with default_cb := some 9 }
      rfl rfl rfl rfl rfl rfl⟩

/-- Claim C2 (as written) is false: after `parse_reply` returns `Delivered`
for the valid reply `*1\r\n:5\r\n`, the parser state is `Clean` but
`mblk_level` equals 1, not 0 — the reset to 0 only happens at the next
`RDBP_CLEAN` entry (`src/parser.c` line 294), never on delivery of a
multi-bulk reply. -/
theorem claim_C2_counterexample :
    rdb_parser__parse_reply
      { rdb_parser__init 5 false with default_cb := some 9, buffer := [42, 49, 13, 10, 58, 53, 13, 10] } =
      .delivered 9 5 (.array [.int 5])
        { rdb_parser__init 5 false with default_cb := some 9, mblk_level := 1, mblk_len := 1 } ∧
    ({ rdb_parser__init 5 false with default_cb := some 9, mblk_level := 1, mblk_len := 1 } : PState).state = RDBP_CLEAN ∧
    ¬ ({ rdb_parser__init 5 false with default_cb := some 9, mblk_level := 1, mblk_len := 1 } : PState).mblk_level = 0 :=
  ⟨rfl, rfl, by decide⟩

/-- Claim C2, amended: after `parse_reply` returns `Delivered` for a valid
RESP reply parsed from the clean state, the parser state equals `Clean`, but
`mblk_level` is merely 0 or 1 — it is 0 after a scalar or nil/empty-array
reply and stays 1 after a non-empty multi-bulk reply, being reset only at
the next `RDBP_CLEAN` entry. -/
theorem claim_C2 (utf8 : Bool) (f : Frame) (s : PState) (rest : List Nat)
    (hwf : f.WFb utf8 = true) (hst : s.state = RDBP_CLEAN) (hu : s.utf8 = utf8)
    (hb : s.buffer = encFrame f ++ rest)
    (hcb : s.callbacks ≠ [] ∨ s.default_cb ≠ none) :
    ∃ c t, rdb_parser__parse_reply s = .delivered c s.redisdb (frameVal f) t ∧
      t.state = RDBP_CLEAN ∧ (t.mblk_level = 0 ∨ t.mblk_level = 1) := by
  obtain ⟨X, hre, hXb, hXcb, hXd, hXr, hXu, hXs, hXl⟩ :=
    frame_deliver f utf8 hwf s rest hst hu hb
  rcases dispatchReply_cases X (frameVal f) with
    ⟨c, cs, hcba, hdisp⟩ | ⟨hcba, d', hd', hdisp⟩ | ⟨hcba, hnone, hdisp⟩
  · rw [hdisp] at hre
    refine ⟨c, { X with state := RDBP_CLEAN, callbacks := cs }, ?_, rfl, hXl⟩
    rw [← hXr]
    exact Delivers_parse (Reaches_deliver_Delivers hre)
  · rw [hdisp] at hre
    refine ⟨d', { X with state := RDBP_CLEAN }, ?_, rfl, hXl⟩
    rw [← hXr]
    exact Delivers_parse (Reaches_deliver_Delivers hre)
  · rw [hXcb] at hcba
    rw [hXd] at hnone
    rcases hcb with h | h
    · exact absurd hcba h
    · exact absurd hnone h

theorem claim_C2_witness :
    Frame.WFb false (.simple [79, 75]) = true ∧
    ({ rdb_parser__init 5 false with default_cb := some 9, buffer := [43, 79, 75, 13, 10] } : PState).state = RDBP_CLEAN ∧
    ({ rdb_parser__init 5 false with default_cb := some 9, buffer := [43, 79, 75, 13, 10] } : PState).utf8 = false ∧
    ({ rdb_parser__init 5 false with default_cb := some 9, buffer := [43, 79, 75, 13, 10] } : PState).buffer =
      encFrame (.simple [79, 75]) ++ [] ∧
    (({ rdb_parser__init 5 false with default_cb := some 9, buffer := [43, 79, 75, 13, 10] } : PState).callbacks ≠ [] ∨
      ({ rdb_parser__init 5 false with default_cb := some 9, buffer := [43, 79, 75, 13, 10] } : PState).default_cb ≠ none) ∧
    (∃ c t, rdb_parser__parse_reply
        { rdb_parser__init 5 false with default_cb := some 9, buffer := [43, 79, 75, 13, 10] } =
        .delivered c ({ rdb_parser__init 5 false with default_cb := some 9, buffer := [43, 79, 75, 13, 10] } : PState).redisdb
          (frameVal (.simple [79, 75])) t ∧
      t.state = RDBP_CLEAN ∧ (t.mblk_level = 0 ∨ t.mblk_level = 1)) :=
  ⟨rfl, rfl, rfl, rfl, Or.inr (by decide),
    claim_C2 false (.simple [79, 75])
      { rdb_parser__init 5 false with default_cb := some 9, buffer := [43, 79, 75, 13, 10] } []
      rfl rfl rfl rfl (Or.inr (by decide))⟩

/-- Claim C3's worked example is off by one: on the exact bytes
`$5\r\na\r\nb\r\n` the payload after the length line holds only 6 bytes
(`a\r\nb\r\n`) while a 5-byte bulk needs 7 (payload + CRLF), so
`parse_reply` returns `NeedMore` suspended in `RDBP_READ_BULK` — it does
not deliver `Bulk("a\r\nb")`. The behaviour the example describes belongs
to `$4\r\na\r\nb\r\n`, which does deliver `Bulk("a\r\nb")`. -/
theorem claim_C3_counterexample :
    rdb_parser__parse_reply { rdb_parser__init 5 false with default_cb := some 9, buffer := [36, 53, 13, 10, 97, 13, 10, 98, 13, 10] } =
      .needMore { rdb_parser__init 5 false with default_cb := some 9, state := RDBP_READ_BULK, bulk_len := 5, buffer := [97, 13, 10, 98, 13, 10] } ∧
    rdb_parser__parse_reply { rdb_parser__init 5 false with default_cb := some 9, buffer := [36, 52, 13, 10, 97, 13, 10, 98, 13, 10] } =
      .delivered 9 5 (.bulk (some [97, 13, 10, 98]))
        { rdb_parser__init 5 false with default_cb := some 9, state := RDBP_CLEAN, bulk_len := 4 } :=
  ⟨rfl, rfl⟩

/-- Claim C3, amended: in `RDBP_READ_BULK`, if the buffer holds fewer than
`bulk_len + 2` bytes `parse_reply` returns `NeedMore` with the parser
unchanged; otherwise one step copies exactly the first `bulk_len` bytes as
the bulk value (the length prefix is authoritative, so the payload may
contain CRLF) and consumes `bulk_len + 2` bytes; in utf8 mode an invalid
payload is a fatal error; and a `$-1` length line completes with a nil
bulk. The spec's `$5\r\na\r\nb\r\n` example, however, needs `$4`. -/
theorem claim_C3 :
    (∀ s : PState, s.state = RDBP_READ_BULK → s.buffer.length < s.bulk_len + 2 →
      rdb_parser__parse_reply s = .needMore s) ∧
    (∀ s : PState, s.state = RDBP_READ_BULK → s.bulk_len + 2 ≤ s.buffer.length →
      (s.utf8 = true → validUtf8 (s.buffer.take s.bulk_len) = true) →
      step s = _reply_completed { s with buffer := s.buffer.drop (s.bulk_len + 2) }
        (.bulk (some (s.buffer.take s.bulk_len)))) ∧
    (∀ s : PState, s.state = RDBP_READ_BULK → s.bulk_len + 2 ≤ s.buffer.length →
      s.utf8 = true → validUtf8 (s.buffer.take s.bulk_len) = false →
      rdb_parser__parse_reply s = .fatal "Received invalid UTF-8 string from the server") ∧
    (∀ (s : PState) (rest : List Nat), s.state = RDBP_READ_BULK_LEN →
      s.buffer = 45 :: 49 :: 13 :: 10 :: rest →
      step s = _reply_completed { s with buffer := rest } (.bulk none)) := by
  refine ⟨?_, ?_, ?_, ?_⟩
  · intro s hst hlt
    by_cases hbe : s.buffer = []
    · exact parse_reply_of_needMore (step_empty hbe)
    · by_cases h2 : 2 ≤ s.buffer.length
      · apply parse_reply_of_needMore
        rw [step_read_bulk_eq hst h2]
        rw [if_pos (by omega)]
      · apply parse_reply_of_needMore
        have hl2 : s.buffer.length < 2 := by omega
        simp [step, hbe, hst, hl2]
  · intro s hst hlen hu
    rw [step_read_bulk_eq hst (by omega)]
    rw [if_neg (by omega)]
    rw [if_neg (by rintro ⟨hut, hv⟩; exact hv (hu hut))]
  · intro s hst hlen hut hv
    apply parse_reply_of_fatal
    rw [step_read_bulk_eq hst (by omega)]
    rw [if_neg (by omega)]
    rw [if_pos (And.intro hut (by simp [hv]))]
  · intro s rest hst hb
    exact read_bulk_nil_step hst hb

theorem claim_C3_witness :
    (({ rdb_parser__init 5 false with state := RDBP_READ_BULK, bulk_len := 5, buffer := [97, 13, 10] } : PState).state = RDBP_READ_BULK ∧
      ({ rdb_parser__init 5 false with state := RDBP_READ_BULK, bulk_len := 5, buffer := [97, 13, 10] } : PState).buffer.length <
        ({ rdb_parser__init 5 false with state := RDBP_READ_BULK, bulk_len := 5, buffer := [97, 13, 10] } : PState).bulk_len + 2 ∧
      rdb_parser__parse_reply { rdb_parser__init 5 false with state := RDBP_READ_BULK, bulk_len := 5, buffer := [97, 13, 10] } =
        .needMore { rdb_parser__init 5 false with state := RDBP_READ_BULK, bulk_len := 5, buffer := [97, 13, 10] }) ∧
    (step { rdb_parser__init 5 false with state := RDBP_READ_BULK, bulk_len := 1, buffer := [97, 13, 10] } =
      _reply_completed { { rdb_parser__init 5 false with state := RDBP_READ_BULK, bulk_len := 1, buffer := [97, 13, 10] } with
          buffer := ({ rdb_parser__init 5 false with state := RDBP_READ_BULK, bulk_len := 1, buffer := [97, 13, 10] } : PState).buffer.drop
            (({ rdb_parser__init 5 false with state := RDBP_READ_BULK, bulk_len := 1, buffer := [97, 13, 10] } : PState).bulk_len + 2) }
        (.bulk (some (({ rdb_parser__init 5 false with state := RDBP_READ_BULK, bulk_len := 1, buffer := [97, 13, 10] } : PState).buffer.take
          ({ rdb_parser__init 5 false with state := RDBP_READ_BULK, bulk_len := 1, buffer := [97, 13, 10] } : PState).bulk_len)))) ∧
    (rdb_parser__parse_reply { rdb_parser__init 5 true with state := RDBP_READ_BULK, bulk_len := 1, buffer := [200, 13, 10] } =
      .fatal "Received invalid UTF-8 string from the server") ∧
    (step { rdb_parser__init 5 false with state := RDBP_READ_BULK_LEN, buffer := [45, 49, 13, 10] } =
      _reply_completed { { rdb_parser__init 5 false with state := RDBP_READ_BULK_LEN, buffer := [45, 49, 13, 10] } with buffer := [] } (.bulk none)) :=
  ⟨⟨rfl, by decide,
      claim_C3.1 { rdb_parser__init 5 false with state := RDBP_READ_BULK, bulk_len := 5, buffer := [97, 13, 10] } rfl (by decide)⟩,
    claim_C3.2.1 { rdb_parser__init 5 false with state := RDBP_READ_BULK, bulk_len := 1, buffer := [97, 13, 10] } rfl (by decide) (by decide),
    claim_C3.2.2.1 { rdb_parser__init 5 true with state := RDBP_READ_BULK, bulk_len := 1, buffer := [200, 13, 10] } rfl (by decide) rfl (by decide),
    claim_C3.2.2.2 { rdb_parser__init 5 false with state := RDBP_READ_BULK_LEN, buffer := [45, 49, 13, 10] } [] rfl rfl⟩

/-- Claim C4: reading a multi-bulk header in `RDBP_READ_MBLK_LEN`:
a positive length starts a fresh empty array with that remaining count and
moves to `RDBP_WAIT_BUCKS`; length 0 completes with an empty array and
length -1 completes with a nil bulk value (not a distinct nil-array value);
in both completing cases `mblk_level` is decremented, and if it is still
positive the outer frame is popped from the stack into
`mblk_reply`/`mblk_len` before the value joins the enclosing array. -/
theorem claim_C4 :
    (∀ (s : PState) (len : Int) (rest : List Nat), s.state = RDBP_READ_MBLK_LEN →
      _read_length s.buffer = some (len, rest) → 0 < len →
      step s = .cont { s with mblk_len := len.toNat, state := RDBP_WAIT_BUCKS,
                              mblk_reply := some [], buffer := rest }) ∧
    (∀ (s : PState) (rest : List Nat) (r : Option (List Value)) (l : Nat)
        (st' : List (Option (List Value) × Nat)), s.state = RDBP_READ_MBLK_LEN →
      _read_length s.buffer = some (0, rest) → 1 < s.mblk_level →
      s.mblk_store = (r, l) :: st' →
      step s = _reply_completed
        { s with buffer := rest, mblk_level := s.mblk_level - 1,
                 mblk_len := l, mblk_reply := r, mblk_store := st' } (.array [])) ∧
    (∀ (s : PState) (rest : List Nat) (r : Option (List Value)) (l : Nat)
        (st' : List (Option (List Value) × Nat)), s.state = RDBP_READ_MBLK_LEN →
      _read_length s.buffer = some (-1, rest) → 1 < s.mblk_level →
      s.mblk_store = (r, l) :: st' →
      step s = _reply_completed
        { s with buffer := rest, mblk_level := s.mblk_level - 1,
                 mblk_len := l, mblk_reply := r, mblk_store := st' } (.bulk none)) ∧
    (∀ (s : PState) (rest : List Nat), s.state = RDBP_READ_MBLK_LEN →
      _read_length s.buffer = some (0, rest) → s.mblk_level = 1 →
      step s = _reply_completed
        { s with buffer := rest, mblk_level := s.mblk_level - 1 } (.array [])) ∧
    (∀ (s : PState) (rest : List Nat), s.state = RDBP_READ_MBLK_LEN →
      _read_length s.buffer = some (-1, rest) → s.mblk_level = 1 →
      step s = _reply_completed
        { s with buffer := rest, mblk_level := s.mblk_level - 1 } (.bulk none)) := by
  refine ⟨?_, ?_, ?_, ?_, ?_⟩
  · intro s len rest hst h hn
    rw [step_read_mblk_len_eq hst (_read_length_len h).1, h]
    simp [hn]
  · intro s rest r l st' hst h hlv hstore
    rw [step_read_mblk_len_eq hst (_read_length_len h).1, h, hstore]
    simp [show (0 : Int) < s.mblk_level - 1 from by omega]
  · intro s rest r l st' hst h hlv hstore
    rw [step_read_mblk_len_eq hst (_read_length_len h).1, h, hstore]
    simp [show (0 : Int) < s.mblk_level - 1 from by omega]
  · intro s rest hst h hlv
    rw [step_read_mblk_len_eq hst (_read_length_len h).1, h]
    simp [hlv]
  · intro s rest hst h hlv
    rw [step_read_mblk_len_eq hst (_read_length_len h).1, h]
    simp [hlv]

theorem claim_C4_witness :
    (_read_length ({ rdb_parser__init 5 false with state := RDBP_READ_MBLK_LEN, mblk_level := 1, buffer := [50, 13, 10] } : PState).buffer = some (2, []) ∧
      step { rdb_parser__init 5 false with state := RDBP_READ_MBLK_LEN, mblk_level := 1, buffer := [50, 13, 10] } =
        .cont { rdb_parser__init 5 false with state := RDBP_WAIT_BUCKS, mblk_level := 1, buffer := [], mblk_len := 2, mblk_reply := some [] }) ∧
    (_read_length ({ rdb_parser__init 5 false with state := RDBP_READ_MBLK_LEN, mblk_level := 2, mblk_store := [(some [.int 7], 3)], buffer := [48, 13, 10] } : PState).buffer = some (0, []) ∧
      (1 : Int) < ({ rdb_parser__init 5 false with state := RDBP_READ_MBLK_LEN, mblk_level := 2, mblk_store := [(some [.int 7], 3)], buffer := [48, 13, 10] } : PState).mblk_level ∧
      step { rdb_parser__init 5 false with state := RDBP_READ_MBLK_LEN, mblk_level := 2, mblk_store := [(some [.int 7], 3)], buffer := [48, 13, 10] } =
        _reply_completed { rdb_parser__init 5 false with state := RDBP_READ_MBLK_LEN, mblk_level := 1, mblk_len := 3, mblk_reply := some [.int 7], mblk_store := [], buffer := [] } (.array [])) ∧
    (_read_length ({ rdb_parser__init 5 false with state := RDBP_READ_MBLK_LEN, mblk_level := 2, mblk_store := [(some [.int 7], 3)], buffer := [45, 49, 13, 10] } : PState).buffer = some (-1, []) ∧
      step { rdb_parser__init 5 false with state := RDBP_READ_MBLK_LEN, mblk_level := 2, mblk_store := [(some [.int 7], 3)], buffer := [45, 49, 13, 10] } =
        _reply_completed { rdb_parser__init 5 false with state := RDBP_READ_MBLK_LEN, mblk_level := 1, mblk_len := 3, mblk_reply := some [.int 7], mblk_store := [], buffer := [] } (.bulk none)) ∧
    (step { rdb_parser__init 5 false with state := RDBP_READ_MBLK_LEN, mblk_level := 1, buffer := [48, 13, 10] } =
      _reply_completed { rdb_parser__init 5 false with state := RDBP_READ_MBLK_LEN, mblk_level := 0, buffer := [] } (.array [])) ∧
    (step { rdb_parser__init 5 false with state := RDBP_READ_MBLK_LEN, mblk_level := 1, buffer := [45, 49, 13, 10] } =
      _reply_completed { rdb_parser__init 5 false with state := RDBP_READ_MBLK_LEN, mblk_level := 0, buffer := [] } (.bulk none)) :=
  ⟨⟨rfl, claim_C4.1 { rdb_parser__init 5 false with state := RDBP_READ_MBLK_LEN, mblk_level := 1, buffer := [50, 13, 10] } 2 [] rfl rfl (by decide)⟩,
    ⟨rfl, by decide, claim_C4.2.1 { rdb_parser__init 5 false with state := RDBP_READ_MBLK_LEN, mblk_level := 2, mblk_store := [(some [.int 7], 3)], buffer := [48, 13, 10] } [] (some [.int 7]) 3 [] rfl rfl (by decide) rfl⟩,
    ⟨rfl, claim_C4.2.2.1 { rdb_parser__init 5 false with state := RDBP_READ_MBLK_LEN, mblk_level := 2, mblk_store := [(some [.int 7], 3)], buffer := [45, 49, 13, 10] } [] (some [.int 7]) 3 [] rfl rfl (by decide) rfl⟩,
    claim_C4.2.2.2.1 { rdb_parser__init 5 false with state := RDBP_READ_MBLK_LEN, mblk_level := 1, buffer := [48, 13, 10] } [] rfl rfl rfl,
    claim_C4.2.2.2.2 { rdb_parser__init 5 false with state := RDBP_READ_MBLK_LEN, mblk_level := 1, buffer := [45, 49, 13, 10] } [] rfl rfl rfl⟩

/-- Claim C5: whenever `parse_reply` delivers a completed top-level reply it
invokes exactly one callback with `(client_handle, reply)`: the head of the
FIFO is popped and used if the FIFO is non-empty, otherwise the default
callback is used and remains installed; and if the FIFO is empty and no
default callback is set, completion fails fatally with the source's croak
message. (In the model each `delivered` result is exactly one invocation, so
invocations and delivered replies correspond one to one by construction.) -/
theorem claim_C5 :
    (∀ (s t : PState) (c hd : Nat) (v : Value),
      rdb_parser__parse_reply s = .delivered c hd v t →
      hd = s.redisdb ∧ t.default_cb = s.default_cb ∧
      ((∃ cs, s.callbacks = c :: cs ∧ t.callbacks = cs) ∨
       (s.callbacks = [] ∧ s.default_cb = some c ∧ t.callbacks = []))) ∧
    (∀ (s : PState) (v : Value), s.callbacks = [] → s.default_cb = none →
      dispatchReply s v =
        .fatal "No callbacks in the queue and no default callback set") := by
  refine ⟨?_, ?_⟩
  · intro s t c hd v h
    obtain ⟨h1, _, _, _, _, h6, h8⟩ := parse_reply_deliver_inv h
    exact ⟨h1, h6, h8⟩
  · intro s v hcb hd
    simp [dispatchReply, hcb, hd]

theorem claim_C5_witness :
    (rdb_parser__parse_reply { rdb_parser__init 5 false with callbacks := [4, 8], buffer := [43, 79, 75, 13, 10] } =
        .delivered 4 5 (.simple [79, 75]) { rdb_parser__init 5 false with callbacks := [8] } ∧
      (5 = ({ rdb_parser__init 5 false with callbacks := [4, 8], buffer := [43, 79, 75, 13, 10] } : PState).redisdb ∧
        ({ rdb_parser__init 5 false with callbacks := [8] } : PState).default_cb =
          ({ rdb_parser__init 5 false with callbacks := [4, 8], buffer := [43, 79, 75, 13, 10] } : PState).default_cb ∧
        ((∃ cs, ({ rdb_parser__init 5 false with callbacks := [4, 8], buffer := [43, 79, 75, 13, 10] } : PState).callbacks = 4 :: cs ∧
            ({ rdb_parser__init 5 false with callbacks := [8] } : PState).callbacks = cs) ∨
          (({ rdb_parser__init 5 false with callbacks := [4, 8], buffer := [43, 79, 75, 13, 10] } : PState).callbacks = [] ∧
            ({ rdb_parser__init 5 false with callbacks := [4, 8], buffer := [43, 79, 75, 13, 10] } : PState).default_cb = some 4 ∧
            ({ rdb_parser__init 5 false with callbacks := [8] } : PState).callbacks = [])))) ∧
    ((rdb_parser__init 5 false).callbacks = [] ∧ (rdb_parser__init 5 false).default_cb = none ∧
      dispatchReply (rdb_parser__init 5 false) (.int 1) =
        .fatal "No callbacks in the queue and no default callback set") :=
  ⟨⟨rfl, claim_C5.1 { rdb_parser__init 5 false with callbacks := [4, 8], buffer := [43, 79, 75, 13, 10] }
      { rdb_parser__init 5 false with callbacks := [8] } 4 5 (.simple [79, 75]) rfl⟩,
    rfl, rfl, claim_C5.2 (rdb_parser__init 5 false) (.int 1) rfl rfl⟩

theorem propagateLoop_eq : ∀ (cbs : List Nat) (d : Option Nat),
    propagateLoop cbs d = cbs ++ (match d with | some x => [x] | none => [])
  | [], some _ => rfl
  | [], none => rfl
  | c :: cs, d => by rw [propagateLoop, propagateLoop_eq cs d]; simp

/-- Claim C6: `propagate(reply)` invokes all pending FIFO callbacks in FIFO
order and then the default callback if one is set, each with
`(client_handle, reply)`; afterwards the FIFO is empty and the default
callback is cleared (consumed), while the rest of the parser (buffer,
state, multi-bulk data) is untouched. -/
theorem claim_C6 (s : PState) (reply : Value) :
    (rdb_parser__propagate_reply s reply).1 =
      (s.callbacks ++ (match s.default_cb with | some d => [d] | none => [])).map
        (fun c => (c, s.redisdb, reply)) ∧
    (rdb_parser__propagate_reply s reply).2.callbacks = [] ∧
    (rdb_parser__propagate_reply s reply).2.default_cb = none ∧
    (rdb_parser__propagate_reply s reply).2.buffer = s.buffer ∧
    (rdb_parser__propagate_reply s reply).2.state = s.state ∧
    (rdb_parser__propagate_reply s reply).2.mblk_level = s.mblk_level ∧
    (rdb_parser__propagate_reply s reply).2.mblk_reply = s.mblk_reply ∧
    (rdb_parser__propagate_reply s reply).2.mblk_store = s.mblk_store := by
  refine ⟨?_, rfl, rfl, rfl, rfl, rfl, rfl, rfl⟩
  show (propagateLoop s.callbacks s.default_cb).map (fun c => (c, s.redisdb, reply)) = _
  rw [propagateLoop_eq]

/-- Claim C7: a type tag byte is consumed exactly when entering from
`RDBP_CLEAN` or awaiting a nested item in `RDBP_WAIT_BUCKS` (the latter only
once at least two bytes are buffered); exactly one byte is consumed, the
tags `+ - : $ *` map to `RDBP_READ_LINE`, `RDBP_READ_ERROR`,
`RDBP_READ_NUMBER`, `RDBP_READ_BULK_LEN`, `RDBP_READ_MBLK_LEN`
respectively, and any other byte is a fatal protocol error; in
`RDBP_WAIT_BUCKS` the `*` tag additionally pushes the current
`(mblk_reply, mblk_len)` frame and increments `mblk_level`, while from
`RDBP_CLEAN` it sets `mblk_level` to 1 (after the entry reset to 0). -/
theorem claim_C7 :
    (∀ (s : PState) (op : Nat) (rest : List Nat),
      s.state = RDBP_CLEAN → s.buffer = op :: rest →
      step s =
        (if op = 43 then .cont { s with mblk_level := 0, state := RDBP_READ_LINE, buffer := rest }
         else if op = 45 then .cont { s with mblk_level := 0, state := RDBP_READ_ERROR, buffer := rest }
         else if op = 58 then .cont { s with mblk_level := 0, state := RDBP_READ_NUMBER, buffer := rest }
         else if op = 36 then .cont { s with mblk_level := 0, state := RDBP_READ_BULK_LEN, buffer := rest }
         else if op = 42 then .cont { s with mblk_level := 1, state := RDBP_READ_MBLK_LEN, buffer := rest }
         else .fatal "Got invalid reply")) ∧
    (∀ (s : PState) (op : Nat) (rest : List Nat),
      s.state = RDBP_WAIT_BUCKS → s.buffer = op :: rest → rest ≠ [] →
      step s =
        (if op = 36 then .cont { s with state := RDBP_READ_BULK_LEN, buffer := rest }
         else if op = 58 then .cont { s with state := RDBP_READ_NUMBER, buffer := rest }
         else if op = 43 then .cont { s with state := RDBP_READ_LINE, buffer := rest }
         else if op = 45 then .cont { s with state := RDBP_READ_ERROR, buffer := rest }
         else if op = 42 then .cont { s with state := RDBP_READ_MBLK_LEN,
                                              mblk_level := s.mblk_level + 1,
                                              mblk_store := (s.mblk_reply, s.mblk_len) :: s.mblk_store,
                                              mblk_reply := none, buffer := rest }
         else .fatal "Invalid multi-bulk reply. Expected [$:+-*] but got something else")) :=
  ⟨fun _ _ _ hst hb => step_clean_op hst hb,
   fun _ _ _ hst hb hr => step_wb_op hst hb hr⟩

theorem claim_C7_witness :
    (({ rdb_parser__init 5 false with mblk_level := 1, buffer := [43, 79] } : PState).state = RDBP_CLEAN ∧
      ({ rdb_parser__init 5 false with mblk_level := 1, buffer := [43, 79] } : PState).buffer = 43 :: [79] ∧
      step { rdb_parser__init 5 false with mblk_level := 1, buffer := [43, 79] } =
        .cont { rdb_parser__init 5 false with mblk_level := 0, state := RDBP_READ_LINE, buffer := [79] }) ∧
    (step { rdb_parser__init 5 false with buffer := [99, 79] } = .fatal "Got invalid reply") ∧
    (({ rdb_parser__init 5 false with state := RDBP_WAIT_BUCKS, mblk_level := 1, mblk_len := 2, mblk_reply := some [], buffer := [42, 48] } : PState).state = RDBP_WAIT_BUCKS ∧
      ([48] : List Nat) ≠ [] ∧
      step { rdb_parser__init 5 false with state := RDBP_WAIT_BUCKS, mblk_level := 1, mblk_len := 2, mblk_reply := some [], buffer := [42, 48] } =
        .cont { rdb_parser__init 5 false with state := RDBP_READ_MBLK_LEN, mblk_level := 2, mblk_store := [(some [], 2)], mblk_reply := none, mblk_len := 2, buffer := [48] }) ∧
    (step { rdb_parser__init 5 false with state := RDBP_WAIT_BUCKS, buffer := [99, 79] } =
      .fatal "Invalid multi-bulk reply. Expected [$:+-*] but got something else") :=
  ⟨⟨rfl, rfl, claim_C7.1 { rdb_parser__init 5 false with mblk_level := 1, buffer := [43, 79] } 43 [79] rfl rfl⟩,
    claim_C7.1 { rdb_parser__init 5 false with buffer := [99, 79] } 99 [79] rfl rfl,
    ⟨rfl, by decide,
      claim_C7.2 { rdb_parser__init 5 false with state := RDBP_WAIT_BUCKS, mblk_level := 1, mblk_len := 2, mblk_reply := some [], buffer := [42, 48] } 42 [48] rfl rfl (by decide)⟩,
    claim_C7.2 { rdb_parser__init 5 false with state := RDBP_WAIT_BUCKS, buffer := [99, 79] } 99 [79] rfl rfl (by decide)⟩

/-- Claim C8: the line reader is atomic with respect to the buffer: if the
first CRLF of the buffer sits at offset `k`, `_read_line` returns exactly
the bytes `[0, k)` and consumes exactly `k + 2` bytes; if no CRLF exists it
returns pending (`none`) and nothing is consumed; and any terminator it
finds lies entirely in bounds (`k + 2 ≤ length`), matching the scan bound
`i < length - 1`. -/
theorem claim_C8 :
    (∀ (b : List Nat) (k : Nat), crlfAt b k → (∀ j < k, ¬ crlfAt b j) →
      _read_line b = some (b.take k, b.drop (k + 2))) ∧
    (∀ b : List Nat, (∀ k, ¬ crlfAt b k) → _read_line b = none) ∧
    (∀ (b : List Nat) (k : Nat), _line_length b = some k → k + 2 ≤ b.length) ∧
    (∀ (b line rest : List Nat), _read_line b = some (line, rest) →
      ∃ k, crlfAt b k ∧ (∀ j < k, ¬ crlfAt b j) ∧
        line = b.take k ∧ rest = b.drop (k + 2)) := by
  refine ⟨?_, ?_, ?_, ?_⟩
  · intro b k hc hmin
    rw [_read_line, _line_length_of_crlf hc hmin]
  · intro b h
    rw [_read_line, _line_length_of_noCRLF h]
  · intro b k h
    exact _line_length_le h
  · intro b line rest h
    obtain ⟨-, -, k, hll, hline, hrest⟩ := _read_line_len h
    obtain ⟨hc, hmin⟩ := _line_length_spec hll
    exact ⟨k, hc, hmin, hline, hrest⟩

theorem claim_C8_witness :
    (crlfAt [97, 13, 10] 1 ∧ (∀ j < 1, ¬ crlfAt [97, 13, 10] j) ∧
      _read_line [97, 13, 10] = some ([97, 13, 10].take 1, [97, 13, 10].drop 3)) ∧
    ((∀ k, ¬ crlfAt [97, 98] k) ∧ _read_line [97, 98] = none) ∧
    (_line_length [97, 13, 10] = some 1 ∧ 1 + 2 ≤ [97, 13, 10].length) ∧
    (_read_line [97, 13, 10] = some ([97], []) ∧
      ∃ k, crlfAt [97, 13, 10] k ∧ (∀ j < k, ¬ crlfAt [97, 13, 10] j) ∧
        [97] = [97, 13, 10].take k ∧ [] = [97, 13, 10].drop (k + 2)) :=
  ⟨⟨by decide, by decide, claim_C8.1 [97, 13, 10] 1 (by decide) (by decide)⟩,
    ⟨noCRLFb_no_pair (by decide), claim_C8.2.1 [97, 98] (noCRLFb_no_pair (by decide))⟩,
    ⟨rfl, claim_C8.2.2.1 [97, 13, 10] 1 rfl⟩,
    ⟨rfl, claim_C8.2.2.2 [97, 13, 10] [97] [] rfl⟩⟩

/-- Claim C9: `_read_number` parses the framed line with C `atol` semantics:
a well-formed signed decimal line yields exactly its value (`:123\r\n`
delivers `Integer(123)`, and a leading `+` or `-` sign is accepted); on
non-numeric content it silently yields the value of the longest numeric
prefix, or 0 when the line starts with a non-numeric byte, never an
error. -/
theorem claim_C9 :
    (∀ (n : Int) (rest : List Nat),
      _read_number (encInt n ++ 13 :: 10 :: rest) = some (n, rest)) ∧
    (∀ ds : List Nat, (∀ c ∈ ds, 48 ≤ c ∧ c ≤ 57) →
      atol ds = decVal ds ∧ atol (43 :: ds) = decVal ds ∧
        atol (45 :: ds) = - decVal ds) ∧
    (∀ (c : Nat) (ds junk : List Nat), 48 ≤ c → c ≤ 57 →
      (∀ x ∈ ds, 48 ≤ x ∧ x ≤ 57) →
      (∀ j js, junk = j :: js → ¬ (48 ≤ j ∧ j ≤ 57)) →
      atol ((c :: ds) ++ junk) = decVal (c :: ds)) ∧
    (∀ b : List Nat,
      (∀ j js, b = j :: js →
        ¬ (48 ≤ j ∧ j ≤ 57) ∧ j ≠ 45 ∧ j ≠ 43 ∧ isspace j = false) →
      atol b = 0) ∧
    (rdb_parser__parse_reply { rdb_parser__init 5 false with default_cb := some 9, buffer := [58, 49, 50, 51, 13, 10] } =
      .delivered 9 5 (.int 123) { rdb_parser__init 5 false with default_cb := some 9 }) := by
  refine ⟨?_, ?_, ?_, ?_, rfl⟩
  · intro n rest
    rw [_read_number_frame (noCRLFb_encInt n), atol_encInt]
  · intro ds h
    refine ⟨?_, ?_, ?_⟩
    · cases ds with
      | nil => rfl
      | cons c cs =>
        rw [atol, skipws_nonspace cs (isspace_digit_false (h c (by simp)).1)]
        rw [atolSigned, if_neg (by have := (h c (by simp)).1; omega),
          if_neg (by have := (h c (by simp)).1; omega)]
        exact atolDigits_eq_foldl _ 0 h
    · rw [atol, skipws_nonspace ds (by decide)]
      rw [atolSigned, if_neg (by decide), if_pos rfl]
      exact atolDigits_eq_foldl _ 0 h
    · rw [atol, skipws_nonspace ds (by decide)]
      rw [atolSigned, if_pos rfl]
      rw [atolDigits_eq_foldl _ 0 h]
      rfl
  · intro c ds junk h48 h57 hds hjunk
    rw [show (c :: ds) ++ junk = c :: (ds ++ junk) from rfl]
    rw [atol, skipws_nonspace _ (isspace_digit_false h48)]
    rw [atolSigned, if_neg (by omega), if_neg (by omega)]
    rw [show c :: (ds ++ junk) = (c :: ds) ++ junk from rfl]
    rw [atolDigits_append_stop _ _ _ hjunk]
    exact atolDigits_eq_foldl _ 0 (by
      intro x hx
      rcases List.mem_cons.mp hx with hx | hx
      · subst hx; exact ⟨h48, h57⟩
      · exact hds x hx)
  · intro b hb
    cases b with
    | nil => rfl
    | cons j js =>
      obtain ⟨hnd, h45, h43, hsp⟩ := hb j js rfl
      rw [atol, skipws_nonspace js hsp, atolSigned, if_neg h45, if_neg h43,
        atolDigits, if_neg hnd]

theorem claim_C9_witness :
    (_read_number (encInt 0 ++ 13 :: 10 :: []) = some (0, [])) ∧
    ((∀ c ∈ [49, 50], 48 ≤ c ∧ c ≤ 57) ∧
      (atol [49, 50] = decVal [49, 50] ∧ atol (43 :: [49, 50]) = decVal [49, 50] ∧
        atol (45 :: [49, 50]) = - decVal [49, 50])) ∧
    ((∀ x ∈ ([] : List Nat), 48 ≤ x ∧ x ≤ 57) ∧
      atol ((49 :: []) ++ [120]) = decVal (49 :: [])) ∧
    (atol [120] = 0) :=
  ⟨claim_C9.1 0 [],
    ⟨by decide, claim_C9.2.1 [49, 50] (by decide)⟩,
    ⟨by decide, claim_C9.2.2.1 49 [] [120] (by decide) (by decide) (by decide)
      (by intro j js h; cases h; decide)⟩,
    claim_C9.2.2.2.1 [120]
      (by intro j js h; cases h; decide)⟩

theorem claim_C6_witness :
    (rdb_parser__propagate_reply { rdb_parser__init 5 false with callbacks := [1, 2, 3], default_cb := some 7, buffer := [99] } (.err [69])).1 =
      (([1, 2, 3] : List Nat) ++ [7]).map (fun c => (c, 5, Value.err [69])) ∧
    (rdb_parser__propagate_reply { rdb_parser__init 5 false with callbacks := [1, 2, 3], default_cb := some 7, buffer := [99] } (.err [69])).2.callbacks = [] ∧
    (rdb_parser__propagate_reply { rdb_parser__init 5 false with callbacks := [1, 2, 3], default_cb := some 7, buffer := [99] } (.err [69])).2.default_cb = none ∧
    (rdb_parser__propagate_reply { rdb_parser__init 5 false with callbacks := [1, 2, 3], default_cb := some 7, buffer := [99] } (.err [69])).2.buffer = [99] ∧
    (rdb_parser__propagate_reply { rdb_parser__init 5 false with callbacks := [1, 2, 3], default_cb := some 7, buffer := [99] } (.err [69])).2.state = RDBP_CLEAN ∧
    (rdb_parser__propagate_reply { rdb_parser__init 5 false with callbacks := [1, 2, 3], default_cb := some 7, buffer := [99] } (.err [69])).2.mblk_level = 0 ∧
    (rdb_parser__propagate_reply { rdb_parser__init 5 false with callbacks := [1, 2, 3], default_cb := some 7, buffer := [99] } (.err [69])).2.mblk_reply = none ∧
    (rdb_parser__propagate_reply { rdb_parser__init 5 false with callbacks := [1, 2, 3], default_cb := some 7, buffer := [99] } (.err [69])).2.mblk_store = [] :=
  claim_C6 { rdb_parser__init 5 false with callbacks := [1, 2, 3], default_cb := some 7, buffer := [99] } (.err [69])

/-- Claim C10: in every parser state, calling `rdb_parser__parse_reply` with
an empty buffer returns `NeedMore` with the very same parser: nothing is
consumed (no tag byte even in `RDBP_CLEAN`), no fatal error is raised, and
buffer, state, multi-bulk data, callbacks and default callback are all
unchanged (the returned parser is `s` itself). -/
theorem claim_C10 (s : PState) (hb : s.buffer = []) :
    rdb_parser__parse_reply s = .needMore s :=
  parse_reply_of_needMore (step_empty hb)

theorem claim_C10_witness :
    ({ rdb_parser__init 5 false with state := RDBP_WAIT_BUCKS, mblk_level := 3, callbacks := [4] } : PState).buffer = [] ∧
    rdb_parser__parse_reply { rdb_parser__init 5 false with state := RDBP_WAIT_BUCKS, mblk_level := 3, callbacks := [4] } =
      .needMore { rdb_parser__init 5 false with state := RDBP_WAIT_BUCKS, mblk_level := 3, callbacks := [4] } :=
  ⟨rfl, claim_C10 { rdb_parser__init 5 false with state := RDBP_WAIT_BUCKS, mblk_level := 3, callbacks := [4] } rfl⟩

end RedisDB
